import Mathlib

/-!
# RBC admin console: shallow embedding and verified properties

The console is a set of React pages (`src/pages/*.jsx`) bound to a hosted
document database.  The embedding below models

* JavaScript values, strings, objects and the two built-ins the pages rely on
  (`String.prototype.trim`, `RegExp.prototype.test`);
* the page state kept in `useState` cells, as one record per page;
* the effects of a handler (database requests, console output, alerts) as a
  trace of events, with the database as an abstract backend.
-/

namespace RBC

/-! ## JavaScript strings -/

/-- ECMAScript LineTerminator code points: LF, CR, LS, PS. -/
def isLineTerminator (c : Char) : Bool :=
  c.toNat == 0x0A || c.toNat == 0x0D || c.toNat == 0x2028 || c.toNat == 0x2029

/-- ECMAScript WhiteSpace code points: TAB, VT, FF, ZWNBSP and the category Zs. -/
def isWhiteSpace (c : Char) : Bool :=
  c.toNat == 0x09 || c.toNat == 0x0B || c.toNat == 0x0C || c.toNat == 0x20 ||
  c.toNat == 0xA0 || c.toNat == 0x1680 || (0x2000 ≤ c.toNat && c.toNat ≤ 0x200A) ||
  c.toNat == 0x202F || c.toNat == 0x205F || c.toNat == 0x3000 || c.toNat == 0xFEFF

/-- Characters removed by `String.prototype.trim`: WhiteSpace and LineTerminator. -/
def isTrimmed (c : Char) : Bool := isWhiteSpace c || isLineTerminator c

/-- The algorithm of `String.prototype.trim` on the character list. -/
def trimChars (l : List Char) : List Char :=
  ((l.dropWhile isTrimmed).reverse.dropWhile isTrimmed).reverse

/-- The method call `s.trim()`. -/
def trim (s : String) : String := ⟨trimChars s.data⟩

/-! ## Regular expressions

The only pattern of the repository is `/^https?:\/\/.+\..+/i`.  It is built
from single-character atoms carrying a quantifier, so the embedding covers
exactly that fragment: a pattern is a sequence of quantified atoms, matched by
backtracking.  The pattern starts with `^` and has no `m` flag, hence a match
can only start at index 0; it has no `$`, hence it may end anywhere. -/

/-- A single-character atom: a literal or the wildcard `.`. -/
inductive Atom where
  | char (c : Char)
  | dot
  deriving DecidableEq, Repr

/-- Quantifier of an atom: none, `?` or `+`. -/
inductive Quant where
  | one
  | opt
  | plus
  deriving DecidableEq, Repr

/-- A quantified atom. -/
structure Piece where
  atom : Atom
  quant : Quant
  deriving DecidableEq, Repr

/-- Canonicalize of ECMAScript for the `i` flag without `u`: upper-casing, where a
character outside ASCII is never mapped into ASCII.  Every literal of the pattern is
ASCII, so only the ASCII part of the mapping can make two characters equal. -/
def canonicalize (c : Char) : Char :=
  if 97 ≤ c.toNat ∧ c.toNat ≤ 122 then Char.ofNat (c.toNat - 32) else c

/-- Whether an atom accepts a character under the `i` flag. -/
def Atom.accepts : Atom → Char → Bool
  | .char p, c => canonicalize c == canonicalize p
  | .dot, c => !isLineTerminator c

/-- The loop of `a+`: consume one or more accepted characters, then continue with `k`. -/
def plusLoop (acc : Char → Bool) (k : List Char → Bool) : List Char → Bool
  | [] => false
  | c :: cs => acc c && (plusLoop acc k cs || k cs)

/-- Backtracking match of a sequence of pieces at the head of the input. -/
def matchHere : List Piece → List Char → Bool
  | [], _ => true
  | ⟨a, .one⟩ :: ps, s =>
    match s with
    | [] => false
    | c :: cs => a.accepts c && matchHere ps cs
  | ⟨a, .opt⟩ :: ps, s =>
    (match s with
     | [] => false
     | c :: cs => a.accepts c && matchHere ps cs) || matchHere ps s
  | ⟨a, .plus⟩ :: ps, s => plusLoop a.accepts (matchHere ps) s

/-- The pieces of `/^https?:\/\/.+\..+/i` after the anchor. -/
def urlPieces : List Piece :=
  [⟨.char 'h', .one⟩, ⟨.char 't', .one⟩, ⟨.char 't', .one⟩, ⟨.char 'p', .one⟩,
   ⟨.char 's', .opt⟩, ⟨.char ':', .one⟩, ⟨.char '/', .one⟩, ⟨.char '/', .one⟩,
   ⟨.dot, .plus⟩, ⟨.char '.', .one⟩, ⟨.dot, .plus⟩]

/-- The call `/^https?:\/\/.+\..+/i.test(s)` for a string `s`. -/
def urlTest (s : String) : Bool := matchHere urlPieces s.data

/-! ## JavaScript values and objects -/

/-- The values that occur in forms, documents and write payloads.  Numbers are the
integers (millisecond clock readings and counters); a `Date` carries its time value,
`none` being the invalid date; a database `Timestamp` likewise. -/
inductive JSVal where
  | undefined
  | null
  | bool (b : Bool)
  | num (n : Int)
  | str (s : String)
  | date (t : Option Int)
  | timestamp (t : Option Int)
  | serverTimestamp
  deriving DecidableEq, Repr

/-- An object: its own properties in insertion order. -/
abbrev Obj := List (String × JSVal)

/-- Property read `o[k]`; a missing property reads as `undefined`. -/
def Obj.get (o : Obj) (k : String) : JSVal := (o.lookup k).getD .undefined

/-- Property write `o[k] = v`: an existing key keeps its position. -/
def Obj.set : Obj → String → JSVal → Obj
  | [], k, v => [(k, v)]
  | (k', v') :: o, k, v => if k' = k then (k, v) :: o else (k', v') :: Obj.set o k v

/-- The effect of `...src` inside an object literal whose earlier properties are `o`. -/
def Obj.spread (o src : Obj) : Obj := src.foldl (fun acc p => Obj.set acc p.1 p.2) o

/-- The call `Object.keys(o)`. -/
def Obj.keys (o : Obj) : List String := o.map Prod.fst

/-- An exception value; `message` is `error.message`. -/
structure JSError where
  message : String
  deriving DecidableEq, Repr

/-- The TypeError of calling a method on a value that does not have it. -/
def typeError : JSError := ⟨"TypeError"⟩

/-- ToBoolean. Objects (dates, timestamps) are truthy. -/
def truthy : JSVal → Bool
  | .undefined => false
  | .null => false
  | .bool b => b
  | .num n => n != 0
  | .str s => s != ""
  | .date _ => true
  | .timestamp _ => true
  | .serverTimestamp => true

/-- The call `v.trim()`: only strings have the method. -/
def callTrim : JSVal → Except JSError JSVal
  | .str s => .ok (.str (trim s))
  | _ => .error typeError

/-- The optional call `v?.trim()`: `undefined` and `null` short-circuit to `undefined`. -/
def optTrim : JSVal → Except JSError JSVal
  | .undefined => .ok .undefined
  | .null => .ok .undefined
  | v => callTrim v

/-- The call `/^https?:\/\/.+\..+/i.test(v)`.  The argument is converted with ToString; the
string form of a value that is not a string (a number, `true`, `null`, a date, ...)
never starts with `http`, so the test fails for it. -/
def urlTestVal : JSVal → Bool
  | .str s => urlTest s
  | _ => false

/-! ## Form validation -/

namespace Activities

/-- The function `validateForm` of `Activities.jsx`: the result and the object given to
`setFormErrors`; an exception when a field is not a string. -/
def validateForm (formData : Obj) : Except JSError (Bool × Obj) := do
  let errors : Obj := []
  let t ← optTrim (formData.get "title")
  let errors := if !truthy t then errors.set "title" (.str "Title is required") else errors
  let i ← optTrim (formData.get "imageUrl")
  let errors :=
    if !truthy i then errors.set "imageUrl" (.str "Image URL is required")
    else if !urlTestVal (formData.get "imageUrl") then
      errors.set "imageUrl" (.str "Please enter a valid URL")
    else errors
  let d ← optTrim (formData.get "description")
  let errors :=
    if !truthy d then errors.set "description" (.str "Description is required") else errors
  let errors :=
    if truthy (formData.get "link") && !urlTestVal (formData.get "link") then
      errors.set "link" (.str "Please enter a valid URL or leave empty")
    else errors
  return (errors.keys.length == 0, errors)

end Activities

namespace Announcements

/-- The function `validateForm` of `Announcements.jsx`.  The fields are trimmed without
optional chaining, so a missing `title` or `content` raises. -/
def validateForm (formData : Obj) : Except JSError (Bool × Obj) := do
  let errors : Obj := []
  let t ← callTrim (formData.get "title")
  let errors := if !truthy t then errors.set "title" (.str "Title is required") else errors
  let c ← callTrim (formData.get "content")
  let errors := if !truthy c then errors.set "content" (.str "Content is required") else errors
  let errors :=
    if !truthy (formData.get "date") then errors.set "date" (.str "Date is required") else errors
  return (errors.keys.length == 0, errors)

end Announcements

namespace Jobs

/-- The function `validateForm` of `Jobs.jsx`. -/
def validateForm (formData : Obj) : Except JSError (Bool × Obj) := do
  let errors : Obj := []
  let t ← callTrim (formData.get "title")
  let errors := if !truthy t then errors.set "title" (.str "Title is required") else errors
  let errors :=
    if !truthy (formData.get "date") then errors.set "date" (.str "Date is required") else errors
  let d ← callTrim (formData.get "description")
  let errors :=
    if !truthy d then errors.set "description" (.str "Description is required") else errors
  return (errors.keys.length == 0, errors)

end Jobs

namespace Projects

/-- The function `validateForm` of `Projects.jsx`. -/
def validateForm (formData : Obj) : Except JSError (Bool × Obj) := do
  let errors : Obj := []
  let t ← optTrim (formData.get "title")
  let errors := if !truthy t then errors.set "title" (.str "Title is required") else errors
  let d ← optTrim (formData.get "description")
  let errors :=
    if !truthy d then errors.set "description" (.str "Description is required") else errors
  return (errors.keys.length == 0, errors)

end Projects

namespace Applicants

/-- The function `validateForm` of `Applicants.jsx`. -/
def validateForm (formData : Obj) : Except JSError (Bool × Obj) := do
  let errors : Obj := []
  let n ← optTrim (formData.get "fullName")
  let errors := if !truthy n then errors.set "fullName" (.str "Full name is required") else errors
  let c ← optTrim (formData.get "cnic")
  let errors := if !truthy c then errors.set "cnic" (.str "CNIC is required") else errors
  let e ← optTrim (formData.get "email")
  let errors := if !truthy e then errors.set "email" (.str "Email is required") else errors
  return (errors.keys.length == 0, errors)

end Applicants

/-! ## Dates

A `Date` is its time value in milliseconds, `none` for the invalid date.  Parsing and
printing of dates belong to the host; they are parameters of the model. -/

/-- The host functions the pages call: parsing of date strings, the clock and the
printing of dates. -/
structure Env where
  /-- The time value of `new Date(s)` for a string `s`. -/
  parseDate : String → Option Int
  /-- The reading of `Date.now()`, `new Date()` and `Timestamp.now()` in a handler. -/
  now : Int
  /-- The reading of `Date.now()` while the `i`-th fetched document is mapped. -/
  tick : Nat → Int
  /-- The first ten characters of `toISOString()` for a valid time value. -/
  isoDate : Int → String
  /-- The string form of a `Date`, a `Timestamp` or a field sentinel. -/
  objToString : JSVal → String
  /-- The method `String.prototype.toLowerCase`. -/
  toLowerCase : String → String

/-- TimeClip: a time value is valid up to 8.64e15 milliseconds from the epoch. -/
def timeClip (n : Int) : Option Int :=
  if -8640000000000000 ≤ n ∧ n ≤ 8640000000000000 then some n else none

/-- The time value of `new Date(v)`.  A `Timestamp` or sentinel argument is converted
through its string form. -/
def newDate (env : Env) : JSVal → Option Int
  | .undefined => none
  | .null => some 0
  | .bool b => some (if b then 1 else 0)
  | .num n => timeClip n
  | .str s => env.parseDate s
  | .date t => t
  | .timestamp t => env.parseDate (env.objToString (.timestamp t))
  | .serverTimestamp => env.parseDate (env.objToString .serverTimestamp)

/-- The optional call `v?.toDate?.()`: only a `Timestamp` has the method; every other
value yields `undefined`. -/
def optToDate : JSVal → JSVal
  | .timestamp t => .date t
  | _ => .undefined

/-- The operator `a || b` on values. -/
def jsOr (a b : JSVal) : JSVal := if truthy a then a else b

/-- The difference `b - a` of two dates: `none` (NaN) when one of them is invalid. -/
def dateDiff (b a : Option Int) : Option Int :=
  match b, a with
  | some x, some y => some (x - y)
  | _, _ => none

/-- The method `Array.prototype.sort(cmp)`.  The sort is stable and a comparator result of NaN counts
as zero.  For a consistent comparator the result is fixed by these two facts; it is
computed here by stable insertion: `a` stays in front of `b` unless `cmp a b > 0`. -/
def arraySort {α : Type} (cmp : α → α → Option Int) (l : List α) : List α :=
  l.insertionSort (fun a b => (cmp a b).getD 0 ≤ 0)

/-- The call `Timestamp.fromDate(d)`: the constructor rejects seconds outside the years 1 to 9999;
an invalid date passes its range checks. -/
def timestampFromDate (t : Option Int) : Except JSError JSVal :=
  match t with
  | none => .ok (.timestamp none)
  | some ms =>
    if -62135596800000 ≤ ms ∧ ms < 253402300800000 then .ok (.timestamp (some ms))
    else .error ⟨"Timestamp seconds out of range"⟩

/-! ## The database and the effects of a handler -/

/-- A document snapshot: `doc.id` and `doc.data()`. -/
structure Doc where
  id : String
  data : Obj
  deriving DecidableEq, Repr

/-- A request to the database or to the authentication provider. -/
inductive Req where
  | getDocs (coll : String) (orderBy : Option (String × String))
  | addDoc (coll : String) (data : Obj)
  | updateDoc (coll : String) (id : String) (data : Obj)
  | deleteDoc (coll : String) (id : String)
  | signIn (email password : String)
  | signOut
  | sendPasswordResetEmail (email : String)
  deriving DecidableEq, Repr

/-- An observable step of a handler. -/
inductive Ev where
  /-- A request is issued; its promise is pending. -/
  | start (r : Req)
  /-- The promise of a request settles, fulfilled (`true`) or rejected. -/
  | settle (r : Req) (ok : Bool)
  /-- A call of `console.log`. -/
  | log (msg : String)
  /-- A call of `console.error`. -/
  | error (msg : String)
  /-- A call of `Swal.fire` that shows a message: icon, title, text. -/
  | alert (icon title text : String)
  /-- A call of `Swal.fire` that asks for confirmation. -/
  | confirm (title : String)
  /-- A file download triggered through a temporary link. -/
  | download (fileName content : String)
  deriving DecidableEq, Repr

/-- The hosted services, as a state machine over a state `β` the pages cannot see. -/
structure Backend (β : Type) where
  getDocs : β → String → Option (String × String) → Except JSError (List Doc) × β
  addDoc : β → String → Obj → Except JSError String × β
  updateDoc : β → String → String → Obj → Except JSError Unit × β
  deleteDoc : β → String → String → Except JSError Unit × β
  signIn : β → String → String → Except JSError Unit × β
  signOut : β → Except JSError Unit × β
  sendPasswordResetEmail : β → String → Except JSError Unit × β

/-- A run of a handler: the state of the services, the React state of the page and the
events so far. -/
structure Run (β σ : Type) where
  world : β
  page : σ
  trace : List Ev

namespace Run

variable {β σ : Type}

/-- Record an event. -/
def emit (r : Run β σ) (e : Ev) : Run β σ := { r with trace := r.trace ++ [e] }

/-- A state setter of the page. -/
def modify (r : Run β σ) (f : σ → σ) : Run β σ := { r with page := f r.page }

/-- Whether a result is a fulfilment. -/
def isOk {α : Type} : Except JSError α → Bool
  | .ok _ => true
  | .error _ => false

/-- The awaited call `await getDocs(query(collection(db, coll), orderBy?))`. -/
def getDocs (bk : Backend β) (r : Run β σ) (coll : String) (ord : Option (String × String)) :
    Except JSError (List Doc) × Run β σ :=
  let res := bk.getDocs r.world coll ord
  (res.1, { r with world := res.2,
                   trace := r.trace ++ [.start (.getDocs coll ord),
                     .settle (.getDocs coll ord) (isOk res.1)] })

/-- The awaited call `await addDoc(collection(db, coll), data)`; the result is the id of
the new document. -/
def addDoc (bk : Backend β) (r : Run β σ) (coll : String) (data : Obj) :
    Except JSError String × Run β σ :=
  let res := bk.addDoc r.world coll data
  (res.1, { r with world := res.2,
                   trace := r.trace ++ [.start (.addDoc coll data),
                     .settle (.addDoc coll data) (isOk res.1)] })

/-- The awaited call `await updateDoc(doc(db, coll, id), data)`. -/
def updateDoc (bk : Backend β) (r : Run β σ) (coll id : String) (data : Obj) :
    Except JSError Unit × Run β σ :=
  let res := bk.updateDoc r.world coll id data
  (res.1, { r with world := res.2,
                   trace := r.trace ++ [.start (.updateDoc coll id data),
                     .settle (.updateDoc coll id data) (isOk res.1)] })

/-- The awaited call `await deleteDoc(doc(db, coll, id))`. -/
def deleteDoc (bk : Backend β) (r : Run β σ) (coll id : String) :
    Except JSError Unit × Run β σ :=
  let res := bk.deleteDoc r.world coll id
  (res.1, { r with world := res.2,
                   trace := r.trace ++ [.start (.deleteDoc coll id),
                     .settle (.deleteDoc coll id) (isOk res.1)] })

end Run

/-- The path segment of `doc(db, coll, id)`: the call throws unless `id` is a non-empty
string. -/
def docId : JSVal → Except JSError String
  | .str s => if s = "" then .error ⟨"Function doc() cannot be called with an empty path."⟩
              else .ok s
  | _ => .error typeError

/-- The property read `rec.id` on a value that may be `null`: reading a property of
`null` throws. -/
def recordId : Option Obj → Except JSError JSVal
  | some o => .ok (o.get "id")
  | none => .error typeError

/-! ## The Announcements page (`src/pages/Announcements.jsx`) -/

namespace Announcements

/-- The `useState` cells of the page. -/
structure State where
  announcements : List Obj
  loading : Bool
  showModal : Bool
  currentAnnouncement : Option Obj
  searchTerm : String
  formData : Obj
  isSubmitting : Bool
  formErrors : Obj
  deriving DecidableEq, Repr

/-- The record built from a snapshot: the id, the data spread over it, and `date`
replaced by `data.date?.toDate?.() || new Date(data.date)`. -/
def mapDoc (env : Env) (d : Doc) : Obj :=
  (Obj.spread [("id", .str d.id)] d.data).set "date"
    (jsOr (optToDate (d.data.get "date")) (.date (newDate env (d.data.get "date"))))

/-- The date a record is sorted by: `a.date` when it is a `Date`, else `new Date(a.date)`. -/
def sortKey (env : Env) (a : Obj) : Option Int :=
  match a.get "date" with
  | .date t => t
  | v => newDate env v

/-- The comparator of the in-memory sort: `dateB - dateA`. -/
def compareDesc (env : Env) (a b : Obj) : Option Int := dateDiff (sortKey env b) (sortKey env a)

variable {β : Type}

/-- The `catch` and `finally` blocks of `fetchAnnouncements`. -/
def fetchFailed (e : JSError) (r : Run β State) : Run β State :=
  let r := r.emit (.error "Error fetching announcements:")
  let r := r.emit (.error "Error details:")
  let r := r.emit (.alert "error" "Error" ("Failed to fetch announcements: " ++ e.message))
  r.modify (fun s => { s with loading := false })

/-- The statements of `fetchAnnouncements` after the snapshot is chosen: map, sort, store;
then the `finally` block. -/
def fetchStore (env : Env) (docs : List Doc) (r : Run β State) : Run β State :=
  let announcementsData := docs.map (mapDoc env)
  let sorted := arraySort (compareDesc env) announcementsData
  let r := r.modify (fun s => { s with announcements := sorted })
  let r := r.emit (.log "Announcements data processed:")
  r.modify (fun s => { s with loading := false })

/-- The function `fetchAnnouncements`. -/
def fetchAnnouncements (env : Env) (bk : Backend β) (r : Run β State) : Run β State :=
  let r := r.modify (fun s => { s with loading := true })
  let r := r.emit (.log "Attempting to fetch all announcements without ordering...")
  match r.getDocs bk "announcements" none with
  | (.error e, r) => fetchFailed e r
  | (.ok snapshot, r) =>
    let r := r.emit (.log "Query completed, documents:")
    if snapshot.isEmpty then
      let r := r.emit (.log "No documents found without ordering, trying with createdAt ordering...")
      match r.getDocs bk "announcements" (some ("createdAt", "desc")) with
      | (.error e, r) => fetchFailed e r
      | (.ok snapshot, r) => fetchStore env snapshot r
    else fetchStore env snapshot r

/-- The function `handleModalClose`. -/
def handleModalClose (env : Env) (s : State) : State :=
  { s with showModal := false, currentAnnouncement := none,
           formData := [("title", .str ""), ("content", .str ""),
             ("date", .str (env.isoDate env.now))],
           formErrors := [] }

/-- The `catch` block of `handleSubmit`; `editing` is the truth value of
`currentAnnouncement` captured by the handler. -/
def submitFailed (editing : Bool) (e : JSError) (r : Run β State) : Run β State :=
  let r := r.emit (.error "Error saving announcement:")
  let r := r.emit (.error "Error details:")
  r.emit (.alert "error" "Error"
    ("Failed to " ++ (if editing then "update" else "create") ++ " announcement: " ++ e.message))

/-- The statements of `handleSubmit` after a successful write: refresh the list and close
the modal. -/
def submitDone (env : Env) (bk : Backend β) (r : Run β State) : Run β State :=
  let r := fetchAnnouncements env bk r
  r.modify (handleModalClose env)

/-- The `try` block of `handleSubmit` for a valid form; `s0` is the state the handler
closed over. -/
def submitTry (env : Env) (bk : Backend β) (s0 : State) (r : Run β State) : Run β State :=
  let r := r.modify (fun s => { s with isSubmitting := true })
  let dateValue := newDate env (s0.formData.get "date")
  let r := r.emit (.log "Submitting announcement with date:")
  match s0.currentAnnouncement with
  | some cur =>
    let r := r.emit (.log "Updating announcement:")
    match docId (cur.get "id") with
    | .error e => submitFailed true e r
    | .ok id =>
      match timestampFromDate dateValue with
      | .error e => submitFailed true e r
      | .ok ts =>
        match r.updateDoc bk "announcements" id
            [("title", s0.formData.get "title"), ("content", s0.formData.get "content"),
             ("date", ts), ("updatedAt", .timestamp (some env.now)),
             ("timestamp", .num env.now)] with
        | (.error e, r) => submitFailed true e r
        | (.ok _, r) =>
          let r := r.emit (.alert "success" "Success" "Announcement updated successfully")
          submitDone env bk r
  | none =>
    let r := r.emit (.log "Adding new announcement")
    match timestampFromDate dateValue with
    | .error e => submitFailed false e r
    | .ok ts =>
      let r := r.emit (.log "New announcement data:")
      match r.addDoc bk "announcements"
          [("title", s0.formData.get "title"), ("content", s0.formData.get "content"),
           ("date", ts), ("createdAt", .timestamp (some env.now)),
           ("timestamp", .num env.now)] with
      | (.error e, r) => submitFailed false e r
      | (.ok _, r) =>
        let r := r.emit (.log "Document added with ID:")
        let r := r.emit (.alert "success" "Success" "Announcement created successfully")
        submitDone env bk r

/-- The function `handleSubmit`.  An exception of `validateForm` is not caught. -/
def handleSubmit (env : Env) (bk : Backend β) (r : Run β State) : Except JSError (Run β State) :=
  match validateForm r.page.formData with
  | .error e => .error e
  | .ok (valid, errors) =>
    let s0 := r.page
    let r := r.modify (fun s => { s with formErrors := errors })
    if !valid then .ok r
    else
      let r := submitTry env bk s0 r
      .ok (r.modify (fun s => { s with isSubmitting := false }))

/-- The `catch` block of `handleDelete`. -/
def deleteFailed (r : Run β State) : Run β State :=
  let r := r.emit (.error "Error deleting announcement:")
  r.emit (.alert "error" "Error" "Failed to delete announcement")

/-- The function `handleDelete`; `confirmed` is `result.isConfirmed` of the dialog. -/
def handleDelete (env : Env) (bk : Backend β) (announcement : Obj) (confirmed : Bool)
    (r : Run β State) : Run β State :=
  let r := r.emit (.confirm "Are you sure?")
  if confirmed then
    match docId (announcement.get "id") with
    | .error _ => deleteFailed r
    | .ok id =>
      match r.deleteDoc bk "announcements" id with
      | (.error _, r) => deleteFailed r
      | (.ok _, r) =>
        let r := r.emit (.alert "success" "Deleted!" "Announcement has been deleted.")
        fetchAnnouncements env bk r
  else r

end Announcements

/-! ## The Jobs page (`src/pages/Jobs.jsx`) -/

namespace Jobs

/-- The `useState` cells of the page. -/
structure State where
  jobs : List Obj
  loading : Bool
  showModal : Bool
  showViewModal : Bool
  currentJob : Option Obj
  searchTerm : String
  formData : Obj
  isSubmitting : Bool
  formErrors : Obj
  deriving DecidableEq, Repr

/-- The record built from a snapshot: the id with the data spread over it. -/
def mapDoc (d : Doc) : Obj := Obj.spread [("id", .str d.id)] d.data

/-- The date of the comparator:
`a.createdAt?.toDate?.() || a.date?.toDate?.() || new Date(a.createdAt || a.date || 0)`. -/
def sortDate (env : Env) (a : Obj) : JSVal :=
  jsOr (jsOr (optToDate (a.get "createdAt")) (optToDate (a.get "date")))
    (.date (newDate env (jsOr (jsOr (a.get "createdAt") (a.get "date")) (.num 0))))

/-- The time value a record is sorted by. -/
def sortKey (env : Env) (a : Obj) : Option Int :=
  match sortDate env a with
  | .date t => t
  | _ => none

/-- The comparator of the in-memory sort: `dateB - dateA`. -/
def compareDesc (env : Env) (a b : Obj) : Option Int := dateDiff (sortKey env b) (sortKey env a)

variable {β : Type}

/-- The `catch` and `finally` blocks of `fetchJobs`. -/
def fetchFailed (e : JSError) (r : Run β State) : Run β State :=
  let r := r.emit (.error "Error fetching jobs:")
  let r := r.emit (.error "Error details:")
  let r := r.emit (.alert "error" "Error" ("Failed to fetch jobs: " ++ e.message))
  r.modify (fun s => { s with loading := false })

/-- The statements of `fetchJobs` after the snapshot is chosen: map, sort, store; then the
`finally` block. -/
def fetchStore (env : Env) (docs : List Doc) (r : Run β State) : Run β State :=
  let jobsData := docs.map mapDoc
  let sorted := arraySort (compareDesc env) jobsData
  let r := r.emit (.log "Jobs data processed:")
  let r := r.modify (fun s => { s with jobs := sorted })
  r.modify (fun s => { s with loading := false })

/-- The function `fetchJobs`. -/
def fetchJobs (env : Env) (bk : Backend β) (r : Run β State) : Run β State :=
  let r := r.modify (fun s => { s with loading := true })
  let r := r.emit (.log "Attempting to fetch all jobs without ordering...")
  match r.getDocs bk "jobs" none with
  | (.error e, r) => fetchFailed e r
  | (.ok snapshot, r) =>
    let r := r.emit (.log "Query completed, documents:")
    if snapshot.isEmpty then
      let r := r.emit (.log "No documents found without ordering, trying with createdAt ordering...")
      match r.getDocs bk "jobs" (some ("createdAt", "desc")) with
      | (.error e, r) => fetchFailed e r
      | (.ok snapshot, r) => fetchStore env snapshot r
    else fetchStore env snapshot r

/-- The function `handleModalClose`. -/
def handleModalClose (env : Env) (s : State) : State :=
  { s with showModal := false, currentJob := none,
           formData := [("title", .str ""), ("date", .str (env.isoDate env.now)),
             ("description", .str "")],
           formErrors := [] }

/-- The `catch` block of `handleSubmit`. -/
def submitFailed (editing : Bool) (r : Run β State) : Run β State :=
  let r := r.emit (.error "Error saving job:")
  r.emit (.alert "error" "Error"
    ("Failed to " ++ (if editing then "update" else "create") ++ " job"))

/-- The statements of `handleSubmit` after a successful write.  The refresh is not
awaited; it only touches `jobs` and `loading`, which `handleModalClose` does not. -/
def submitDone (env : Env) (bk : Backend β) (r : Run β State) : Run β State :=
  let r := fetchJobs env bk r
  r.modify (handleModalClose env)

/-- The `try` block of `handleSubmit` for a valid form; `s0` is the state the handler
closed over. -/
def submitTry (env : Env) (bk : Backend β) (s0 : State) (r : Run β State) : Run β State :=
  let r := r.modify (fun s => { s with isSubmitting := true })
  let dateValue := newDate env (s0.formData.get "date")
  match timestampFromDate dateValue with
  | .error _ => submitFailed s0.currentJob.isSome r
  | .ok ts =>
    let jobData : Obj :=
      [("title", s0.formData.get "title"), ("date", ts),
       ("description", s0.formData.get "description")]
    match s0.currentJob with
    | some cur =>
      let jobData := jobData.set "updatedAt" (.timestamp (some env.now))
      match docId (cur.get "id") with
      | .error _ => submitFailed true r
      | .ok id =>
        match r.updateDoc bk "jobs" id jobData with
        | (.error _, r) => submitFailed true r
        | (.ok _, r) =>
          let r := r.emit (.alert "success" "Success" "Job updated successfully")
          submitDone env bk r
    | none =>
      let jobData := jobData.set "createdAt" (.timestamp (some env.now))
      let jobData := jobData.set "timestamp" (.num env.now)
      match r.addDoc bk "jobs" jobData with
      | (.error _, r) => submitFailed false r
      | (.ok _, r) =>
        let r := r.emit (.alert "success" "Success" "Job created successfully")
        submitDone env bk r

/-- The function `handleSubmit`.  An exception of `validateForm` is not caught. -/
def handleSubmit (env : Env) (bk : Backend β) (r : Run β State) : Except JSError (Run β State) :=
  match validateForm r.page.formData with
  | .error e => .error e
  | .ok (valid, errors) =>
    let s0 := r.page
    let r := r.modify (fun s => { s with formErrors := errors })
    if !valid then .ok r
    else
      let r := submitTry env bk s0 r
      .ok (r.modify (fun s => { s with isSubmitting := false }))

/-- The `catch` block of `handleDelete`. -/
def deleteFailed (r : Run β State) : Run β State :=
  let r := r.emit (.error "Error deleting job:")
  r.emit (.alert "error" "Error" "Failed to delete job")

/-- The function `handleDelete`; `confirmed` is `result.isConfirmed` of the dialog. -/
def handleDelete (env : Env) (bk : Backend β) (job : Obj) (confirmed : Bool)
    (r : Run β State) : Run β State :=
  let r := r.emit (.confirm "Are you sure?")
  if confirmed then
    match docId (job.get "id") with
    | .error _ => deleteFailed r
    | .ok id =>
      match r.deleteDoc bk "jobs" id with
      | (.error _, r) => deleteFailed r
      | (.ok _, r) =>
        let r := r.emit (.alert "success" "Deleted!" "Job has been deleted.")
        fetchJobs env bk r
  else r

end Jobs

/-! ## The Projects page (`src/pages/Projects.jsx`) -/

namespace Projects

/-- The `useState` cells of the page. -/
structure State where
  projects : List Obj
  loading : Bool
  showAddModal : Bool
  showViewModal : Bool
  showEditModal : Bool
  currentProject : Option Obj
  searchTerm : String
  formData : Obj
  isSubmitting : Bool
  formErrors : Obj
  deriving DecidableEq, Repr

/-- The record built from a snapshot: the id, the data spread over it, and `createdAt`
replaced by `data.createdAt?.toDate?.() || new Date(data.createdAt || Date.now())`;
`now` is the reading of the clock for this document. -/
def mapDoc (env : Env) (now : Int) (d : Doc) : Obj :=
  (Obj.spread [("id", .str d.id)] d.data).set "createdAt"
    (jsOr (optToDate (d.data.get "createdAt"))
      (.date (newDate env (jsOr (d.data.get "createdAt") (.num now)))))

/-- The date a record is sorted by: `a.createdAt` when it is a `Date`, else
`new Date(a.createdAt || 0)`. -/
def sortKey (env : Env) (a : Obj) : Option Int :=
  match a.get "createdAt" with
  | .date t => t
  | v => newDate env (jsOr v (.num 0))

/-- The comparator of the in-memory sort: `dateB - dateA`. -/
def compareDesc (env : Env) (a b : Obj) : Option Int := dateDiff (sortKey env b) (sortKey env a)

/-- The mapped snapshot: the `i`-th document is mapped at clock reading `env.tick i`. -/
def mapDocs (env : Env) (docs : List Doc) : List Obj :=
  docs.enum.map (fun p => mapDoc env (env.tick p.1) p.2)

variable {β : Type}

/-- The `catch` and `finally` blocks of `fetchProjects`. -/
def fetchFailed (e : JSError) (r : Run β State) : Run β State :=
  let r := r.emit (.error "Error fetching projects:")
  let r := r.emit (.error "Error details:")
  let r := r.emit (.alert "error" "Error" ("Failed to fetch projects: " ++ e.message))
  r.modify (fun s => { s with loading := false })

/-- The statements of `fetchProjects` after the snapshot is chosen: map, sort, store; then
the `finally` block. -/
def fetchStore (env : Env) (docs : List Doc) (r : Run β State) : Run β State :=
  let projectsData := mapDocs env docs
  let sorted := arraySort (compareDesc env) projectsData
  let r := r.emit (.log "Projects data processed:")
  let r := r.modify (fun s => { s with projects := sorted })
  r.modify (fun s => { s with loading := false })

/-- The function `fetchProjects`. -/
def fetchProjects (env : Env) (bk : Backend β) (r : Run β State) : Run β State :=
  let r := r.modify (fun s => { s with loading := true })
  let r := r.emit (.log "Attempting to fetch all projects without ordering...")
  match r.getDocs bk "posts" none with
  | (.error e, r) => fetchFailed e r
  | (.ok snapshot, r) =>
    let r := r.emit (.log "Query completed, documents:")
    if snapshot.isEmpty then
      let r := r.emit (.log "No documents found without ordering, trying with createdAt ordering...")
      match r.getDocs bk "posts" (some ("createdAt", "desc")) with
      | (.error e, r) => fetchFailed e r
      | (.ok snapshot, r) => fetchStore env snapshot r
    else fetchStore env snapshot r

/-- The function `handleAddSubmit`.  The refresh after the write is not awaited; it only
touches `projects` and `loading`, which the rest of the handler does not. -/
def handleAddSubmit (env : Env) (bk : Backend β) (r : Run β State) :
    Except JSError (Run β State) :=
  match validateForm r.page.formData with
  | .error e => .error e
  | .ok (valid, errors) =>
    let s0 := r.page
    let r := r.modify (fun s => { s with formErrors := errors })
    if !valid then .ok r
    else
      let r := r.modify (fun s => { s with isSubmitting := true })
      let payload :=
        (((Obj.spread [] s0.formData).set "createdAt" .serverTimestamp).set "updatedAt"
          .serverTimestamp).set "timestamp" (.num env.now)
      let r :=
        match r.addDoc bk "posts" payload with
        | (.error _, r) =>
          let r := r.emit (.error "Error adding post:")
          r.emit (.alert "error" "Error" "Failed to add post")
        | (.ok _, r) =>
          let r := r.emit (.alert "success" "Success" "Post added successfully")
          let r := fetchProjects env bk r
          r.modify (fun s => { s with showAddModal := false })
      .ok (r.modify (fun s => { s with isSubmitting := false }))

/-- The `catch` block of `handleUpdateSubmit`. -/
def updateFailed (r : Run β State) : Run β State :=
  let r := r.emit (.error "Error updating post:")
  r.emit (.alert "error" "Error" "Failed to update post")

/-- The function `handleUpdateSubmit`. -/
def handleUpdateSubmit (env : Env) (bk : Backend β) (r : Run β State) :
    Except JSError (Run β State) :=
  match validateForm r.page.formData with
  | .error e => .error e
  | .ok (valid, errors) =>
    let s0 := r.page
    let r := r.modify (fun s => { s with formErrors := errors })
    if !valid then .ok r
    else
      let r := r.modify (fun s => { s with isSubmitting := true })
      let r :=
        match recordId s0.currentProject >>= docId with
        | .error _ => updateFailed r
        | .ok id =>
          match r.updateDoc bk "posts" id
              ((Obj.spread [] s0.formData).set "updatedAt" .serverTimestamp) with
          | (.error _, r) => updateFailed r
          | (.ok _, r) =>
            let r := r.emit (.alert "success" "Success" "Post updated successfully")
            let r := fetchProjects env bk r
            r.modify (fun s => { s with showEditModal := false })
      .ok (r.modify (fun s => { s with isSubmitting := false }))

/-- The `catch` block of `handleDeleteProject`. -/
def deleteFailed (r : Run β State) : Run β State :=
  let r := r.emit (.error "Error deleting post:")
  r.emit (.alert "error" "Error" "Failed to delete post")

/-- The function `handleDeleteProject`; `confirmed` is `result.isConfirmed`. -/
def handleDeleteProject (env : Env) (bk : Backend β) (project : Obj) (confirmed : Bool)
    (r : Run β State) : Run β State :=
  let r := r.emit (.confirm "Are you sure?")
  if confirmed then
    match docId (project.get "id") with
    | .error _ => deleteFailed r
    | .ok id =>
      match r.deleteDoc bk "posts" id with
      | (.error _, r) => deleteFailed r
      | (.ok _, r) =>
        let r := r.emit (.alert "success" "Deleted!" "Post has been deleted.")
        fetchProjects env bk r
  else r

end Projects

/-! ## The Activities page (`src/pages/Activities.jsx`) -/

namespace Activities

/-- The `useState` cells of the page. -/
structure State where
  activities : List Obj
  loading : Bool
  showAddModal : Bool
  showViewModal : Bool
  showEditModal : Bool
  currentActivity : Option Obj
  searchTerm : String
  formData : Obj
  isSubmitting : Bool
  formErrors : Obj
  deriving DecidableEq, Repr

/-- The record built from a snapshot: the id, the data spread over it, and `createdAt`
replaced by `data.createdAt?.toDate?.() || new Date(data.createdAt || Date.now())`;
`now` is the reading of the clock for this document. -/
def mapDoc (env : Env) (now : Int) (d : Doc) : Obj :=
  (Obj.spread [("id", .str d.id)] d.data).set "createdAt"
    (jsOr (optToDate (d.data.get "createdAt"))
      (.date (newDate env (jsOr (d.data.get "createdAt") (.num now)))))

/-- The date a record is sorted by: `a.createdAt` when it is a `Date`, else
`new Date(a.createdAt || 0)`. -/
def sortKey (env : Env) (a : Obj) : Option Int :=
  match a.get "createdAt" with
  | .date t => t
  | v => newDate env (jsOr v (.num 0))

/-- The comparator of the in-memory sort: `dateB - dateA`. -/
def compareDesc (env : Env) (a b : Obj) : Option Int := dateDiff (sortKey env b) (sortKey env a)

/-- The mapped snapshot: the `i`-th document is mapped at clock reading `env.tick i`. -/
def mapDocs (env : Env) (docs : List Doc) : List Obj :=
  docs.enum.map (fun p => mapDoc env (env.tick p.1) p.2)

variable {β : Type}

/-- The `catch` and `finally` blocks of `fetchActivities`. -/
def fetchFailed (e : JSError) (r : Run β State) : Run β State :=
  let r := r.emit (.error "Error fetching activities:")
  let r := r.emit (.error "Error details:")
  let r := r.emit (.alert "error" "Error" ("Failed to fetch activities: " ++ e.message))
  r.modify (fun s => { s with loading := false })

/-- The statements of `fetchActivities` after the snapshot is chosen: map, sort, store;
then the `finally` block. -/
def fetchStore (env : Env) (docs : List Doc) (r : Run β State) : Run β State :=
  let activitiesData := mapDocs env docs
  let sorted := arraySort (compareDesc env) activitiesData
  let r := r.emit (.log "Activities data processed:")
  let r := r.modify (fun s => { s with activities := sorted })
  r.modify (fun s => { s with loading := false })

/-- The function `fetchActivities`. -/
def fetchActivities (env : Env) (bk : Backend β) (r : Run β State) : Run β State :=
  let r := r.modify (fun s => { s with loading := true })
  let r := r.emit (.log "Attempting to fetch all activities...")
  match r.getDocs bk "activities" none with
  | (.error e, r) => fetchFailed e r
  | (.ok snapshot, r) =>
    let r := r.emit (.log "Query completed, documents:")
    if snapshot.isEmpty then
      let r := r.emit (.log "No documents found without ordering, trying with createdAt ordering...")
      match r.getDocs bk "activities" (some ("createdAt", "desc")) with
      | (.error e, r) => fetchFailed e r
      | (.ok snapshot, r) => fetchStore env snapshot r
    else fetchStore env snapshot r

/-- The function `handleAddSubmit`.  The refresh after the write is not awaited; it only
touches `activities` and `loading`, which the rest of the handler does not. -/
def handleAddSubmit (env : Env) (bk : Backend β) (r : Run β State) :
    Except JSError (Run β State) :=
  match validateForm r.page.formData with
  | .error e => .error e
  | .ok (valid, errors) =>
    let s0 := r.page
    let r := r.modify (fun s => { s with formErrors := errors })
    if !valid then .ok r
    else
      let r := r.modify (fun s => { s with isSubmitting := true })
      let r := r.emit (.log "Adding new activity:")
      let payload :=
        (((Obj.spread [] s0.formData).set "createdAt" .serverTimestamp).set "updatedAt"
          .serverTimestamp).set "timestamp" (.num env.now)
      let r :=
        match r.addDoc bk "activities" payload with
        | (.error e, r) =>
          let r := r.emit (.error "Error adding activity:")
          let r := r.emit (.error "Error details:")
          r.emit (.alert "error" "Error" ("Failed to add activity: " ++ e.message))
        | (.ok _, r) =>
          let r := r.emit (.log "Activity added with ID:")
          let r := r.emit (.alert "success" "Success" "Activity added successfully")
          let r := fetchActivities env bk r
          r.modify (fun s => { s with showAddModal := false })
      .ok (r.modify (fun s => { s with isSubmitting := false }))

/-- The `catch` block of `handleUpdateSubmit`. -/
def updateFailed (e : JSError) (r : Run β State) : Run β State :=
  let r := r.emit (.error "Error updating activity:")
  let r := r.emit (.error "Error details:")
  r.emit (.alert "error" "Error" ("Failed to update activity: " ++ e.message))

/-- The function `handleUpdateSubmit`. -/
def handleUpdateSubmit (env : Env) (bk : Backend β) (r : Run β State) :
    Except JSError (Run β State) :=
  match validateForm r.page.formData with
  | .error e => .error e
  | .ok (valid, errors) =>
    let s0 := r.page
    let r := r.modify (fun s => { s with formErrors := errors })
    if !valid then .ok r
    else
      let r := r.modify (fun s => { s with isSubmitting := true })
      let r :=
        match recordId s0.currentActivity with
        | .error e => updateFailed e r
        | .ok idVal =>
          let r := r.emit (.log "Updating activity:")
          match docId idVal with
          | .error e => updateFailed e r
          | .ok id =>
            match r.updateDoc bk "activities" id
                ((Obj.spread [] s0.formData).set "updatedAt" .serverTimestamp) with
            | (.error e, r) => updateFailed e r
            | (.ok _, r) =>
              let r := r.emit (.alert "success" "Success" "Activity updated successfully")
              let r := fetchActivities env bk r
              r.modify (fun s => { s with showEditModal := false })
      .ok (r.modify (fun s => { s with isSubmitting := false }))

/-- The `catch` block of `handleDeleteActivity`. -/
def deleteFailed (e : JSError) (r : Run β State) : Run β State :=
  let r := r.emit (.error "Error deleting activity:")
  let r := r.emit (.error "Error details:")
  r.emit (.alert "error" "Error" ("Failed to delete activity: " ++ e.message))

/-- The function `handleDeleteActivity`; `confirmed` is `result.isConfirmed`. -/
def handleDeleteActivity (env : Env) (bk : Backend β) (activity : Obj) (confirmed : Bool)
    (r : Run β State) : Run β State :=
  let r := r.emit (.confirm "Are you sure?")
  if confirmed then
    let r := r.emit (.log "Deleting activity:")
    match docId (activity.get "id") with
    | .error e => deleteFailed e r
    | .ok id =>
      match r.deleteDoc bk "activities" id with
      | (.error e, r) => deleteFailed e r
      | (.ok _, r) =>
        let r := r.emit (.alert "success" "Deleted!" "Activity has been deleted.")
        fetchActivities env bk r
  else r

end Activities

/-! ## The Applicants page (`src/pages/Applicants.jsx`) -/

namespace Applicants

/-- The `useState` cells of the page. -/
structure State where
  applicants : List Obj
  loading : Bool
  activeCollection : String
  showViewModal : Bool
  showEditModal : Bool
  currentApplicant : Option Obj
  searchTerm : String
  formData : Obj
  isSubmitting : Bool
  formErrors : Obj
  deriving DecidableEq, Repr

/-- The record built from a snapshot: the id, the data spread over it, `createdAt`
replaced by `data.createdAt?.toDate?.() || new Date(data.createdAt)` and `collection`
set to the active collection. -/
def mapDoc (env : Env) (activeCollection : String) (d : Doc) : Obj :=
  ((Obj.spread [("id", .str d.id)] d.data).set "createdAt"
    (jsOr (optToDate (d.data.get "createdAt")) (.date (newDate env (d.data.get "createdAt"))))).set
    "collection" (.str activeCollection)

variable {β : Type}

/-- The function `fetchApplicants`: one query of the active collection ordered by
`createdAt` descending; the mapped snapshot is stored as it came. -/
def fetchApplicants (env : Env) (bk : Backend β) (r : Run β State) : Run β State :=
  let activeCollection := r.page.activeCollection
  let r := r.modify (fun s => { s with loading := true })
  let r :=
    match r.getDocs bk activeCollection (some ("createdAt", "desc")) with
    | (.error _, r) =>
      let r := r.emit (.error "Error fetching applicants:")
      r.emit (.alert "error" "Error" "Failed to fetch applicants")
    | (.ok snapshot, r) =>
      let applicantsData := snapshot.map (mapDoc env activeCollection)
      r.modify (fun s => { s with applicants := applicantsData })
  r.modify (fun s => { s with loading := false })

/-- The `catch` block of `handleUpdateSubmit`. -/
def updateFailed (r : Run β State) : Run β State :=
  let r := r.emit (.error "Error updating applicant:")
  r.emit (.alert "error" "Error" "Failed to update applicant")

/-- The two path segments of `doc(db, rec.collection, rec.id)`. -/
def docPath (rec : Option Obj) : Except JSError (String × String) :=
  match rec with
  | none => .error typeError
  | some o =>
    match docId (o.get "collection"), docId (o.get "id") with
    | .ok c, .ok i => .ok (c, i)
    | .error e, _ => .error e
    | _, .error e => .error e

/-- The function `handleUpdateSubmit`.  The refresh after the write is not awaited; it
only touches `applicants` and `loading`, which the rest of the handler does not. -/
def handleUpdateSubmit (env : Env) (bk : Backend β) (r : Run β State) :
    Except JSError (Run β State) :=
  match validateForm r.page.formData with
  | .error e => .error e
  | .ok (valid, errors) =>
    let s0 := r.page
    let r := r.modify (fun s => { s with formErrors := errors })
    if !valid then .ok r
    else
      let r := r.modify (fun s => { s with isSubmitting := true })
      let r :=
        match docPath s0.currentApplicant with
        | .error _ => updateFailed r
        | .ok (coll, id) =>
          match r.updateDoc bk coll id
              ((Obj.spread [] s0.formData).set "updatedAt" (.date (some env.now))) with
          | (.error _, r) => updateFailed r
          | (.ok _, r) =>
            let r := r.emit (.alert "success" "Success" "Applicant updated successfully")
            let r := fetchApplicants env bk r
            r.modify (fun s => { s with showEditModal := false })
      .ok (r.modify (fun s => { s with isSubmitting := false }))

/-- The `catch` block of `handleDeleteApplicant`. -/
def deleteFailed (r : Run β State) : Run β State :=
  let r := r.emit (.error "Error deleting applicant:")
  r.emit (.alert "error" "Error" "Failed to delete applicant")

/-- The function `handleDeleteApplicant`; `confirmed` is `result.isConfirmed`. -/
def handleDeleteApplicant (env : Env) (bk : Backend β) (applicant : Obj) (confirmed : Bool)
    (r : Run β State) : Run β State :=
  let r := r.emit (.confirm "Are you sure?")
  if confirmed then
    match docPath (some applicant) with
    | .error _ => deleteFailed r
    | .ok (coll, id) =>
      match r.deleteDoc bk coll id with
      | (.error _, r) => deleteFailed r
      | (.ok _, r) =>
        let r := r.emit (.alert "success" "Deleted!" "Applicant has been deleted.")
        fetchApplicants env bk r
  else r

end Applicants

/-! ## The Dashboard page (`src/pages/Dashboard.jsx`) -/

namespace Dashboard

/-- The `stats` object. -/
structure Stats where
  announcements : Nat
  jobs : Nat
  districtManagers : Nat
  trainers : Nat
  supervisors : Nat
  surveyors : Nat
  deriving DecidableEq, Repr

/-- The `useState` cells of the page. -/
structure State where
  stats : Stats
  loading : Bool
  downloading : Bool
  deriving DecidableEq, Repr

/-- The call `cell.toString()` on the value of a cell: `null` has no method; numbers print
in decimal; dates and other objects print as the host prints them. -/
def cellToString (env : Env) : JSVal → Except JSError String
  | .undefined => .error typeError
  | .null => .error typeError
  | .bool b => .ok (if b then "true" else "false")
  | .num n => .ok (toString n)
  | .str s => .ok s
  | v => .ok (env.objToString v)

/-- The call `s.replace(/"/g, '""')`. -/
def doubleQuotes (s : String) : String :=
  ⟨s.data.flatMap (fun c => if c = '"' then ['"', '"'] else [c])⟩

/-- One cell of a row of `convertToCSV`. -/
def csvCell (env : Env) (item : Obj) (header : String) : Except JSError String := do
  let v := item.get header
  let cell := if v ≠ .undefined then v else .str ""
  let cell ← cellToString env cell
  let cell := doubleQuotes cell
  if cell.data.contains ',' || cell.data.contains '"' || cell.data.contains '\n' then
    return "\"" ++ cell ++ "\""
  else return cell

/-- The headers of `convertToCSV`: the keys of the first item except `id`. -/
def csvHeaders (first : Obj) : List String := (Obj.keys first).filter (fun key => key ≠ "id")

/-- One line of `convertToCSV` for an item, with its newline. -/
def csvRow (env : Env) (headers : List String) (item : Obj) : Except JSError String := do
  let row ← headers.mapM (csvCell env item)
  return ",".intercalate row ++ "\n"

/-- The function `convertToCSV`. -/
def convertToCSV (env : Env) (data : List Obj) : Except JSError String :=
  match data with
  | [] => .ok ""
  | first :: _ => do
    let headers := csvHeaders first
    let csv := ",".intercalate headers ++ "\n"
    let rows ← data.mapM (csvRow env headers)
    return rows.foldl (fun acc row => acc ++ row) csv

variable {β : Type}

/-- The `catch` block of `fetchData`. -/
def fetchFailed (r : Run β State) : Run β State :=
  let r := r.emit (.error "Error fetching dashboard data:")
  r.modify (fun s => { s with loading := false })

/-- The function `fetchData` of the mount effect: six reads, one after the other. -/
def fetchData (bk : Backend β) (r : Run β State) : Run β State :=
  match r.getDocs bk "announcements" none with
  | (.error _, r) => fetchFailed r
  | (.ok announcementsSnapshot, r) =>
  match r.getDocs bk "jobs" none with
  | (.error _, r) => fetchFailed r
  | (.ok jobsSnapshot, r) =>
  match r.getDocs bk "DistrictManager" none with
  | (.error _, r) => fetchFailed r
  | (.ok districtManagersSnapshot, r) =>
  match r.getDocs bk "Trainer" none with
  | (.error _, r) => fetchFailed r
  | (.ok trainersSnapshot, r) =>
  match r.getDocs bk "Supervisor" none with
  | (.error _, r) => fetchFailed r
  | (.ok supervisorsSnapshot, r) =>
  match r.getDocs bk "Surveyor" none with
  | (.error _, r) => fetchFailed r
  | (.ok surveyorsSnapshot, r) =>
    let r := r.modify (fun s => { s with stats :=
      { announcements := announcementsSnapshot.length, jobs := jobsSnapshot.length,
        districtManagers := districtManagersSnapshot.length,
        trainers := trainersSnapshot.length, supervisors := supervisorsSnapshot.length,
        surveyors := surveyorsSnapshot.length } })
    r.modify (fun s => { s with loading := false })

/-- The part of `downloadCSV` that runs when it is called: up to the `await`, where the
read has been issued and the function is suspended. -/
def downloadBegin (collectionName : String) (r : Run β State) : Run β State :=
  let r := r.modify (fun s => { s with downloading := true })
  r.emit (.start (.getDocs collectionName none))

/-- The `catch` block of `downloadCSV`. -/
def downloadFailed (r : Run β State) : Run β State :=
  let r := r.emit (.error "Error downloading CSV:")
  r.modify (fun s => { s with downloading := false })

/-- The part of `downloadCSV` that runs when the read settles. -/
def downloadResume (env : Env) (bk : Backend β) (collectionName fileName : String)
    (r : Run β State) : Run β State :=
  let res := bk.getDocs r.world collectionName none
  let r : Run β State :=
    { r with world := res.2,
             trace := r.trace ++ [.settle (.getDocs collectionName none) (Run.isOk res.1)] }
  match res.1 with
  | .error _ => downloadFailed r
  | .ok snapshot =>
    let data := snapshot.map (fun d => Obj.spread [("id", .str d.id)] d.data)
    match convertToCSV env data with
    | .error _ => downloadFailed r
    | .ok csv =>
      let r := r.emit (.download (fileName ++ ".csv") csv)
      r.modify (fun s => { s with downloading := false })

/-- The function `downloadCSV`, called alone (a click on one "Download CSV" button). -/
def downloadCSV (env : Env) (bk : Backend β) (collectionName fileName : String)
    (r : Run β State) : Run β State :=
  downloadResume env bk collectionName fileName (downloadBegin collectionName r)

/-- The collections of the "Download All CSVs" button. -/
def allCollections : List (String × String) :=
  [("DistrictManager", "district_managers"), ("Trainer", "trainers"),
   ("Supervisor", "supervisors"), ("Surveyor", "surveyors")]

/-- The click handler of "Download All CSVs": `forEach` calls `downloadCSV` for every
collection without awaiting it, so every call runs up to its `await`; the reads then
settle, here in the order they were issued. -/
def downloadAll (env : Env) (bk : Backend β) (r : Run β State) : Run β State :=
  let r := allCollections.foldl (fun r c => downloadBegin c.1 r) r
  allCollections.foldl (fun r c => downloadResume env bk c.1 c.2 r) r

end Dashboard

/-! ## The authentication context (`src/components/AuthContext.jsx`) -/

namespace AuthContext

/-- The `useState` cells of `AuthProvider`. -/
structure State where
  currentUser : Option Obj
  loading : Bool
  error : String
  deriving DecidableEq, Repr

variable {β : Type}

/-- An awaited call of the authentication provider. -/
def call (req : Req) (res : Except JSError Unit × β) (r : Run β State) :
    Except JSError Unit × Run β State :=
  (res.1, { r with world := res.2,
                   trace := r.trace ++ [.start req, .settle req (Run.isOk res.1)] })

/-- The `catch` block shared by the three functions: store the message, throw again. -/
def rethrow (e : JSError) (r : Run β State) : Except JSError Unit × Run β State :=
  (.error e, r.modify (fun s => { s with error := e.message }))

/-- The function `login`: the first component is the outcome of the returned promise. -/
def login (bk : Backend β) (email password : String) (r : Run β State) :
    Except JSError Unit × Run β State :=
  let r := r.modify (fun s => { s with error := "" })
  match call (.signIn email password) (bk.signIn r.world email password) r with
  | (.error e, r) => rethrow e r
  | (.ok _, r) => (.ok (), r)

/-- The function `logout`. -/
def logout (bk : Backend β) (r : Run β State) : Except JSError Unit × Run β State :=
  let r := r.modify (fun s => { s with error := "" })
  match call .signOut (bk.signOut r.world) r with
  | (.error e, r) => rethrow e r
  | (.ok _, r) => (.ok (), r)

/-- The function `resetPassword`. -/
def resetPassword (bk : Backend β) (email : String) (r : Run β State) :
    Except JSError Unit × Run β State :=
  let r := r.modify (fun s => { s with error := "" })
  match call (.sendPasswordResetEmail email) (bk.sendPasswordResetEmail r.world email) r with
  | (.error e, r) => rethrow e r
  | (.ok _, r) => (.ok (), r)

end AuthContext

/-! ## Editing a form, searching a list, the authentication gate -/

/-- The updater `prev => ({ ...prev, [name]: value })` of `handleChange`. -/
def setField (name : String) (value : JSVal) (prev : Obj) : Obj :=
  (Obj.spread [] prev).set name value

/-- The second half of `handleChange`: when `formErrors[name]` is truthy the errors become
`{ ...prev, [name]: '' }`, otherwise the setter is not called. -/
def clearFieldError (name : String) (formErrors : Obj) : Obj :=
  if truthy (formErrors.get name) then setField name (.str "") formErrors else formErrors

/-- The method call `s.includes(t)` on the character lists: `t` starts at some position
of `s`. -/
def includesChars (s t : List Char) : Bool := s.tails.any (fun u => t.isPrefixOf u)

/-- The method call `s.includes(t)`. -/
def includes (s t : String) : Bool := includesChars s.data t.data

/-- The expression `v?.toLowerCase().includes(searchLower)`, as a truth value: a missing
field short-circuits to `undefined`; a value that is not a string has no `toLowerCase`. -/
def optLowerIncludes (env : Env) (v : JSVal) (searchLower : String) : Except JSError Bool :=
  match v with
  | .undefined => .ok false
  | .null => .ok false
  | .str s => .ok (includes (env.toLowerCase s) searchLower)
  | _ => .error typeError

/-- The expression `v.toLowerCase().includes(searchLower)`: a missing field raises. -/
def lowerIncludes (env : Env) (v : JSVal) (searchLower : String) : Except JSError Bool :=
  match v with
  | .str s => .ok (includes (env.toLowerCase s) searchLower)
  | _ => .error typeError

/-- The operator `a || b` on truth values: `b` is evaluated only when `a` is falsy. -/
def orElseE (a b : Except JSError Bool) : Except JSError Bool :=
  match a with
  | .error e => .error e
  | .ok true => .ok true
  | .ok false => b

/-- The method `Array.prototype.filter` with a callback that may throw: the first exception ends the
call. -/
def filterE {α : Type} (p : α → Except JSError Bool) : List α → Except JSError (List α)
  | [] => .ok []
  | a :: l =>
    match p a with
    | .error e => .error e
    | .ok b =>
      match filterE p l with
      | .error e => .error e
      | .ok l' => .ok (if b then a :: l' else l')

namespace Announcements

/-- The function `handleChange`; `name` and `value` are those of the input element. -/
def handleChange (name value : String) (s : State) : State :=
  { s with formData := setField name (.str value) s.formData,
           formErrors := clearFieldError name s.formErrors }

/-- The expression `d.toISOString().substr(0, 10)` for a date with time value `t`: the
invalid date makes `toISOString` throw a RangeError. -/
def isoDateOf (env : Env) (t : Option Int) : Except JSError String :=
  match t with
  | some ms => .ok (env.isoDate ms)
  | none => .error ⟨"RangeError: Invalid time value"⟩

/-- The function `handleModalShow`; `announcement` is the record to edit or `null`.  In
edit mode the form takes `announcement.title` and `announcement.content` as they are.
When the date cannot be printed the exception leaves the page with only
`currentAnnouncement` set; that state comes with the exception. -/
def handleModalShow (env : Env) (announcement : Option Obj) (s : State) :
    Except (JSError × State) State :=
  match announcement with
  | some a =>
    let s := { s with currentAnnouncement := some a }
    match isoDateOf env (sortKey env a) with
    | .error e => .error (e, s)
    | .ok d =>
      .ok { s with formData := [("title", a.get "title"), ("content", a.get "content"),
                     ("date", .str d)],
                   showModal := true }
  | none =>
    .ok { s with currentAnnouncement := none,
                 formData := [("title", .str ""), ("content", .str ""),
                   ("date", .str (env.isoDate env.now))],
                 showModal := true }

/-- The list `filteredAnnouncements` of a render. -/
def filteredAnnouncements (env : Env) (s : State) : Except JSError (List Obj) :=
  filterE (fun announcement =>
    orElseE (lowerIncludes env (announcement.get "title") (env.toLowerCase s.searchTerm))
      (lowerIncludes env (announcement.get "content") (env.toLowerCase s.searchTerm)))
    s.announcements

end Announcements

namespace Jobs

/-- The function `handleChange`. -/
def handleChange (name value : String) (s : State) : State :=
  { s with formData := setField name (.str value) s.formData,
           formErrors := clearFieldError name s.formErrors }

/-- The list `filteredJobs` of a render. -/
def filteredJobs (env : Env) (s : State) : Except JSError (List Obj) :=
  filterE (fun job =>
    orElseE (optLowerIncludes env (job.get "title") (env.toLowerCase s.searchTerm))
      (optLowerIncludes env (job.get "description") (env.toLowerCase s.searchTerm)))
    s.jobs

end Jobs

namespace Projects

/-- The function `handleChange`. -/
def handleChange (name value : String) (s : State) : State :=
  { s with formData := setField name (.str value) s.formData,
           formErrors := clearFieldError name s.formErrors }

/-- The list `filteredProjects` of a render. -/
def filteredProjects (env : Env) (s : State) : Except JSError (List Obj) :=
  filterE (fun project =>
    let searchLower := env.toLowerCase s.searchTerm
    orElseE (optLowerIncludes env (project.get "title") searchLower)
      (orElseE (optLowerIncludes env (project.get "type") searchLower)
        (orElseE (optLowerIncludes env (project.get "sector") searchLower)
          (optLowerIncludes env (project.get "description") searchLower))))
    s.projects

end Projects

namespace Activities

/-- The function `handleChange`. -/
def handleChange (name value : String) (s : State) : State :=
  { s with formData := setField name (.str value) s.formData,
           formErrors := clearFieldError name s.formErrors }

/-- The list `filteredActivities` of a render. -/
def filteredActivities (env : Env) (s : State) : Except JSError (List Obj) :=
  filterE (fun activity =>
    let searchLower := env.toLowerCase s.searchTerm
    orElseE (optLowerIncludes env (activity.get "title") searchLower)
      (orElseE (optLowerIncludes env (activity.get "category") searchLower)
        (optLowerIncludes env (activity.get "description") searchLower)))
    s.activities

end Activities

namespace Applicants

/-- The function `handleChange`. -/
def handleChange (name value : String) (s : State) : State :=
  { s with formData := setField name (.str value) s.formData,
           formErrors := clearFieldError name s.formErrors }

/-- The list `filteredApplicants` of a render. -/
def filteredApplicants (env : Env) (s : State) : Except JSError (List Obj) :=
  filterE (fun applicant =>
    let searchLower := env.toLowerCase s.searchTerm
    orElseE (optLowerIncludes env (applicant.get "fullName") searchLower)
      (orElseE (optLowerIncludes env (applicant.get "email") searchLower)
        (orElseE (optLowerIncludes env (applicant.get "cnic") searchLower)
          (optLowerIncludes env (applicant.get "district") searchLower))))
    s.applicants

end Applicants

namespace AuthContext

/-- The listener given to `onAuthStateChanged`: `user` is the signed-in user or `null`. -/
def authStateChanged (user : Option Obj) (s : State) : State :=
  { s with currentUser := user, loading := false }

/-- Whether `AuthProvider` renders its children: the expression `!loading && children`. -/
def childrenRendered (s : State) : Bool := !s.loading

end AuthContext

/-! ## Notions used to state the properties -/

/-- ASCII lower-casing, the notion of case-insensitivity used to state the URL check. -/
def asciiLower (c : Char) : Char :=
  if 65 ≤ c.toNat ∧ c.toNat ≤ 90 then Char.ofNat (c.toNat + 32) else c

/-- The pieces of a literal, every character taken once. -/
def lits (l : List Char) : List Piece := l.map (fun c => ⟨.char c, .one⟩)

/-- The part of the pattern after the scheme: `.+\..+`. -/
def restPieces : List Piece := [⟨.dot, .plus⟩, ⟨.char '.', .one⟩, ⟨.dot, .plus⟩]

/-- The remainder `r` has a dot at some index `i ≥ 1`, no line terminator before it and a
character that is not a line terminator right after it. -/
def DotSplit (r : List Char) : Prop :=
  ∃ i, 1 ≤ i ∧ (∀ j, j < i → ∃ c, r[j]? = some c ∧ isLineTerminator c = false) ∧
    r[i]? = some '.' ∧ ∃ c, r[i + 1]? = some c ∧ isLineTerminator c = false


/-- The errors entry of one field: present when the field violates its condition. -/
def errorEntry (violated : Bool) (k msg : String) : Obj :=
  if violated then [(k, JSVal.str msg)] else []

/-- What the required-field check of a page promises.  The list `req` gives every required
field with the flag "this field is empty"; `result` is what `validateForm` produced. -/
def ValidatesRequired (result : Except JSError (Bool × Obj)) (req : List (String × Bool)) : Prop :=
  ∃ (b : Bool) (errors : Obj), result = .ok (b, errors) ∧
    (b = false ↔ ∃ p ∈ req, p.2 = true) ∧
    (∀ k, k ∈ Obj.keys errors ↔ (k, true) ∈ req) ∧
    (∀ k, k ∈ Obj.keys errors → ∃ m, Obj.get errors k = .str m ∧ m ≠ "") ∧
    (b = true → errors = [])

/-- Newest first: every element has a valid key and keys never increase along the list. -/
def SortedDesc {α : Type} (key : α → Option Int) (l : List α) : Prop :=
  l.Pairwise (fun a b => ∃ x y, key a = some x ∧ key b = some y ∧ y ≤ x)

/-- The elements of `s` with a given key are those of `l`, in the order they have in `l`. -/
def KeepsOrderOfEqualKeys {α : Type} (key : α → Option Int) (l s : List α) : Prop :=
  ∀ k : Int, s.filter (fun a => key a == some k) = l.filter (fun a => key a == some k)

/-- A host for closed examples: no string parses as a date, the clock reads 0 in a
handler and `i` at the `i`-th document, and lower-casing maps the ASCII letters. -/
def exampleEnv : Env :=
  { parseDate := fun _ => none, now := 0, tick := fun i => i, isoDate := fun _ => "1970-01-01",
    objToString := fun _ => "[object Object]",
    toLowerCase := fun s => ⟨s.data.map asciiLower⟩ }

/-- The read with fallback of a list page.  `evs` are the events of one fetch started in
service state `w`, `stored` is the list it leaves in the page state and `process` is the
map-then-sort of the page.  The ordered query is issued exactly when the unordered query
returned no document; the documents processed and stored are those of the unordered query
when there are some, and those of the ordered query otherwise. -/
def FallbackRead {β : Type} (bk : Backend β) (w : β) (coll : String) (evs : List Ev)
    (stored : List Obj) (process : List Doc → List Obj) : Prop :=
  Ev.start (.getDocs coll none) ∈ evs ∧
  (Ev.start (.getDocs coll (some ("createdAt", "desc"))) ∈ evs ↔
    (bk.getDocs w coll none).1 = .ok []) ∧
  (∀ docs, (bk.getDocs w coll none).1 = .ok docs → docs ≠ [] → stored = process docs) ∧
  (∀ docs, (bk.getDocs w coll none).1 = .ok [] →
    (bk.getDocs (bk.getDocs w coll none).2 coll (some ("createdAt", "desc"))).1 = .ok docs →
    stored = process docs)

/-- A service for closed examples: every read returns `docs`, every other request
succeeds. -/
def constBackend (docs : List Doc) : Backend Unit :=
  { getDocs := fun _ _ _ => (.ok docs, ()),
    addDoc := fun _ _ _ => (.ok "new", ()),
    updateDoc := fun _ _ _ _ => (.ok (), ()),
    deleteDoc := fun _ _ _ => (.ok (), ()),
    signIn := fun _ _ _ => (.ok (), ()),
    signOut := fun _ => (.ok (), ()),
    sendPasswordResetEmail := fun _ _ => (.ok (), ()) }

/-- A service for closed examples that rejects every request. -/
def failingBackend : Backend Unit :=
  { getDocs := fun _ _ _ => (.error ⟨"unavailable"⟩, ()),
    addDoc := fun _ _ _ => (.error ⟨"unavailable"⟩, ()),
    updateDoc := fun _ _ _ _ => (.error ⟨"unavailable"⟩, ()),
    deleteDoc := fun _ _ _ => (.error ⟨"unavailable"⟩, ()),
    signIn := fun _ _ _ => (.error ⟨"unavailable"⟩, ()),
    signOut := fun _ => (.error ⟨"unavailable"⟩, ()),
    sendPasswordResetEmail := fun _ _ => (.error ⟨"unavailable"⟩, ()) }

/-- The database seen as a map: every collection name has its documents, at most one per
id. -/
abbrev Store := String → List Doc

/-- The database as a map from id to document.  A read without ordering returns the
documents of the collection; a read ordered by a field returns those that have the field,
arranged by `arrange`, the ordering of the database; a delete removes the document with
the given id; an update merges the fields into the document with the given id and fails
when there is none; an add stores the data under `fresh`. -/
def storeBackend (arrange : List Doc → List Doc) (fresh : String) : Backend Store :=
  { getDocs := fun db coll ord =>
      match ord with
      | none => (.ok (db coll), db)
      | some (field, _) =>
        (.ok (arrange ((db coll).filter (fun d => decide (field ∈ Obj.keys d.data)))), db),
    addDoc := fun db coll data =>
      (.ok fresh, fun c => if c = coll then db c ++ [⟨fresh, data⟩] else db c),
    updateDoc := fun db coll id data =>
      if (db coll).any (fun d => d.id == id) then
        (.ok (), fun c =>
          if c = coll then
            (db c).map (fun d => if d.id = id then ⟨d.id, Obj.spread d.data data⟩ else d)
          else db c)
      else (.error ⟨"No document to update"⟩, db),
    deleteDoc := fun db coll id =>
      (.ok (), fun c => if c = coll then (db c).filter (fun d => d.id ≠ id) else db c),
    signIn := fun db _ _ => (.ok (), db),
    signOut := fun db => (.ok (), db),
    sendPasswordResetEmail := fun db _ => (.ok (), db) }

/-- An initial state of the Applicants page showing the collection `c`. -/
def applicantsInit (c : String) : Applicants.State :=
  { applicants := [], loading := true, activeCollection := c, showViewModal := false,
    showEditModal := false, currentApplicant := none, searchTerm := "", formData := [],
    isSubmitting := false, formErrors := [] }

/-- Two applicant documents: the first was created in 2023 and stores `createdAt` as a
database timestamp, the second was created in 2030 and stores it as a number. -/
def twoApplicants : List Doc :=
  [⟨"b", [("fullName", .str "B"), ("createdAt", .timestamp (some 1700000000000))]⟩,
   ⟨"a", [("fullName", .str "A"), ("createdAt", .num 1900000000000)]⟩]

/-- The `createdAt` date of a stored applicant record. -/
def Applicants.createdKey (a : Obj) : Option Int :=
  match a.get "createdAt" with
  | .date t => t
  | _ => none

/-- A failure is reported to the console and to the user: when some request of the trace
was rejected, the trace has a `console.error` and an alert with the error icon. -/
def FailureReported (tr : List Ev) : Prop :=
  (∃ q, Ev.settle q false ∈ tr) →
    (∃ m, Ev.error m ∈ tr) ∧ (∃ title text, Ev.alert "error" title text ∈ tr)

/-- One step of the count of pending requests: the current number and the largest number
seen so far. -/
def pendingStep (acc : Nat × Nat) : Ev → Nat × Nat
  | .start _ => (acc.1 + 1, max acc.2 (acc.1 + 1))
  | .settle _ _ => (acc.1 - 1, acc.2)
  | _ => acc

/-- The largest number of requests that are issued and not yet settled at one time. -/
def maxPending (tr : List Ev) : Nat := (tr.foldl pendingStep (0, 0)).2

/-- Every request of the trace settles before anything else happens: a `start` is
directly followed by the `settle` of the same request. -/
def sequential : List Ev → Bool
  | [] => true
  | .start q :: .settle q' _ :: rest => decide (q = q') && sequential rest
  | .start _ :: _ => false
  | .settle _ _ :: _ => false
  | _ :: rest => sequential rest

/-- The trace of a handler that awaits its requests one by one and reports every
failure. -/
def WellBehaved (tr : List Ev) : Prop := FailureReported tr ∧ sequential tr = true

/-- A failure is written to the console only: when some request of the trace was rejected
the trace has a `console.error`, and it never has an alert. -/
def LoggedOnly (tr : List Ev) : Prop :=
  ((∃ q, Ev.settle q false ∈ tr) → ∃ m, Ev.error m ∈ tr) ∧
    ∀ icon title text, Ev.alert icon title text ∉ tr

/-- Nothing but the request itself: the trace has no console output and no alert. -/
def Silent (tr : List Ev) : Prop :=
  ∀ e ∈ tr, (∃ q, e = Ev.start q) ∨ (∃ q ok, e = Ev.settle q ok)

/-- The initial state of the Dashboard. -/
def dashboardInit : Dashboard.State :=
  { stats := { announcements := 0, jobs := 0, districtManagers := 0, trainers := 0,
               supervisors := 0, surveyors := 0 },
    loading := true, downloading := false }

/-- The initial state of `AuthProvider`. -/
def authInit : AuthContext.State := { currentUser := none, loading := true, error := "" }

/-- The events of a submit handler; none when it threw in `validateForm`, its first
statement. -/
def traceOf {β σ : Type} : Except JSError (Run β σ) → List Ev
  | .ok r => r.trace
  | .error _ => []

/-- An initial state of the Announcements page. -/
def announcementsInit : Announcements.State :=
  { announcements := [], loading := true, showModal := false, currentAnnouncement := none,
    searchTerm := "", formData := [("title", .str ""), ("content", .str ""),
      ("date", .str "1970-01-01")],
    isSubmitting := false, formErrors := [] }

/-- A database whose `announcements` collection has two documents; the data of the
document with id `a` has a field named `id`, with the value `b`. -/
def shadowStore : Store := fun c =>
  if c = "announcements" then
    [⟨"a", [("id", .str "b"), ("title", .str "First"), ("content", .str "x"),
        ("date", .timestamp (some 2000))]⟩,
     ⟨"b", [("title", .str "Second"), ("content", .str "y"),
        ("date", .timestamp (some 1000))]⟩]
  else []

/-- The record the page lists for the document with id `a` of `shadowStore`. -/
def shadowRecord : Obj :=
  [("id", .str "b"), ("title", .str "First"), ("content", .str "x"), ("date", .date (some 2000))]

/-- The record the page lists for the document with id `b` of `shadowStore`. -/
def plainRecord : Obj :=
  [("id", .str "b"), ("title", .str "Second"), ("content", .str "y"),
    ("date", .date (some 1000))]

/-- The page after the first fetch from `shadowStore`. -/
def shadowListed : Run Store Announcements.State :=
  Announcements.fetchAnnouncements exampleEnv (storeBackend id "new")
    ⟨shadowStore, announcementsInit, []⟩

/-- The page after the user deleted the listed record `shadowRecord` and confirmed. -/
def shadowDeleted : Run Store Announcements.State :=
  Announcements.handleDelete exampleEnv (storeBackend id "new") shadowRecord true
    ⟨shadowListed.world, shadowListed.page, []⟩

/-- An initial state of the Jobs page. -/
def jobsInit : Jobs.State :=
  { jobs := [], loading := true, showModal := true, showViewModal := false, currentJob := none,
    searchTerm := "", formData := [("title", .str ""), ("date", .str "1970-01-01"),
      ("description", .str "")],
    isSubmitting := false, formErrors := [] }

/-- An initial state of the Projects page, with the add modal open. -/
def projectsInit : Projects.State :=
  { projects := [], loading := true, showAddModal := true, showViewModal := false,
    showEditModal := false, currentProject := none, searchTerm := "",
    formData := [("title", .str ""), ("type", .str ""), ("sector", .str ""),
      ("description", .str ""), ("conclusion", .str "")],
    isSubmitting := false, formErrors := [] }

/-- An initial state of the Activities page, with the add modal open. -/
def activitiesInit : Activities.State :=
  { activities := [], loading := true, showAddModal := true, showViewModal := false,
    showEditModal := false, currentActivity := none, searchTerm := "",
    formData := [("title", .str ""), ("imageUrl", .str ""), ("category", .str ""),
      ("description", .str ""), ("link", .str "")],
    isSubmitting := false, formErrors := [] }

/-- A filled activity form: the description is blank and the link is not a URL. -/
def activityFormExample : Obj :=
  [("title", .str "Open day"), ("imageUrl", .str "https://example.com/image.jpg"),
   ("category", .str "Event"), ("description", .str "  "), ("link", .str "example")]

/-- Two documents with a `date` and a `createdAt` timestamp, the older one first. -/
def datedDocs : List Doc :=
  [⟨"x", [("title", .str "Old"), ("date", .timestamp (some 1000)),
      ("createdAt", .timestamp (some 1000))]⟩,
   ⟨"y", [("title", .str "New"), ("date", .timestamp (some 2000)),
      ("createdAt", .timestamp (some 2000))]⟩]

/-- A field value that is a string or is missing. -/
def StringOrMissing (v : JSVal) : Prop := (∃ s, v = .str s) ∨ v = .undefined ∨ v = .null

/-- The record has a string in at least one of the searched fields. -/
def hasStringField (fields : List String) (r : Obj) : Bool :=
  fields.any (fun f => match r.get f with
    | .str _ => true
    | _ => false)

/-- The lower-cased search term occurs in the lower-cased value of the field. -/
def fieldMatches (env : Env) (searchLower : String) (v : JSVal) : Bool :=
  match v with
  | .str s => includes (env.toLowerCase s) searchLower
  | _ => false

/-- The lower-cased search term occurs in the lower-cased value of a searched field. -/
def recordMatches (env : Env) (fields : List String) (term : String) (r : Obj) : Bool :=
  fields.any (fun f => fieldMatches env (env.toLowerCase term) (r.get f))

/-- A fetched announcement document that has no `title` field. -/
def untitledDoc : Doc :=
  ⟨"n1", [("content", .str "Office closed"), ("date", .timestamp (some 1000))]⟩

/-- The record the page lists for `untitledDoc`. -/
def untitledRecord : Obj :=
  [("id", .str "n1"), ("content", .str "Office closed"), ("date", .date (some 1000))]

/-- What a search filter does with the records that lack every searched field.  `filtered`
gives the displayed list for a search term and `list` is the full list: for the empty term
the displayed list is the sub-list of the records with a string in a searched field; for
every term the displayed records have such a field; for the empty term the displayed list
is the full list exactly when every record has such a field. -/
def EmptyTermFilter (fields : List String) (list : List Obj)
    (filtered : String → Except JSError (List Obj)) : Prop :=
  filtered "" = .ok (list.filter (hasStringField fields)) ∧
  (∀ term, ∃ l, filtered term = .ok l ∧ ∀ r ∈ l, r ∈ list ∧ hasStringField fields r = true) ∧
  (filtered "" = .ok list ↔ ∀ r ∈ list, hasStringField fields r = true)

/-- A job that has neither a title nor a description, after one that has a title. -/
def jobsWithBlank : List Obj :=
  [[("id", .str "j1"), ("title", .str "Clerk")], [("id", .str "j2")]]

/-- The Jobs page listing `jobsWithBlank`. -/
def jobsBlankState : Jobs.State := { jobsInit with jobs := jobsWithBlank }

/-- The characters of `s.replace(/"/g, '""')`. -/
def dqChars (l : List Char) : List Char :=
  l.flatMap (fun c => if c = '"' then ['"', '"'] else [c])

/-- The text has a comma, a double quote or a newline. -/
def specialChars (l : List Char) : Bool := l.contains ',' || l.contains '"' || l.contains '\n'

/-- The characters of the cell emitted for a string: quotes doubled, and the whole put
between quotes when it has a special character. -/
def encChars (l : List Char) : List Char :=
  if specialChars (dqChars l) then '"' :: (dqChars l ++ ['"']) else dqChars l

/-- The cell emitted for a string value. -/
def encCell (s : String) : String :=
  if specialChars (Dashboard.doubleQuotes s).data then "\"" ++ Dashboard.doubleQuotes s ++ "\""
  else Dashboard.doubleQuotes s

/-- What follows the first cell of a line: every further cell after a comma, then the
newline. -/
def joinTail : List (List Char) → List Char
  | [] => ['\n']
  | e :: es => ',' :: (e ++ joinTail es)

/-- The characters of a line made of the given cells. -/
def rowChars : List (List Char) → List Char
  | [] => ['\n']
  | e :: es => e ++ joinTail es

/-- A text that begins with a comma or a newline. -/
def StartsWithSeparator (t : List Char) : Prop :=
  ∃ c rest, t = c :: rest ∧ (c = ',' ∨ c = '\n')

/-- The string of a value that is a string; the empty string for any other value. -/
def strOf : JSVal → String
  | .str s => s
  | _ => ""

/-- Two records with the same keys that differ in the value of `note`. -/
def csvRecordA : Obj := [("name", .str "A, B"), ("note", .str "say \"hi\"")]

/-- The second of the two records. -/
def csvRecordB : Obj := [("name", .str "A, B"), ("note", .str "say hi")]

/-- Two documents with the same `date` and `createdAt`; the second has the larger numeric
`timestamp`. -/
def tiedDocs : List Doc :=
  [⟨"a1", [("title", .str "One"), ("content", .str "x"), ("date", .timestamp (some 1000)),
      ("createdAt", .timestamp (some 1000)), ("timestamp", .num 1)]⟩,
   ⟨"a2", [("title", .str "Two"), ("content", .str "y"), ("date", .timestamp (some 1000)),
      ("createdAt", .timestamp (some 1000)), ("timestamp", .num 2)]⟩]

/-- Two job documents: the first stores `createdAt` as the number 5000 and has the `date`
1000; the second has `createdAt` and `date` 3000, both as database timestamps. -/
def mixedJobs : List Doc :=
  [⟨"j1", [("title", .str "Clerk"), ("createdAt", .num 5000),
      ("date", .timestamp (some 1000))]⟩,
   ⟨"j2", [("title", .str "Driver"), ("createdAt", .timestamp (some 3000)),
      ("date", .timestamp (some 3000))]⟩]

/-- What `handleChange` does for the field `n` and the value `v`: `formData[n]` is `v` and
every other field of `formData` is as before (same keys, same values); a non-empty message
under `formErrors[n]` becomes the empty string and the other error entries are as before;
when `formErrors[n]` is absent or empty, `formErrors` is unchanged. -/
def FieldChanged (n v : String) (formData formErrors formData' formErrors' : Obj) : Prop :=
  formData'.get n = .str v ∧
  (∀ k, k ≠ n → formData'.get k = formData.get k ∧
    (k ∈ Obj.keys formData' ↔ k ∈ Obj.keys formData)) ∧
  (∀ m, formErrors.get n = .str m → m ≠ "" →
    formErrors'.get n = .str "" ∧
    ∀ k, k ≠ n → formErrors'.get k = formErrors.get k ∧
      (k ∈ Obj.keys formErrors' ↔ k ∈ Obj.keys formErrors)) ∧
  (formErrors.get n = .undefined ∨ formErrors.get n = .str "" → formErrors' = formErrors)

/-- A form with a title and a content, and an error message under `title`. -/
def editedState : Announcements.State :=
  { announcementsInit with
    formData := [("title", .str "Ne"), ("content", .str "Text"), ("date", .str "2024-01-01")],
    formErrors := [("title", .str "Title is required"), ("date", .str "Date is required")] }

/-- The lower-cased search term is a substring of the lower-cased value of a searched
field of the record. -/
def SearchMatch (env : Env) (fields : List String) (term : String) (r : Obj) : Prop :=
  ∃ f ∈ fields, ∃ v, r.get f = .str v ∧
    List.IsInfix (env.toLowerCase term).data (env.toLowerCase v).data

/-- The displayed list `shown` of a search over `list`: the records that match, in the
order of `list`; matching is decided by `SearchMatch`, it only reads the searched fields
and is the same for two terms with the same lower-cased form. -/
def SearchResult (env : Env) (fields : List String) (list : List Obj) (term : String)
    (shown : Except JSError (List Obj)) : Prop :=
  ∃ p : Obj → Bool, shown = .ok (list.filter p) ∧
    (∀ r, p r = true ↔ SearchMatch env fields term r) ∧
    (∀ r r2, (∀ f ∈ fields, r.get f = r2.get f) → p r = p r2)

/-- Three applicants; the second has no district and the third no email. -/
def threeApplicants : List Obj :=
  [[("id", .str "a1"), ("fullName", .str "Sara Khan"), ("email", .str "sara@example.org"),
      ("cnic", .str "42101-1"), ("district", .str "Quetta")],
   [("id", .str "a2"), ("fullName", .str "Ali Raza"), ("email", .str "ali@example.org"),
      ("cnic", .str "42101-2"), ("district", .null)],
   [("id", .str "a3"), ("fullName", .str "Omar QUETTAWALA"), ("cnic", .str "42101-3"),
      ("district", .str "Gwadar")]]

/-- The Applicants page listing `threeApplicants` with the search term `QUETTA`. -/
def applicantsSearch : Applicants.State :=
  { applicantsInit "Trainer" with applicants := threeApplicants, searchTerm := "QUETTA" }

/-- The cell of a value: empty for `undefined`; otherwise the encoded string form. -/
def cellSpec (env : Env) : JSVal → String
  | .undefined => ""
  | v =>
    match Dashboard.cellToString env v with
    | .ok s => encCell s
    | .error _ => ""

/-- The text of a table: the header line, then one line per row; the cells of a line are
joined by commas and every line ends with a newline. -/
def tableText (headers : List String) (rows : List (List String)) : String :=
  String.join ((headers :: rows).map (fun cells => ",".intercalate cells ++ "\n"))

/-- Two records; the second has `null` under `note` and a key the first does not have. -/
def csvWithNull : List Obj :=
  [[("id", .str "1"), ("name", .str "A"), ("note", .str "x")],
   [("id", .str "2"), ("name", .str "B"), ("note", .null), ("extra", .str "e")]]

/-- Two records; the second lacks `note` and has a key the first does not have. -/
def csvWithMissing : List Obj :=
  [[("id", .str "1"), ("name", .str "A, B"), ("note", .num 7)],
   [("id", .str "2"), ("name", .str "C"), ("extra", .str "e")]]

/-- Whether a request writes to the database. -/
def isWrite : Req → Bool
  | .addDoc _ _ => true
  | .updateDoc _ _ _ => true
  | .deleteDoc _ _ => true
  | _ => false

/-- The requests issued in a trace, in order. -/
def requests (tr : List Ev) : List Req :=
  tr.filterMap (fun e => match e with
    | .start q => some q
    | _ => none)

/-- The writes issued in a trace, in order. -/
def writes (tr : List Ev) : List Req := (requests tr).filter isWrite

/-- The events of a handler whose write `q` was rejected: `q` is the only request issued;
after it was rejected the error is logged with `console.error` and an error alert is
shown. -/
def WriteRejected (q : Req) (evs : List Ev) : Prop :=
  ∃ pre post, evs = pre ++ [.start q, .settle q false] ++ post ∧
    requests pre = [] ∧ requests post = [] ∧
    (∃ m, Ev.error m ∈ post) ∧ (∃ title text, Ev.alert "error" title text ∈ post)

/-- The object `newData` written by the add branch of `Announcements.handleSubmit`; `ts`
is `Timestamp.fromDate(dateValue)`. -/
def Announcements.newData (env : Env) (formData : Obj) (ts : JSVal) : Obj :=
  [("title", formData.get "title"), ("content", formData.get "content"), ("date", ts),
    ("createdAt", .timestamp (some env.now)), ("timestamp", .num env.now)]

/-- The object written by the update branch of `Announcements.handleSubmit`. -/
def Announcements.updateData (env : Env) (formData : Obj) (ts : JSVal) : Obj :=
  [("title", formData.get "title"), ("content", formData.get "content"), ("date", ts),
    ("updatedAt", .timestamp (some env.now)), ("timestamp", .num env.now)]

/-- The object `jobData` when the add branch of `Jobs.handleSubmit` writes it. -/
def Jobs.addData (env : Env) (formData : Obj) (ts : JSVal) : Obj :=
  [("title", formData.get "title"), ("date", ts), ("description", formData.get "description"),
    ("createdAt", .timestamp (some env.now)), ("timestamp", .num env.now)]

/-- The object `jobData` when the update branch of `Jobs.handleSubmit` writes it. -/
def Jobs.updateData (env : Env) (formData : Obj) (ts : JSVal) : Obj :=
  [("title", formData.get "title"), ("date", ts), ("description", formData.get "description"),
    ("updatedAt", .timestamp (some env.now))]

/-- The object written by `handleAddSubmit` of Activities and of Projects: the form, then
`createdAt`, `updatedAt` and `timestamp`. -/
def addPayload (env : Env) (formData : Obj) : Obj :=
  (((Obj.spread [] formData).set "createdAt" .serverTimestamp).set "updatedAt"
    .serverTimestamp).set "timestamp" (.num env.now)

/-- The object written by `handleUpdateSubmit` of Activities and of Projects. -/
def updatePayload (formData : Obj) : Obj :=
  (Obj.spread [] formData).set "updatedAt" .serverTimestamp

/-- The object written by `handleUpdateSubmit` of Applicants. -/
def Applicants.updatePayload (env : Env) (formData : Obj) : Obj :=
  (Obj.spread [] formData).set "updatedAt" (.date (some env.now))

/-- The outcome `res` of a submit started in `r` whose write `q` was rejected, leaving the
services in `w'`: the handler returns, the page state is `page'`, and the events it added
are those of a rejected write. -/
def RejectedSubmit {β σ : Type} (r : Run β σ) (page' : σ) (w' : β) (q : Req)
    (res : Except JSError (Run β σ)) : Prop :=
  ∃ evs, res = .ok ⟨w', page', r.trace ++ evs⟩ ∧ WriteRejected q evs

/-- A host for closed examples with a clock: `2024-01-01` parses to its time value and
the clock reads a later instant of that day. -/
def clockEnv : Env :=
  { exampleEnv with
    parseDate := fun s => if s = "2024-01-01" then some 1704067200000 else none,
    now := 1704100000000 }

/-- The Announcements page with the modal open on a filled form, in add mode. -/
def newsForm : Announcements.State :=
  { announcementsInit with
    showModal := true,
    formData := [("title", .str "News"), ("content", .str "Text"),
      ("date", .str "2024-01-01")] }

/-- The Announcements page with the modal open on a filled form, editing the record with
id `a1`. -/
def newsEdit : Announcements.State :=
  { newsForm with
    currentAnnouncement := some [("id", .str "a1"), ("title", .str "Old"),
      ("content", .str "Text"), ("date", .date (some 1704067200000))] }

/-- The Jobs page with the modal open on a filled form, in add mode. -/
def jobForm : Jobs.State :=
  { jobsInit with
    formData := [("title", .str "Clerk"), ("date", .str "2024-01-01"),
      ("description", .str "Office work")] }

/-- The Activities page with the add modal open on a filled form. -/
def activityForm : Activities.State :=
  { activitiesInit with
    formData := [("title", .str "Open day"), ("imageUrl", .str "https://example.com/a.jpg"),
      ("category", .str "Event"), ("description", .str "All welcome"), ("link", .str "")] }

/-- A host for closed examples with a date beyond the year 9999: `10001-01-01` parses to
its time value, 253433923200000 milliseconds after the epoch. -/
def farEnv : Env :=
  { exampleEnv with
    parseDate := fun s => if s = "10001-01-01" then some 253433923200000 else none,
    now := 1704100000000 }

/-- The Announcements page with the modal open on a filled form whose date is in the year
10001, in add mode. -/
def farNewsForm : Announcements.State :=
  { announcementsInit with
    showModal := true,
    formData := [("title", .str "News"), ("content", .str "Text"),
      ("date", .str "10001-01-01")] }

/-- The same form, editing the record with id `a1`. -/
def farNewsEdit : Announcements.State :=
  { farNewsForm with
    currentAnnouncement := some [("id", .str "a1"), ("title", .str "Old"),
      ("content", .str "Text"), ("date", .date (some 1704067200000))] }

/-- The Jobs page with the modal open on a filled form whose date is in the year 10001, in
add mode. -/
def farJobForm : Jobs.State :=
  { jobsInit with
    formData := [("title", .str "Clerk"), ("date", .str "10001-01-01"),
      ("description", .str "Office work")] }

/-! ## The URL pattern -/

theorem char_of_toNat {c : Char} {n : Nat} (h : c.toNat = n) : c = Char.ofNat n := by
  rw [← h, Char.ofNat_toNat]

theorem canonicalize_eq_iff (x : Char) (hx : x ∈ ['h', 't', 'p', 's', ':', '/', '.']) (c : Char) :
    canonicalize c = canonicalize x ↔ asciiLower c = x := by
  by_cases hl : 97 ≤ c.toNat ∧ c.toNat ≤ 122
  · obtain ⟨n, hn⟩ : ∃ n, c.toNat = n := ⟨_, rfl⟩
    rw [hn] at hl
    obtain ⟨h1, h2⟩ := hl
    have hc := char_of_toNat hn
    subst hc
    simp only [List.mem_cons, List.mem_singleton, List.not_mem_nil, or_false] at hx
    interval_cases n <;> rcases hx with rfl | rfl | rfl | rfl | rfl | rfl | rfl <;> decide
  · by_cases hu : 65 ≤ c.toNat ∧ c.toNat ≤ 90
    · obtain ⟨n, hn⟩ : ∃ n, c.toNat = n := ⟨_, rfl⟩
      rw [hn] at hu
      obtain ⟨h1, h2⟩ := hu
      have hc := char_of_toNat hn
      subst hc
      simp only [List.mem_cons, List.mem_singleton, List.not_mem_nil, or_false] at hx
      interval_cases n <;> rcases hx with rfl | rfl | rfl | rfl | rfl | rfl | rfl <;> decide
    · have e1 : canonicalize c = c := by simp only [canonicalize, hl, if_false]
      have e2 : asciiLower c = c := by simp only [asciiLower, hu, if_false]
      rw [e1, e2]
      simp only [List.mem_cons, List.mem_singleton, List.not_mem_nil, or_false] at hx
      rcases hx with rfl | rfl | rfl | rfl | rfl | rfl | rfl
      all_goals
        constructor
        · intro h
          subst h
          first
            | rfl
            | (exfalso; revert hu; decide)
        · intro h
          subst h
          first
            | rfl
            | (exfalso; revert hl; decide)

theorem plusLoop_iff (acc : Char → Bool) (k : List Char → Bool) (s : List Char) :
    plusLoop acc k s = true ↔
      ∃ n, 1 ≤ n ∧ n ≤ s.length ∧ (∀ c ∈ s.take n, acc c = true) ∧ k (s.drop n) = true := by
  induction s with
  | nil =>
    simp only [plusLoop, Bool.false_eq_true, List.length_nil, false_iff, not_exists]
    intro n h
    omega
  | cons c cs ih =>
    simp only [plusLoop, Bool.and_eq_true, Bool.or_eq_true, ih]
    constructor
    · rintro ⟨hc, ⟨n, h1, h2, h3, h4⟩ | hk⟩
      · refine ⟨n + 1, by omega, by simp; omega, ?_, by simpa using h4⟩
        intro x hx
        simp only [List.take_succ_cons, List.mem_cons] at hx
        rcases hx with rfl | hx
        · exact hc
        · exact h3 x hx
      · exact ⟨1, le_refl _, by simp, by simpa using hc, by simpa using hk⟩
    · rintro ⟨n, h1, h2, h3, h4⟩
      obtain ⟨m, rfl⟩ : ∃ m, n = m + 1 := ⟨n - 1, by omega⟩
      simp only [List.take_succ_cons, List.mem_cons, forall_eq_or_imp, List.drop_succ_cons,
        List.length_cons] at h2 h3 h4
      refine ⟨h3.1, ?_⟩
      rcases Nat.eq_zero_or_pos m with rfl | hm
      · right; simpa using h4
      · left; exact ⟨m, hm, by omega, h3.2, h4⟩

theorem matchHere_one_cons (x : Char) (ps : List Piece) (c : Char) (cs : List Char) :
    matchHere (⟨.char x, .one⟩ :: ps) (c :: cs) =
      (canonicalize c == canonicalize x && matchHere ps cs) := rfl

theorem matchHere_one_nil (x : Char) (ps : List Piece) :
    matchHere (⟨.char x, .one⟩ :: ps) [] = false := rfl

theorem matchHere_lits (pre : List Char) (hpre : ∀ x ∈ pre, x ∈ ['h', 't', 'p', 's', ':', '/', '.'])
    (ps : List Piece) (s : List Char) :
    matchHere (lits pre ++ ps) s = true ↔
      ∃ p r, s = p ++ r ∧ p.map asciiLower = pre ∧ matchHere ps r = true := by
  induction pre generalizing s with
  | nil =>
    simp only [lits, List.map_nil, List.nil_append, List.map_eq_nil_iff]
    constructor
    · intro h; exact ⟨[], s, rfl, rfl, h⟩
    · rintro ⟨p, r, rfl, rfl, h⟩; exact h
  | cons x xs ih =>
    have hx := hpre x (List.mem_cons_self _ _)
    have hxs : ∀ y ∈ xs, y ∈ ['h', 't', 'p', 's', ':', '/', '.'] :=
      fun y hy => hpre y (List.mem_cons_of_mem _ hy)
    have e : lits (x :: xs) ++ ps = ⟨.char x, .one⟩ :: (lits xs ++ ps) := rfl
    rw [e]
    cases s with
    | nil =>
      rw [matchHere_one_nil]
      simp only [Bool.false_eq_true, false_iff]
      rintro ⟨p, r, h, hp, -⟩
      cases p with
      | nil => simp at hp
      | cons a p => simp at h
    | cons c cs =>
      rw [matchHere_one_cons, Bool.and_eq_true, beq_iff_eq, canonicalize_eq_iff x hx c, ih hxs cs]
      constructor
      · rintro ⟨hc, p, r, h, hp, hr⟩
        exact ⟨c :: p, r, by rw [h]; rfl, by simp [hc, hp], hr⟩
      · rintro ⟨p, r, h, hp, hr⟩
        cases p with
        | nil => simp at hp
        | cons a p =>
          simp only [List.cons_append, List.cons.injEq] at h
          simp only [List.map_cons, List.cons.injEq] at hp
          obtain ⟨h1, h2⟩ := h
          subst h1
          exact ⟨hp.1, p, r, h2, hp.2, hr⟩

theorem matchHere_opt (x : Char) (hx : x ∈ ['h', 't', 'p', 's', ':', '/', '.'])
    (ps : List Piece) (s : List Char) :
    matchHere (⟨.char x, .opt⟩ :: ps) s = true ↔
      (∃ c cs, s = c :: cs ∧ asciiLower c = x ∧ matchHere ps cs = true) ∨
        matchHere ps s = true := by
  cases s with
  | nil => simp [matchHere]
  | cons c cs =>
    have e : matchHere (⟨.char x, .opt⟩ :: ps) (c :: cs) =
        ((canonicalize c == canonicalize x && matchHere ps cs) || matchHere ps (c :: cs)) := rfl
    rw [e, Bool.or_eq_true, Bool.and_eq_true, beq_iff_eq, canonicalize_eq_iff x hx c]
    constructor
    · rintro (⟨h1, h2⟩ | h)
      · exact Or.inl ⟨c, cs, rfl, h1, h2⟩
      · exact Or.inr h
    · rintro (⟨d, ds, h, h1, h2⟩ | h)
      · simp only [List.cons.injEq] at h
        obtain ⟨rfl, rfl⟩ := h
        exact Or.inl ⟨h1, h2⟩
      · exact Or.inr h

theorem canonicalize_dot (c : Char) : canonicalize c = canonicalize '.' ↔ c = '.' := by
  rw [canonicalize_eq_iff '.' (by simp) c]
  constructor
  · intro h
    by_cases hu : 65 ≤ c.toNat ∧ c.toNat ≤ 90
    · exfalso
      obtain ⟨n, hn⟩ : ∃ n, c.toNat = n := ⟨_, rfl⟩
      rw [hn] at hu
      obtain ⟨h1, h2⟩ := hu
      have hc := char_of_toNat hn
      subst hc
      revert h
      interval_cases n <;> decide
    · simpa only [asciiLower, hu, if_false] using h
  · rintro rfl; decide

theorem plusLoop_end (t : List Char) :
    plusLoop Atom.dot.accepts (matchHere []) t = true ↔
      ∃ c, t[0]? = some c ∧ isLineTerminator c = false := by
  cases t with
  | nil => simp [plusLoop]
  | cons d ds =>
    have e : plusLoop Atom.dot.accepts (matchHere []) (d :: ds) =
        (!isLineTerminator d && (plusLoop Atom.dot.accepts (matchHere []) ds || true)) := rfl
    rw [e]
    simp

theorem matchHere_dot_tail (t : List Char) :
    matchHere [⟨.char '.', .one⟩, ⟨.dot, .plus⟩] t = true ↔
      t[0]? = some '.' ∧ ∃ c, t[1]? = some c ∧ isLineTerminator c = false := by
  cases t with
  | nil => simp [matchHere]
  | cons c cs =>
    have e : matchHere [⟨.char '.', .one⟩, ⟨.dot, .plus⟩] (c :: cs) =
        (canonicalize c == canonicalize '.' && plusLoop Atom.dot.accepts (matchHere []) cs) := rfl
    rw [e, Bool.and_eq_true, beq_iff_eq, canonicalize_dot, plusLoop_end]
    simp

theorem matchHere_rest (r : List Char) : matchHere restPieces r = true ↔ DotSplit r := by
  have e : matchHere restPieces r =
      plusLoop Atom.dot.accepts (matchHere [⟨.char '.', .one⟩, ⟨.dot, .plus⟩]) r := rfl
  rw [e, plusLoop_iff, DotSplit]
  constructor
  · rintro ⟨n, h1, h2, h3, h4⟩
    rw [matchHere_dot_tail] at h4
    obtain ⟨h5, c, h6, h7⟩ := h4
    rw [List.getElem?_drop] at h5 h6
    refine ⟨n, h1, ?_, by simpa using h5, c, h6, h7⟩
    intro j hj
    have hjl : j < r.length := by omega
    refine ⟨r[j], List.getElem?_eq_getElem hjl, ?_⟩
    have hm : r[j] ∈ r.take n := by
      rw [List.mem_take_iff_getElem]
      exact ⟨j, by simp; omega, rfl⟩
    simpa [Atom.accepts] using h3 _ hm
  · rintro ⟨i, h1, h2, h3, c, h4, h5⟩
    have hil : i < r.length := by
      by_contra hcon
      rw [List.getElem?_eq_none (by omega)] at h3
      simp at h3
    refine ⟨i, h1, by omega, ?_, ?_⟩
    · intro x hx
      rw [List.mem_take_iff_getElem] at hx
      obtain ⟨j, hj, rfl⟩ := hx
      obtain ⟨d, hd1, hd2⟩ := h2 j (by simp at hj; omega)
      have hjl : j < r.length := by simp at hj; omega
      rw [List.getElem?_eq_getElem hjl] at hd1
      simp only [Option.some.injEq] at hd1
      simp [Atom.accepts, hd1, hd2]
    · rw [matchHere_dot_tail, List.getElem?_drop, List.getElem?_drop]
      exact ⟨by simpa using h3, c, h4, h5⟩

theorem urlPieces_split :
    urlPieces = lits ['h', 't', 't', 'p'] ++
      (⟨.char 's', .opt⟩ :: (lits [':', '/', '/'] ++ restPieces)) := rfl

theorem scheme_iff (l : List Char) (P : List Char → Prop) :
    (∃ p r, l = p ++ r ∧
        (p.map asciiLower = "http://".data ∨ p.map asciiLower = "https://".data) ∧ P r) ↔
      ∃ p1 r1, l = p1 ++ r1 ∧ p1.map asciiLower = ['h', 't', 't', 'p'] ∧
        ((∃ c cs, r1 = c :: cs ∧ asciiLower c = 's' ∧
            ∃ p2 r2, cs = p2 ++ r2 ∧ p2.map asciiLower = [':', '/', '/'] ∧ P r2) ∨
          ∃ p2 r2, r1 = p2 ++ r2 ∧ p2.map asciiLower = [':', '/', '/'] ∧ P r2) := by
  constructor
  · rintro ⟨p, r, rfl, hp | hp, hr⟩
    · have h7 : "http://".data = ['h', 't', 't', 'p', ':', '/', '/'] := rfl
      rw [h7] at hp
      obtain ⟨a, p, rfl, ha, hp⟩ := List.map_eq_cons_iff.mp hp
      obtain ⟨b, p, rfl, hb, hp⟩ := List.map_eq_cons_iff.mp hp
      obtain ⟨c, p, rfl, hc, hp⟩ := List.map_eq_cons_iff.mp hp
      obtain ⟨d, p, rfl, hd, hp⟩ := List.map_eq_cons_iff.mp hp
      obtain ⟨e, p, rfl, he, hp⟩ := List.map_eq_cons_iff.mp hp
      obtain ⟨f, p, rfl, hf, hp⟩ := List.map_eq_cons_iff.mp hp
      obtain ⟨g, p, rfl, hg, hp⟩ := List.map_eq_cons_iff.mp hp
      obtain rfl := List.map_eq_nil_iff.mp hp
      refine ⟨[a, b, c, d], e :: f :: g :: r, rfl, by simp [ha, hb, hc, hd], Or.inr ?_⟩
      exact ⟨[e, f, g], r, rfl, by simp [he, hf, hg], hr⟩
    · have h8 : "https://".data = ['h', 't', 't', 'p', 's', ':', '/', '/'] := rfl
      rw [h8] at hp
      obtain ⟨a, p, rfl, ha, hp⟩ := List.map_eq_cons_iff.mp hp
      obtain ⟨b, p, rfl, hb, hp⟩ := List.map_eq_cons_iff.mp hp
      obtain ⟨c, p, rfl, hc, hp⟩ := List.map_eq_cons_iff.mp hp
      obtain ⟨d, p, rfl, hd, hp⟩ := List.map_eq_cons_iff.mp hp
      obtain ⟨x, p, rfl, hx, hp⟩ := List.map_eq_cons_iff.mp hp
      obtain ⟨e, p, rfl, he, hp⟩ := List.map_eq_cons_iff.mp hp
      obtain ⟨f, p, rfl, hf, hp⟩ := List.map_eq_cons_iff.mp hp
      obtain ⟨g, p, rfl, hg, hp⟩ := List.map_eq_cons_iff.mp hp
      obtain rfl := List.map_eq_nil_iff.mp hp
      refine ⟨[a, b, c, d], x :: e :: f :: g :: r, rfl, by simp [ha, hb, hc, hd], Or.inl ?_⟩
      exact ⟨x, e :: f :: g :: r, rfl, hx, [e, f, g], r, rfl, by simp [he, hf, hg], hr⟩
  · rintro ⟨p1, r1, rfl, hp1, ⟨c, cs, rfl, hc, p2, r2, rfl, hp2, hr⟩ | ⟨p2, r2, rfl, hp2, hr⟩⟩
    · refine ⟨p1 ++ c :: p2, r2, by simp, Or.inr ?_, hr⟩
      simp [hp1, hc, hp2]
    · refine ⟨p1 ++ p2, r2, by simp, Or.inl ?_, hr⟩
      simp [hp1, hp2]

theorem matchHere_urlPieces (l : List Char) :
    matchHere urlPieces l = true ↔
      ∃ p r, l = p ++ r ∧
        (p.map asciiLower = "http://".data ∨ p.map asciiLower = "https://".data) ∧
        DotSplit r := by
  rw [scheme_iff, urlPieces_split, matchHere_lits _ (by simp)]
  refine exists_congr fun p1 => exists_congr fun r1 => and_congr Iff.rfl (and_congr Iff.rfl ?_)
  rw [matchHere_opt _ (by simp), matchHere_lits _ (by simp)]
  refine or_congr ?_ ?_
  · refine exists_congr fun c => exists_congr fun cs => and_congr Iff.rfl (and_congr Iff.rfl ?_)
    rw [matchHere_lits _ (by simp)]
    refine exists_congr fun p2 => exists_congr fun r2 => and_congr Iff.rfl (and_congr Iff.rfl ?_)
    exact matchHere_rest r2
  · refine exists_congr fun p2 => exists_congr fun r2 => and_congr Iff.rfl (and_congr Iff.rfl ?_)
    exact matchHere_rest r2

theorem matchHere_urlPieces_leading (c : Char) (t : List Char) (h : isTrimmed c = true) :
    matchHere urlPieces (c :: t) = false := by
  have e : matchHere urlPieces (c :: t) =
      (canonicalize c == canonicalize 'h' && matchHere urlPieces.tail t) := rfl
  rw [e]
  have hne : canonicalize c ≠ canonicalize 'h' := by
    intro hc
    rw [canonicalize_eq_iff 'h' (by simp) c] at hc
    by_cases hu : 65 ≤ c.toNat ∧ c.toNat ≤ 90
    · obtain ⟨n, hn⟩ : ∃ n, c.toNat = n := ⟨_, rfl⟩
      rw [hn] at hu
      obtain ⟨h1, h2⟩ := hu
      have hcc := char_of_toNat hn
      subst hcc
      revert h
      interval_cases n <;> decide
    · simp only [asciiLower, hu, if_false] at hc
      subst hc
      revert h
      decide
  simp [hne]

/-- C2. The URL check of an activity's `imageUrl` and `link` accepts `s` exactly when `s`
starts, up to ASCII case, with `http://` or `https://` and the remainder has a dot at an
index `i ≥ 1` with no line terminator before it and a character that is not a line
terminator right after it.  Another scheme, a remainder without a dot and any leading
white space are rejected; the placeholder URL of the form is accepted. -/
theorem url_check_characterised :
    (∀ s : String, urlTest s = true ↔
      ∃ p r : List Char, s.data = p ++ r ∧
        (p.map asciiLower = "http://".data ∨ p.map asciiLower = "https://".data) ∧
        ∃ i, 1 ≤ i ∧ (∀ j, j < i → ∃ c, r[j]? = some c ∧ isLineTerminator c = false) ∧
          r[i]? = some '.' ∧ ∃ c, r[i + 1]? = some c ∧ isLineTerminator c = false) ∧
    urlTest "ftp://a.b" = false ∧
    urlTest "http://ab" = false ∧
    (∀ (c : Char) (t : List Char), isTrimmed c = true → urlTest ⟨c :: t⟩ = false) ∧
    urlTest "https://example.com/image.jpg" = true := by
  refine ⟨fun s => matchHere_urlPieces s.data, by decide, by decide, ?_, by decide⟩
  intro c t h
  exact matchHere_urlPieces_leading c t h

/-! ## Form validation -/

theorem Obj.keys_append (a b : Obj) : Obj.keys (a ++ b) = Obj.keys a ++ Obj.keys b := by
  simp [Obj.keys]

theorem Obj.keys_nil : Obj.keys [] = [] := rfl

theorem mem_keys_errorEntry (b : Bool) (k msg x : String) :
    x ∈ Obj.keys (errorEntry b k msg) ↔ x = k ∧ b = true := by
  cases b <;> simp [errorEntry, Obj.keys]

theorem get_errorEntry_append (b : Bool) (k msg : String) (o : Obj) (x : String) :
    Obj.get (errorEntry b k msg ++ o) x =
      if b = true ∧ x = k then JSVal.str msg else Obj.get o x := by
  cases b
  · simp [errorEntry]
  · by_cases h : x = k
    · subst h
      simp [errorEntry, Obj.get, List.lookup]
    · have h2 : (x == k) = false := by simpa using h
      simp [errorEntry, Obj.get, List.lookup, h, h2]

/-- The errors object of the Activities form, field by field. -/
theorem activities_validateForm_eq (formData : Obj) (t i d l : String)
    (ht : formData.get "title" = .str t) (hi : formData.get "imageUrl" = .str i)
    (hd : formData.get "description" = .str d) (hl : formData.get "link" = .str l) :
    Activities.validateForm formData =
      .ok (decide (trim t ≠ "" ∧ (trim i ≠ "" ∧ urlTest i = true) ∧ trim d ≠ "" ∧
            (l = "" ∨ urlTest l = true)),
        errorEntry (trim t == "") "title" "Title is required" ++
          (errorEntry (trim i == "") "imageUrl" "Image URL is required" ++
          (errorEntry (trim i != "" && !urlTest i) "imageUrl" "Please enter a valid URL" ++
          (errorEntry (trim d == "") "description" "Description is required" ++
          (errorEntry (l != "" && !urlTest l) "link"
            "Please enter a valid URL or leave empty" ++ []))))) := by
  unfold Activities.validateForm
  simp only [ht, hi, hd, hl, optTrim, callTrim, truthy, urlTestVal, bind, Except.bind, pure,
    Except.pure]
  by_cases h1 : trim t = "" <;> by_cases h2 : trim i = "" <;> by_cases h3 : trim d = "" <;>
    by_cases h4 : l = "" <;> by_cases h5 : urlTest i = true <;>
    by_cases h6 : urlTest l = true <;>
    simp [h1, h2, h3, h4, h5, h6, Obj.set, errorEntry, Obj.keys]

/-- C1. For a form whose `title`, `imageUrl`, `description` and `link` are strings,
`validateForm` of the Activities page returns `true` exactly when title, image URL and
description are non-empty after trimming, the image URL matches the URL pattern and the
link is empty or matches it; the errors object it stores has an entry, a non-empty
message, for exactly the fields that violate their condition. -/
theorem activities_validateForm_spec (formData : Obj) (t i d l : String)
    (ht : formData.get "title" = .str t) (hi : formData.get "imageUrl" = .str i)
    (hd : formData.get "description" = .str d) (hl : formData.get "link" = .str l) :
    ∃ (b : Bool) (errors : Obj), Activities.validateForm formData = .ok (b, errors) ∧
      (b = true ↔
        trim t ≠ "" ∧ (trim i ≠ "" ∧ urlTest i = true) ∧ trim d ≠ "" ∧
          (l = "" ∨ urlTest l = true)) ∧
      (∀ k, k ∈ Obj.keys errors ↔
        (k = "title" ∧ ¬ trim t ≠ "") ∨
        (k = "imageUrl" ∧ ¬ (trim i ≠ "" ∧ urlTest i = true)) ∨
        (k = "description" ∧ ¬ trim d ≠ "") ∨
        (k = "link" ∧ ¬ (l = "" ∨ urlTest l = true))) ∧
      (∀ k, k ∈ Obj.keys errors → ∃ m, Obj.get errors k = .str m ∧ m ≠ "") := by
  refine ⟨_, _, activities_validateForm_eq formData t i d l ht hi hd hl, by simp, ?_, ?_⟩
  · intro k
    simp only [Obj.keys_append, List.mem_append, mem_keys_errorEntry, Obj.keys_nil]
    by_cases h1 : trim t = "" <;> by_cases h2 : trim i = "" <;> by_cases h3 : trim d = "" <;>
      by_cases h4 : l = "" <;> by_cases h5 : urlTest i = true <;>
      by_cases h6 : urlTest l = true <;>
      simp [h1, h2, h3, h4, h5, h6, Obj.keys]
  · intro k
    simp only [Obj.keys_append, List.mem_append, mem_keys_errorEntry, Obj.keys_nil,
      get_errorEntry_append]
    rintro (h | h | h | h | h | h)
    · simp [h.1, h.2]
    · by_cases h1 : trim t = "" <;> simp [h.1, h.2, h1]
    · by_cases h1 : trim t = "" <;> by_cases h2 : trim i = "" <;> simp [h.1, h.2, h1, h2]
    · by_cases h1 : trim t = "" <;> by_cases h2 : trim i = "" <;>
        by_cases h5 : urlTest i = true <;> simp [h.1, h.2, h1, h2, h5]
    · by_cases h1 : trim t = "" <;> by_cases h2 : trim i = "" <;>
        by_cases h5 : urlTest i = true <;> by_cases h3 : trim d = "" <;>
        simp [h.1, h.2, h1, h2, h5, h3]
    · simp at h

theorem announcements_validateForm_eq (formData : Obj) (t c d : String)
    (ht : formData.get "title" = .str t) (hc : formData.get "content" = .str c)
    (hd : formData.get "date" = .str d) :
    Announcements.validateForm formData =
      .ok (!(trim t == "" || trim c == "" || d == ""),
        errorEntry (trim t == "") "title" "Title is required" ++
          (errorEntry (trim c == "") "content" "Content is required" ++
          (errorEntry (d == "") "date" "Date is required" ++ []))) := by
  unfold Announcements.validateForm
  simp only [ht, hc, hd, callTrim, truthy, bind, Except.bind, pure, Except.pure]
  by_cases h1 : trim t = "" <;> by_cases h2 : trim c = "" <;> by_cases h3 : d = "" <;>
    simp [h1, h2, h3, Obj.set, errorEntry, Obj.keys]

theorem jobs_validateForm_eq (formData : Obj) (t dt d : String)
    (ht : formData.get "title" = .str t) (hdt : formData.get "date" = .str dt)
    (hd : formData.get "description" = .str d) :
    Jobs.validateForm formData =
      .ok (!(trim t == "" || dt == "" || trim d == ""),
        errorEntry (trim t == "") "title" "Title is required" ++
          (errorEntry (dt == "") "date" "Date is required" ++
          (errorEntry (trim d == "") "description" "Description is required" ++ []))) := by
  unfold Jobs.validateForm
  simp only [ht, hdt, hd, callTrim, truthy, bind, Except.bind, pure, Except.pure]
  by_cases h1 : trim t = "" <;> by_cases h2 : dt = "" <;> by_cases h3 : trim d = "" <;>
    simp [h1, h2, h3, Obj.set, errorEntry, Obj.keys]

theorem projects_validateForm_eq (formData : Obj) (t d : String)
    (ht : formData.get "title" = .str t) (hd : formData.get "description" = .str d) :
    Projects.validateForm formData =
      .ok (!(trim t == "" || trim d == ""),
        errorEntry (trim t == "") "title" "Title is required" ++
          (errorEntry (trim d == "") "description" "Description is required" ++ [])) := by
  unfold Projects.validateForm
  simp only [ht, hd, optTrim, callTrim, truthy, bind, Except.bind, pure, Except.pure]
  by_cases h1 : trim t = "" <;> by_cases h3 : trim d = "" <;>
    simp [h1, h3, Obj.set, errorEntry, Obj.keys]

theorem applicants_validateForm_eq (formData : Obj) (n c e : String)
    (hn : formData.get "fullName" = .str n) (hc : formData.get "cnic" = .str c)
    (he : formData.get "email" = .str e) :
    Applicants.validateForm formData =
      .ok (!(trim n == "" || trim c == "" || trim e == ""),
        errorEntry (trim n == "") "fullName" "Full name is required" ++
          (errorEntry (trim c == "") "cnic" "CNIC is required" ++
          (errorEntry (trim e == "") "email" "Email is required" ++ []))) := by
  unfold Applicants.validateForm
  simp only [hn, hc, he, optTrim, callTrim, truthy, bind, Except.bind, pure, Except.pure]
  by_cases h1 : trim n = "" <;> by_cases h2 : trim c = "" <;> by_cases h3 : trim e = "" <;>
    simp [h1, h2, h3, Obj.set, errorEntry, Obj.keys]

theorem validatesRequired_three (b1 b2 b3 : Bool) (k1 k2 k3 m1 m2 m3 : String)
    (h12 : k1 ≠ k2) (h13 : k1 ≠ k3) (h23 : k2 ≠ k3)
    (hm1 : m1 ≠ "") (hm2 : m2 ≠ "") (hm3 : m3 ≠ "") :
    ValidatesRequired
      (.ok (!(b1 || b2 || b3),
        errorEntry b1 k1 m1 ++ (errorEntry b2 k2 m2 ++ (errorEntry b3 k3 m3 ++ []))))
      [(k1, b1), (k2, b2), (k3, b3)] := by
  refine ⟨_, _, rfl, ?_, ?_, ?_, ?_⟩
  · cases b1 <;> cases b2 <;> cases b3 <;> simp
  · intro k
    simp only [Obj.keys_append, List.mem_append, mem_keys_errorEntry, Obj.keys_nil]
    cases b1 <;> cases b2 <;> cases b3 <;> simp
  · intro k
    simp only [Obj.keys_append, List.mem_append, mem_keys_errorEntry, Obj.keys_nil,
      get_errorEntry_append]
    rintro (h | h | h | h)
    · simp [h.1, h.2, hm1]
    · cases b1 <;> simp [h.1, h.2, hm2, hm1, h12.symm]
    · cases b1 <;> cases b2 <;> simp [h.1, h.2, hm3, hm2, hm1, h13.symm, h23.symm]
    · simp at h
  · cases b1 <;> cases b2 <;> cases b3 <;> simp [errorEntry]

theorem validatesRequired_two (b1 b2 : Bool) (k1 k2 m1 m2 : String)
    (h12 : k1 ≠ k2) (hm1 : m1 ≠ "") (hm2 : m2 ≠ "") :
    ValidatesRequired
      (.ok (!(b1 || b2), errorEntry b1 k1 m1 ++ (errorEntry b2 k2 m2 ++ [])))
      [(k1, b1), (k2, b2)] := by
  refine ⟨_, _, rfl, ?_, ?_, ?_, ?_⟩
  · cases b1 <;> cases b2 <;> simp
  · intro k
    simp only [Obj.keys_append, List.mem_append, mem_keys_errorEntry, Obj.keys_nil]
    cases b1 <;> cases b2 <;> simp
  · intro k
    simp only [Obj.keys_append, List.mem_append, mem_keys_errorEntry, Obj.keys_nil,
      get_errorEntry_append]
    rintro (h | h | h)
    · simp [h.1, h.2, hm1]
    · cases b1 <;> simp [h.1, h.2, hm2, hm1, h12.symm]
    · simp at h
  · cases b1 <;> cases b2 <;> simp [errorEntry]

/-- C3. On the Announcements, Jobs, Projects and Applicants pages, for a form whose
required fields are strings, `validateForm` returns `false` exactly when a required field
is empty (text fields: blank after trimming; the date: the empty string), the errors
object has a message for exactly the empty required fields, and with no empty required
field the result is `true` and the errors object is empty. -/
theorem required_fields_validation :
    (∀ (formData : Obj) (t c d : String), formData.get "title" = .str t →
      formData.get "content" = .str c → formData.get "date" = .str d →
      ValidatesRequired (Announcements.validateForm formData)
        [("title", trim t == ""), ("content", trim c == ""), ("date", d == "")]) ∧
    (∀ (formData : Obj) (t dt d : String), formData.get "title" = .str t →
      formData.get "date" = .str dt → formData.get "description" = .str d →
      ValidatesRequired (Jobs.validateForm formData)
        [("title", trim t == ""), ("date", dt == ""), ("description", trim d == "")]) ∧
    (∀ (formData : Obj) (t d : String), formData.get "title" = .str t →
      formData.get "description" = .str d →
      ValidatesRequired (Projects.validateForm formData)
        [("title", trim t == ""), ("description", trim d == "")]) ∧
    (∀ (formData : Obj) (n c e : String), formData.get "fullName" = .str n →
      formData.get "cnic" = .str c → formData.get "email" = .str e →
      ValidatesRequired (Applicants.validateForm formData)
        [("fullName", trim n == ""), ("cnic", trim c == ""), ("email", trim e == "")]) := by
  refine ⟨?_, ?_, ?_, ?_⟩
  · intro fd t c d ht hc hd
    rw [announcements_validateForm_eq fd t c d ht hc hd]
    exact validatesRequired_three _ _ _ _ _ _ _ _ _ (by decide) (by decide) (by decide)
      (by decide) (by decide) (by decide)
  · intro fd t dt d ht hdt hd
    rw [jobs_validateForm_eq fd t dt d ht hdt hd]
    exact validatesRequired_three _ _ _ _ _ _ _ _ _ (by decide) (by decide) (by decide)
      (by decide) (by decide) (by decide)
  · intro fd t d ht hd
    rw [projects_validateForm_eq fd t d ht hd]
    exact validatesRequired_two _ _ _ _ _ _ (by decide) (by decide) (by decide)
  · intro fd n c e hn hc he
    rw [applicants_validateForm_eq fd n c e hn hc he]
    exact validatesRequired_three _ _ _ _ _ _ _ _ _ (by decide) (by decide) (by decide)
      (by decide) (by decide) (by decide)

/-! ## Submitting an invalid form -/

/-- C4. When `validateForm` returns `false`, every submit handler (Announcements and Jobs
`handleSubmit`, Activities and Projects `handleAddSubmit` and `handleUpdateSubmit`,
Applicants `handleUpdateSubmit`) ends at once: the services are not called, no event is
recorded (no write, no refetch), and the page state is the old one with only `formErrors`
replaced, so the modal stays open and `formData`, the list and `isSubmitting` are
unchanged. -/
theorem invalid_submit_only_sets_errors {β : Type} (env : Env) (bk : Backend β) :
    (∀ (r : Run β Announcements.State) (errors : Obj),
      Announcements.validateForm r.page.formData = .ok (false, errors) →
      Announcements.handleSubmit env bk r =
        .ok { r with page := { r.page with formErrors := errors } }) ∧
    (∀ (r : Run β Jobs.State) (errors : Obj),
      Jobs.validateForm r.page.formData = .ok (false, errors) →
      Jobs.handleSubmit env bk r =
        .ok { r with page := { r.page with formErrors := errors } }) ∧
    (∀ (r : Run β Activities.State) (errors : Obj),
      Activities.validateForm r.page.formData = .ok (false, errors) →
      Activities.handleAddSubmit env bk r =
          .ok { r with page := { r.page with formErrors := errors } } ∧
        Activities.handleUpdateSubmit env bk r =
          .ok { r with page := { r.page with formErrors := errors } }) ∧
    (∀ (r : Run β Projects.State) (errors : Obj),
      Projects.validateForm r.page.formData = .ok (false, errors) →
      Projects.handleAddSubmit env bk r =
          .ok { r with page := { r.page with formErrors := errors } } ∧
        Projects.handleUpdateSubmit env bk r =
          .ok { r with page := { r.page with formErrors := errors } }) ∧
    (∀ (r : Run β Applicants.State) (errors : Obj),
      Applicants.validateForm r.page.formData = .ok (false, errors) →
      Applicants.handleUpdateSubmit env bk r =
        .ok { r with page := { r.page with formErrors := errors } }) := by
  refine ⟨?_, ?_, ?_, ?_, ?_⟩
  · intro r errors h
    simp [Announcements.handleSubmit, h, Run.modify]
  · intro r errors h
    simp [Jobs.handleSubmit, h, Run.modify]
  · intro r errors h
    simp [Activities.handleAddSubmit, Activities.handleUpdateSubmit, h, Run.modify]
  · intro r errors h
    simp [Projects.handleAddSubmit, Projects.handleUpdateSubmit, h, Run.modify]
  · intro r errors h
    simp [Applicants.handleUpdateSubmit, h, Run.modify]

/-! ## The in-memory sort -/

section Sorting

variable {α : Type}

theorem arraySort_perm (cmp : α → α → Option Int) (l : List α) :
    (arraySort cmp l).Perm l :=
  List.perm_insertionSort _ l

theorem cmp_le_iff (key : α → Option Int) (a b : α) (x y : Int)
    (ha : key a = some x) (hb : key b = some y) :
    (dateDiff (key b) (key a)).getD 0 ≤ 0 ↔ y ≤ x := by
  simp only [ha, hb, dateDiff, Option.getD_some]
  omega

theorem orderedInsert_sortedDesc (key : α → Option Int) (a : α) (x : Int) (ha : key a = some x) :
    ∀ s : List α, SortedDesc key s → (∀ b ∈ s, (key b).isSome) →
      SortedDesc key
        (List.orderedInsert (fun a b => (dateDiff (key b) (key a)).getD 0 ≤ 0) a s)
  | [], _, _ => by simp [SortedDesc]
  | b :: s, hs, hv => by
    obtain ⟨y, hb⟩ := Option.isSome_iff_exists.mp (hv b (List.mem_cons_self _ _))
    have hs' : SortedDesc key s := (List.pairwise_cons.mp hs).2
    have hv' : ∀ c ∈ s, (key c).isSome := fun c hc => hv c (List.mem_cons_of_mem _ hc)
    have ih := orderedInsert_sortedDesc key a x ha s hs' hv'
    by_cases h : (dateDiff (key b) (key a)).getD 0 ≤ 0
    · rw [List.orderedInsert, if_pos h]
      have hyx : y ≤ x := (cmp_le_iff key a b x y ha hb).mp h
      refine List.pairwise_cons.mpr ⟨?_, hs⟩
      intro c hc
      rcases List.mem_cons.mp hc with rfl | hc
      · exact ⟨x, y, ha, hb, hyx⟩
      · obtain ⟨y', z, hb', hz, hzy⟩ := (List.pairwise_cons.mp hs).1 c hc
        rw [hb] at hb'
        obtain rfl := Option.some.inj hb'
        exact ⟨x, z, ha, hz, le_trans hzy hyx⟩
    · rw [List.orderedInsert, if_neg h]
      have hxy : ¬ y ≤ x := fun hle => h ((cmp_le_iff key a b x y ha hb).mpr hle)
      refine List.pairwise_cons.mpr ⟨?_, ih⟩
      intro c hc
      rcases (List.mem_orderedInsert _).mp hc with rfl | hc
      · exact ⟨y, x, hb, ha, by omega⟩
      · exact (List.pairwise_cons.mp hs).1 c hc

theorem arraySort_sortedDesc (key : α → Option Int) :
    ∀ l : List α, (∀ a ∈ l, (key a).isSome) →
      SortedDesc key (arraySort (fun a b => dateDiff (key b) (key a)) l)
  | [], _ => by simp [arraySort, SortedDesc]
  | a :: l, hv => by
    obtain ⟨x, ha⟩ := Option.isSome_iff_exists.mp (hv a (List.mem_cons_self _ _))
    have hv' : ∀ c ∈ l, (key c).isSome := fun c hc => hv c (List.mem_cons_of_mem _ hc)
    have ih := arraySort_sortedDesc key l hv'
    have hmem : ∀ b ∈ arraySort (fun a b => dateDiff (key b) (key a)) l, (key b).isSome :=
      fun b hb => hv' b ((arraySort_perm _ l).mem_iff.mp hb)
    exact orderedInsert_sortedDesc key a x ha _ ih hmem

theorem arraySort_keepsOrder (key : α → Option Int) (l : List α) :
    KeepsOrderOfEqualKeys key l (arraySort (fun a b => dateDiff (key b) (key a)) l) := by
  intro k
  have hsub : List.Sublist (l.filter (fun a => key a == some k))
      (arraySort (fun a b => dateDiff (key b) (key a)) l) := by
    refine List.sublist_insertionSort ?_ (List.filter_sublist l)
    have hall : ∀ a ∈ l.filter (fun a => key a == some k), key a = some k := by
      intro a ha
      simpa using (List.mem_filter.mp ha).2
    refine (List.pairwise_of_forall_mem_list (r := fun a b =>
      (dateDiff (key b) (key a)).getD 0 ≤ 0) ?_)
    intro a ha b hb
    simp [hall a ha, hall b hb, dateDiff]
  have hsub2 : List.Sublist (l.filter (fun a => key a == some k))
      ((arraySort (fun a b => dateDiff (key b) (key a)) l).filter
        (fun a => key a == some k)) := by
    have := hsub.filter (fun a => key a == some k)
    simpa [List.filter_filter] using this
  have hlen := ((arraySort_perm (fun a b => dateDiff (key b) (key a)) l).filter
    (fun a => key a == some k)).length_eq
  exact (hsub2.eq_of_length hlen.symm).symm

end Sorting

/-- C8. When every mapped document has a valid sort date, the list stored by
`fetchAnnouncements` (key `date`), `fetchActivities` and `fetchProjects` (key `createdAt`)
is a permutation of the mapped documents, in non-increasing order of the key, and the
documents of equal key keep the order in which they were fetched. -/
theorem stored_list_newest_first {β : Type} (env : Env) :
    (∀ (docs : List Doc) (r : Run β Announcements.State),
      (∀ a ∈ docs.map (Announcements.mapDoc env), (Announcements.sortKey env a).isSome) →
      ((Announcements.fetchStore env docs r).page.announcements).Perm
          (docs.map (Announcements.mapDoc env)) ∧
        SortedDesc (Announcements.sortKey env)
          (Announcements.fetchStore env docs r).page.announcements ∧
        KeepsOrderOfEqualKeys (Announcements.sortKey env) (docs.map (Announcements.mapDoc env))
          (Announcements.fetchStore env docs r).page.announcements) ∧
    (∀ (docs : List Doc) (r : Run β Activities.State),
      (∀ a ∈ Activities.mapDocs env docs, (Activities.sortKey env a).isSome) →
      ((Activities.fetchStore env docs r).page.activities).Perm (Activities.mapDocs env docs) ∧
        SortedDesc (Activities.sortKey env) (Activities.fetchStore env docs r).page.activities ∧
        KeepsOrderOfEqualKeys (Activities.sortKey env) (Activities.mapDocs env docs)
          (Activities.fetchStore env docs r).page.activities) ∧
    (∀ (docs : List Doc) (r : Run β Projects.State),
      (∀ a ∈ Projects.mapDocs env docs, (Projects.sortKey env a).isSome) →
      ((Projects.fetchStore env docs r).page.projects).Perm (Projects.mapDocs env docs) ∧
        SortedDesc (Projects.sortKey env) (Projects.fetchStore env docs r).page.projects ∧
        KeepsOrderOfEqualKeys (Projects.sortKey env) (Projects.mapDocs env docs)
          (Projects.fetchStore env docs r).page.projects) := by
  refine ⟨?_, ?_, ?_⟩
  · intro docs r hv
    exact ⟨arraySort_perm _ _, arraySort_sortedDesc _ _ hv, arraySort_keepsOrder _ _⟩
  · intro docs r hv
    exact ⟨arraySort_perm _ _, arraySort_sortedDesc _ _ hv, arraySort_keepsOrder _ _⟩
  · intro docs r hv
    exact ⟨arraySort_perm _ _, arraySort_sortedDesc _ _ hv, arraySort_keepsOrder _ _⟩

/-! ## Reading a collection -/

/-- C10. In `fetchAnnouncements`, `fetchJobs`, `fetchProjects` and `fetchActivities` the
unordered query comes first; the query ordered by `createdAt` descending is issued exactly
when the unordered query returned no document; the documents that are mapped, sorted in
memory and stored are those of the unordered query when there are some and those of the
ordered query otherwise, and the same map-then-sort is applied in both cases.  A fetch is
run from any service state `w` and page state `s`, with an empty trace. -/
theorem fetch_with_fallback_ordering {β : Type} (env : Env) (bk : Backend β) (w : β) :
    (∀ s : Announcements.State,
      FallbackRead bk w "announcements"
        (Announcements.fetchAnnouncements env bk ⟨w, s, []⟩).trace
        (Announcements.fetchAnnouncements env bk ⟨w, s, []⟩).page.announcements
        (fun docs => arraySort (Announcements.compareDesc env)
          (docs.map (Announcements.mapDoc env)))) ∧
    (∀ s : Jobs.State,
      FallbackRead bk w "jobs" (Jobs.fetchJobs env bk ⟨w, s, []⟩).trace
        (Jobs.fetchJobs env bk ⟨w, s, []⟩).page.jobs
        (fun docs => arraySort (Jobs.compareDesc env) (docs.map Jobs.mapDoc))) ∧
    (∀ s : Projects.State,
      FallbackRead bk w "posts" (Projects.fetchProjects env bk ⟨w, s, []⟩).trace
        (Projects.fetchProjects env bk ⟨w, s, []⟩).page.projects
        (fun docs => arraySort (Projects.compareDesc env) (Projects.mapDocs env docs))) ∧
    (∀ s : Activities.State,
      FallbackRead bk w "activities" (Activities.fetchActivities env bk ⟨w, s, []⟩).trace
        (Activities.fetchActivities env bk ⟨w, s, []⟩).page.activities
        (fun docs => arraySort (Activities.compareDesc env) (Activities.mapDocs env docs))) := by
  refine ⟨?_, ?_, ?_, ?_⟩
  · intro s
    unfold Announcements.fetchAnnouncements FallbackRead
    simp only [Run.getDocs, Run.emit, Run.modify]
    rcases h1 : bk.getDocs w "announcements" none with ⟨res1, w1⟩
    cases res1 with
    | error e => simp [Announcements.fetchFailed, Run.emit, Run.modify]
    | ok docs1 =>
      cases docs1 with
      | nil =>
        rcases h2 : bk.getDocs w1 "announcements" (some ("createdAt", "desc")) with ⟨res2, w2⟩
        cases res2 with
        | error e => simp [h2, Announcements.fetchFailed, Run.emit, Run.modify]
        | ok docs2 => simp [h2, Announcements.fetchStore, Run.emit, Run.modify]
      | cons d ds => simp [Announcements.fetchStore, Run.emit, Run.modify]
  · intro s
    unfold Jobs.fetchJobs FallbackRead
    simp only [Run.getDocs, Run.emit, Run.modify]
    rcases h1 : bk.getDocs w "jobs" none with ⟨res1, w1⟩
    cases res1 with
    | error e => simp [Jobs.fetchFailed, Run.emit, Run.modify]
    | ok docs1 =>
      cases docs1 with
      | nil =>
        rcases h2 : bk.getDocs w1 "jobs" (some ("createdAt", "desc")) with ⟨res2, w2⟩
        cases res2 with
        | error e => simp [h2, Jobs.fetchFailed, Run.emit, Run.modify]
        | ok docs2 => simp [h2, Jobs.fetchStore, Run.emit, Run.modify]
      | cons d ds => simp [Jobs.fetchStore, Run.emit, Run.modify]
  · intro s
    unfold Projects.fetchProjects FallbackRead
    simp only [Run.getDocs, Run.emit, Run.modify]
    rcases h1 : bk.getDocs w "posts" none with ⟨res1, w1⟩
    cases res1 with
    | error e => simp [Projects.fetchFailed, Run.emit, Run.modify]
    | ok docs1 =>
      cases docs1 with
      | nil =>
        rcases h2 : bk.getDocs w1 "posts" (some ("createdAt", "desc")) with ⟨res2, w2⟩
        cases res2 with
        | error e => simp [h2, Projects.fetchFailed, Run.emit, Run.modify]
        | ok docs2 => simp [h2, Projects.fetchStore, Run.emit, Run.modify]
      | cons d ds => simp [Projects.fetchStore, Run.emit, Run.modify]
  · intro s
    unfold Activities.fetchActivities FallbackRead
    simp only [Run.getDocs, Run.emit, Run.modify]
    rcases h1 : bk.getDocs w "activities" none with ⟨res1, w1⟩
    cases res1 with
    | error e => simp [Activities.fetchFailed, Run.emit, Run.modify]
    | ok docs1 =>
      cases docs1 with
      | nil =>
        rcases h2 : bk.getDocs w1 "activities" (some ("createdAt", "desc")) with ⟨res2, w2⟩
        cases res2 with
        | error e => simp [h2, Activities.fetchFailed, Run.emit, Run.modify]
        | ok docs2 => simp [h2, Activities.fetchStore, Run.emit, Run.modify]
      | cons d ds => simp [Activities.fetchStore, Run.emit, Run.modify]

/-- The applicants list is stored as the database returned it: the snapshot above, read
from the database in this order, is stored with the older record in front. -/
theorem applicants_list_not_sorted_in_memory :
    (Applicants.fetchApplicants exampleEnv (constBackend twoApplicants)
        ⟨(), applicantsInit "Trainer", []⟩).page.applicants.map Applicants.createdKey =
      [some 1700000000000, some 1900000000000] ∧
    ¬ SortedDesc Applicants.createdKey
      (Applicants.fetchApplicants exampleEnv (constBackend twoApplicants)
        ⟨(), applicantsInit "Trainer", []⟩).page.applicants := by
  have h : (Applicants.fetchApplicants exampleEnv (constBackend twoApplicants)
        ⟨(), applicantsInit "Trainer", []⟩).page.applicants =
      twoApplicants.map (Applicants.mapDoc exampleEnv "Trainer") := rfl
  rw [h]
  refine ⟨by decide, ?_⟩
  intro hs
  simp only [SortedDesc, twoApplicants, List.map_cons, List.map_nil, List.pairwise_cons,
    List.mem_singleton, forall_eq] at hs
  obtain ⟨⟨x, y, hx, hy, hxy⟩, -⟩ := hs
  have hx' : Applicants.createdKey
      (Applicants.mapDoc exampleEnv "Trainer"
        ⟨"b", [("fullName", .str "B"), ("createdAt", .timestamp (some 1700000000000))]⟩) =
      some 1700000000000 := by decide
  have hy' : Applicants.createdKey
      (Applicants.mapDoc exampleEnv "Trainer"
        ⟨"a", [("fullName", .str "A"), ("createdAt", .num 1900000000000)]⟩) =
      some 1900000000000 := by decide
  rw [hx'] at hx
  rw [hy'] at hy
  obtain rfl := Option.some.inj hx
  obtain rfl := Option.some.inj hy
  omega

/-- C9, amended. `fetchApplicants` issues one query of the active collection ordered by
`createdAt` descending and stores the mapped documents in exactly the order the database
returned them; it applies no in-memory sort. -/
theorem applicants_list_in_database_order {β : Type} (env : Env) (bk : Backend β) (w w' : β)
    (s : Applicants.State) (docs : List Doc)
    (h : bk.getDocs w s.activeCollection (some ("createdAt", "desc")) = (.ok docs, w')) :
    (Applicants.fetchApplicants env bk ⟨w, s, []⟩).page.applicants =
        docs.map (Applicants.mapDoc env s.activeCollection) ∧
      (Applicants.fetchApplicants env bk ⟨w, s, []⟩).trace =
        [.start (.getDocs s.activeCollection (some ("createdAt", "desc"))),
         .settle (.getDocs s.activeCollection (some ("createdAt", "desc"))) true] := by
  simp [Applicants.fetchApplicants, Run.getDocs, Run.modify, Run.emit, h, Run.isOk]

/-! ## Traces: reporting of failures, pending requests -/

theorem sequential_append : ∀ (a b : List Ev), sequential a = true →
    sequential (a ++ b) = sequential b
  | [], b, _ => rfl
  | [.start q], b, h => by simp [sequential] at h
  | .start q :: .settle q' ok :: rest, b, h => by
    simp only [sequential, Bool.and_eq_true, decide_eq_true_eq] at h
    simp only [List.cons_append, sequential, h.1, decide_True, Bool.true_and]
    exact sequential_append rest b h.2
  | .start q :: .start _ :: rest, b, h => by simp [sequential] at h
  | .start q :: .log _ :: rest, b, h => by simp [sequential] at h
  | .start q :: .error _ :: rest, b, h => by simp [sequential] at h
  | .start q :: .alert _ _ _ :: rest, b, h => by simp [sequential] at h
  | .start q :: .confirm _ :: rest, b, h => by simp [sequential] at h
  | .start q :: .download _ _ :: rest, b, h => by simp [sequential] at h
  | .settle _ _ :: rest, b, h => by simp [sequential] at h
  | .log _ :: rest, b, h => by
    simp only [sequential] at h
    simp only [List.cons_append, sequential]
    exact sequential_append rest b h
  | .error _ :: rest, b, h => by
    simp only [sequential] at h
    simp only [List.cons_append, sequential]
    exact sequential_append rest b h
  | .alert _ _ _ :: rest, b, h => by
    simp only [sequential] at h
    simp only [List.cons_append, sequential]
    exact sequential_append rest b h
  | .confirm _ :: rest, b, h => by
    simp only [sequential] at h
    simp only [List.cons_append, sequential]
    exact sequential_append rest b h
  | .download _ _ :: rest, b, h => by
    simp only [sequential] at h
    simp only [List.cons_append, sequential]
    exact sequential_append rest b h

theorem foldl_pendingStep_sequential : ∀ (tr : List Ev) (m : Nat), sequential tr = true →
    tr.foldl pendingStep (0, m) = (0, if tr.any (fun e => match e with
      | .start _ => true
      | _ => false) then max m 1 else m)
  | [], m, _ => by simp
  | [.start q], m, h => by simp [sequential] at h
  | .start q :: .settle q' ok :: rest, m, h => by
    simp only [sequential, Bool.and_eq_true, decide_eq_true_eq] at h
    simp only [List.foldl_cons, pendingStep, zero_add, Nat.sub_self, List.any_cons,
      Bool.true_or, if_true]
    rw [foldl_pendingStep_sequential rest (max m 1) h.2]
    split <;> simp
  | .start q :: .start _ :: rest, m, h => by simp [sequential] at h
  | .start q :: .log _ :: rest, m, h => by simp [sequential] at h
  | .start q :: .error _ :: rest, m, h => by simp [sequential] at h
  | .start q :: .alert _ _ _ :: rest, m, h => by simp [sequential] at h
  | .start q :: .confirm _ :: rest, m, h => by simp [sequential] at h
  | .start q :: .download _ _ :: rest, m, h => by simp [sequential] at h
  | .settle _ _ :: rest, m, h => by simp [sequential] at h
  | .log _ :: rest, m, h => by
    simp only [sequential] at h
    simp only [List.foldl_cons, pendingStep, List.any_cons, Bool.false_or]
    exact foldl_pendingStep_sequential rest m h
  | .error _ :: rest, m, h => by
    simp only [sequential] at h
    simp only [List.foldl_cons, pendingStep, List.any_cons, Bool.false_or]
    exact foldl_pendingStep_sequential rest m h
  | .alert _ _ _ :: rest, m, h => by
    simp only [sequential] at h
    simp only [List.foldl_cons, pendingStep, List.any_cons, Bool.false_or]
    exact foldl_pendingStep_sequential rest m h
  | .confirm _ :: rest, m, h => by
    simp only [sequential] at h
    simp only [List.foldl_cons, pendingStep, List.any_cons, Bool.false_or]
    exact foldl_pendingStep_sequential rest m h
  | .download _ _ :: rest, m, h => by
    simp only [sequential] at h
    simp only [List.foldl_cons, pendingStep, List.any_cons, Bool.false_or]
    exact foldl_pendingStep_sequential rest m h

theorem maxPending_le_one_of_sequential (tr : List Ev) (h : sequential tr = true) :
    maxPending tr ≤ 1 := by
  unfold maxPending
  rw [foldl_pendingStep_sequential tr 0 h]
  split <;> simp

theorem failureReported_append {a b : List Ev} (ha : FailureReported a)
    (hb : FailureReported b) : FailureReported (a ++ b) := by
  rintro ⟨q, hq⟩
  rcases List.mem_append.mp hq with h | h
  · obtain ⟨⟨m, hm⟩, t, x, hx⟩ := ha ⟨q, h⟩
    exact ⟨⟨m, List.mem_append_left _ hm⟩, t, x, List.mem_append_left _ hx⟩
  · obtain ⟨⟨m, hm⟩, t, x, hx⟩ := hb ⟨q, h⟩
    exact ⟨⟨m, List.mem_append_right _ hm⟩, t, x, List.mem_append_right _ hx⟩

theorem wellBehaved_append {a b : List Ev} (ha : WellBehaved a) (hb : WellBehaved b) :
    WellBehaved (a ++ b) :=
  ⟨failureReported_append ha.1 hb.1, by rw [sequential_append a b ha.2]; exact hb.2⟩

/-! ### Announcements -/

theorem announcements_fetch_trace {β : Type} (env : Env) (bk : Backend β)
    (r : Run β Announcements.State) :
    (Announcements.fetchAnnouncements env bk r).trace =
      r.trace ++ (Announcements.fetchAnnouncements env bk ⟨r.world, r.page, []⟩).trace := by
  unfold Announcements.fetchAnnouncements
  simp only [Run.getDocs, Run.emit, Run.modify]
  rcases bk.getDocs r.world "announcements" none with ⟨res1, w1⟩
  cases res1 with
  | error e => simp [Announcements.fetchFailed, Run.emit, Run.modify]
  | ok docs1 =>
    cases docs1 with
    | nil =>
      rcases h2 : bk.getDocs w1 "announcements" (some ("createdAt", "desc")) with ⟨res2, w2⟩
      cases res2 with
      | error e => simp [h2, Announcements.fetchFailed, Run.emit, Run.modify]
      | ok docs2 => simp [h2, Announcements.fetchStore, Run.emit, Run.modify]
    | cons d ds => simp [Announcements.fetchStore, Run.emit, Run.modify]

theorem announcements_fetch_wellBehaved {β : Type} (env : Env) (bk : Backend β) (w : β)
    (s : Announcements.State) :
    WellBehaved (Announcements.fetchAnnouncements env bk ⟨w, s, []⟩).trace := by
  unfold Announcements.fetchAnnouncements
  simp only [Run.getDocs, Run.emit, Run.modify]
  rcases bk.getDocs w "announcements" none with ⟨res1, w1⟩
  cases res1 with
  | error e =>
    simp [Announcements.fetchFailed, Run.emit, Run.modify, WellBehaved, FailureReported,
      sequential]
  | ok docs1 =>
    cases docs1 with
    | nil =>
      rcases h2 : bk.getDocs w1 "announcements" (some ("createdAt", "desc")) with ⟨res2, w2⟩
      cases res2 with
      | error e =>
        simp [h2, Announcements.fetchFailed, Run.emit, Run.modify, WellBehaved,
          FailureReported, sequential]
      | ok docs2 =>
        simp [h2, Announcements.fetchStore, Run.emit, Run.modify, WellBehaved,
          FailureReported, sequential, Run.isOk]
    | cons d ds =>
      simp [Announcements.fetchStore, Run.emit, Run.modify, WellBehaved, FailureReported,
        sequential, Run.isOk]

theorem announcements_delete_wellBehaved {β : Type} (env : Env) (bk : Backend β) (w : β)
    (s : Announcements.State) (a : Obj) (confirmed : Bool) :
    WellBehaved (Announcements.handleDelete env bk a confirmed ⟨w, s, []⟩).trace := by
  unfold Announcements.handleDelete
  cases confirmed with
  | false => simp [Run.emit, WellBehaved, FailureReported, sequential]
  | true =>
    simp only [Run.emit, if_true, List.nil_append]
    cases docId (a.get "id") with
    | error e =>
      simp [Announcements.deleteFailed, Run.emit, WellBehaved, FailureReported, sequential]
    | ok id =>
      simp only [Run.deleteDoc]
      rcases bk.deleteDoc w "announcements" id with ⟨res, w1⟩
      cases res with
      | error e =>
        simp [Announcements.deleteFailed, Run.emit, WellBehaved, FailureReported, sequential]
      | ok u =>
        simp only []
        rw [announcements_fetch_trace]
        refine wellBehaved_append ?_ (announcements_fetch_wellBehaved env bk _ _)
        simp [WellBehaved, FailureReported, sequential, Run.isOk]

theorem announcements_submitTry_wellBehaved {β : Type} (env : Env) (bk : Backend β) (w : β)
    (s0 s : Announcements.State) :
    WellBehaved (Announcements.submitTry env bk s0 ⟨w, s, []⟩).trace := by
  unfold Announcements.submitTry
  simp only [Run.emit, Run.modify, List.nil_append]
  cases s0.currentAnnouncement with
  | some cur =>
    simp only []
    cases docId (cur.get "id") with
    | error e =>
      simp [Announcements.submitFailed, Run.emit, WellBehaved, FailureReported, sequential]
    | ok id =>
      simp only []
      cases timestampFromDate (newDate env (s0.formData.get "date")) with
      | error e =>
        simp [Announcements.submitFailed, Run.emit, WellBehaved, FailureReported, sequential]
      | ok ts =>
        simp only [Run.updateDoc]
        rcases bk.updateDoc w "announcements" id _ with ⟨res, w1⟩
        cases res with
        | error e =>
          simp [Announcements.submitFailed, Run.emit, WellBehaved, FailureReported, sequential]
        | ok u =>
          simp only [Announcements.submitDone, Run.modify, Run.emit]
          rw [announcements_fetch_trace]
          refine wellBehaved_append ?_ (announcements_fetch_wellBehaved env bk _ _)
          simp [WellBehaved, FailureReported, sequential, Run.isOk]
  | none =>
    simp only []
    cases timestampFromDate (newDate env (s0.formData.get "date")) with
    | error e =>
      simp [Announcements.submitFailed, Run.emit, WellBehaved, FailureReported, sequential]
    | ok ts =>
      simp only [Run.addDoc, Run.emit]
      rcases bk.addDoc w "announcements" _ with ⟨res, w1⟩
      cases res with
      | error e =>
        simp [Announcements.submitFailed, Run.emit, WellBehaved, FailureReported, sequential]
      | ok u =>
        simp only [Announcements.submitDone, Run.modify, Run.emit]
        rw [announcements_fetch_trace]
        refine wellBehaved_append ?_ (announcements_fetch_wellBehaved env bk _ _)
        simp [WellBehaved, FailureReported, sequential, Run.isOk]

theorem announcements_submit_wellBehaved {β : Type} (env : Env) (bk : Backend β) (w : β)
    (s : Announcements.State) (r' : Run β Announcements.State)
    (h : Announcements.handleSubmit env bk ⟨w, s, []⟩ = .ok r') : WellBehaved r'.trace := by
  unfold Announcements.handleSubmit at h
  cases hv : Announcements.validateForm s.formData with
  | error e => simp [hv] at h
  | ok p =>
    obtain ⟨valid, errors⟩ := p
    simp only [hv] at h
    cases valid with
    | false =>
      simp only [Bool.not_false, if_true, Except.ok.injEq] at h
      subst h
      simp [Run.modify, WellBehaved, FailureReported, sequential]
    | true =>
      simp only [Bool.not_true, Bool.false_eq_true, if_false, Except.ok.injEq] at h
      subst h
      simp only [Run.modify]
      exact announcements_submitTry_wellBehaved env bk w s _

/-! ### Jobs -/

theorem jobs_fetch_trace {β : Type} (env : Env) (bk : Backend β) (r : Run β Jobs.State) :
    (Jobs.fetchJobs env bk r).trace =
      r.trace ++ (Jobs.fetchJobs env bk ⟨r.world, r.page, []⟩).trace := by
  unfold Jobs.fetchJobs
  simp only [Run.getDocs, Run.emit, Run.modify]
  rcases bk.getDocs r.world "jobs" none with ⟨res1, w1⟩
  cases res1 with
  | error e => simp [Jobs.fetchFailed, Run.emit, Run.modify]
  | ok docs1 =>
    cases docs1 with
    | nil =>
      rcases h2 : bk.getDocs w1 "jobs" (some ("createdAt", "desc")) with ⟨res2, w2⟩
      cases res2 with
      | error e => simp [h2, Jobs.fetchFailed, Run.emit, Run.modify]
      | ok docs2 => simp [h2, Jobs.fetchStore, Run.emit, Run.modify]
    | cons d ds => simp [Jobs.fetchStore, Run.emit, Run.modify]

theorem jobs_fetch_wellBehaved {β : Type} (env : Env) (bk : Backend β) (w : β)
    (s : Jobs.State) : WellBehaved (Jobs.fetchJobs env bk ⟨w, s, []⟩).trace := by
  unfold Jobs.fetchJobs
  simp only [Run.getDocs, Run.emit, Run.modify]
  rcases bk.getDocs w "jobs" none with ⟨res1, w1⟩
  cases res1 with
  | error e =>
    simp [Jobs.fetchFailed, Run.emit, Run.modify, WellBehaved, FailureReported, sequential]
  | ok docs1 =>
    cases docs1 with
    | nil =>
      rcases h2 : bk.getDocs w1 "jobs" (some ("createdAt", "desc")) with ⟨res2, w2⟩
      cases res2 with
      | error e =>
        simp [h2, Jobs.fetchFailed, Run.emit, Run.modify, WellBehaved, FailureReported,
          sequential]
      | ok docs2 =>
        simp [h2, Jobs.fetchStore, Run.emit, Run.modify, WellBehaved, FailureReported,
          sequential, Run.isOk]
    | cons d ds =>
      simp [Jobs.fetchStore, Run.emit, Run.modify, WellBehaved, FailureReported, sequential,
        Run.isOk]

theorem jobs_delete_wellBehaved {β : Type} (env : Env) (bk : Backend β) (w : β)
    (s : Jobs.State) (a : Obj) (confirmed : Bool) :
    WellBehaved (Jobs.handleDelete env bk a confirmed ⟨w, s, []⟩).trace := by
  unfold Jobs.handleDelete
  cases confirmed with
  | false => simp [Run.emit, WellBehaved, FailureReported, sequential]
  | true =>
    simp only [Run.emit, if_true, List.nil_append]
    cases docId (a.get "id") with
    | error e => simp [Jobs.deleteFailed, Run.emit, WellBehaved, FailureReported, sequential]
    | ok id =>
      simp only [Run.deleteDoc]
      rcases bk.deleteDoc w "jobs" id with ⟨res, w1⟩
      cases res with
      | error e => simp [Jobs.deleteFailed, Run.emit, WellBehaved, FailureReported, sequential]
      | ok u =>
        simp only []
        rw [jobs_fetch_trace]
        refine wellBehaved_append ?_ (jobs_fetch_wellBehaved env bk _ _)
        simp [WellBehaved, FailureReported, sequential, Run.isOk]

theorem jobs_submitTry_wellBehaved {β : Type} (env : Env) (bk : Backend β) (w : β)
    (s0 s : Jobs.State) : WellBehaved (Jobs.submitTry env bk s0 ⟨w, s, []⟩).trace := by
  unfold Jobs.submitTry
  simp only [Run.emit, Run.modify]
  cases timestampFromDate (newDate env (s0.formData.get "date")) with
  | error e => simp [Jobs.submitFailed, Run.emit, WellBehaved, FailureReported, sequential]
  | ok ts =>
    simp only []
    cases s0.currentJob with
    | some cur =>
      simp only []
      cases docId (cur.get "id") with
      | error e => simp [Jobs.submitFailed, Run.emit, WellBehaved, FailureReported, sequential]
      | ok id =>
        simp only [Run.updateDoc]
        rcases bk.updateDoc w "jobs" id _ with ⟨res, w1⟩
        cases res with
        | error e =>
          simp [Jobs.submitFailed, Run.emit, WellBehaved, FailureReported, sequential]
        | ok u =>
          simp only [Jobs.submitDone, Run.modify, Run.emit]
          rw [jobs_fetch_trace]
          refine wellBehaved_append ?_ (jobs_fetch_wellBehaved env bk _ _)
          simp [WellBehaved, FailureReported, sequential, Run.isOk]
    | none =>
      simp only [Run.addDoc]
      rcases bk.addDoc w "jobs" _ with ⟨res, w1⟩
      cases res with
      | error e =>
        simp [Jobs.submitFailed, Run.emit, WellBehaved, FailureReported, sequential]
      | ok u =>
        simp only [Jobs.submitDone, Run.modify, Run.emit]
        rw [jobs_fetch_trace]
        refine wellBehaved_append ?_ (jobs_fetch_wellBehaved env bk _ _)
        simp [WellBehaved, FailureReported, sequential, Run.isOk]

theorem jobs_submit_wellBehaved {β : Type} (env : Env) (bk : Backend β) (w : β)
    (s : Jobs.State) (r' : Run β Jobs.State)
    (h : Jobs.handleSubmit env bk ⟨w, s, []⟩ = .ok r') : WellBehaved r'.trace := by
  unfold Jobs.handleSubmit at h
  cases hv : Jobs.validateForm s.formData with
  | error e => simp [hv] at h
  | ok p =>
    obtain ⟨valid, errors⟩ := p
    simp only [hv] at h
    cases valid with
    | false =>
      simp only [Bool.not_false, if_true, Except.ok.injEq] at h
      subst h
      simp [Run.modify, WellBehaved, FailureReported, sequential]
    | true =>
      simp only [Bool.not_true, Bool.false_eq_true, if_false, Except.ok.injEq] at h
      subst h
      simp only [Run.modify]
      exact jobs_submitTry_wellBehaved env bk w s _

/-! ### Projects -/

theorem projects_fetch_trace {β : Type} (env : Env) (bk : Backend β)
    (r : Run β Projects.State) :
    (Projects.fetchProjects env bk r).trace =
      r.trace ++ (Projects.fetchProjects env bk ⟨r.world, r.page, []⟩).trace := by
  unfold Projects.fetchProjects
  simp only [Run.getDocs, Run.emit, Run.modify]
  rcases bk.getDocs r.world "posts" none with ⟨res1, w1⟩
  cases res1 with
  | error e => simp [Projects.fetchFailed, Run.emit, Run.modify]
  | ok docs1 =>
    cases docs1 with
    | nil =>
      rcases h2 : bk.getDocs w1 "posts" (some ("createdAt", "desc")) with ⟨res2, w2⟩
      cases res2 with
      | error e => simp [h2, Projects.fetchFailed, Run.emit, Run.modify]
      | ok docs2 => simp [h2, Projects.fetchStore, Run.emit, Run.modify]
    | cons d ds => simp [Projects.fetchStore, Run.emit, Run.modify]

theorem projects_fetch_wellBehaved {β : Type} (env : Env) (bk : Backend β) (w : β)
    (s : Projects.State) : WellBehaved (Projects.fetchProjects env bk ⟨w, s, []⟩).trace := by
  unfold Projects.fetchProjects
  simp only [Run.getDocs, Run.emit, Run.modify]
  rcases bk.getDocs w "posts" none with ⟨res1, w1⟩
  cases res1 with
  | error e =>
    simp [Projects.fetchFailed, Run.emit, Run.modify, WellBehaved, FailureReported, sequential]
  | ok docs1 =>
    cases docs1 with
    | nil =>
      rcases h2 : bk.getDocs w1 "posts" (some ("createdAt", "desc")) with ⟨res2, w2⟩
      cases res2 with
      | error e =>
        simp [h2, Projects.fetchFailed, Run.emit, Run.modify, WellBehaved, FailureReported,
          sequential]
      | ok docs2 =>
        simp [h2, Projects.fetchStore, Run.emit, Run.modify, WellBehaved, FailureReported,
          sequential, Run.isOk]
    | cons d ds =>
      simp [Projects.fetchStore, Run.emit, Run.modify, WellBehaved, FailureReported,
        sequential, Run.isOk]

theorem projects_delete_wellBehaved {β : Type} (env : Env) (bk : Backend β) (w : β)
    (s : Projects.State) (a : Obj) (confirmed : Bool) :
    WellBehaved (Projects.handleDeleteProject env bk a confirmed ⟨w, s, []⟩).trace := by
  unfold Projects.handleDeleteProject
  cases confirmed with
  | false => simp [Run.emit, WellBehaved, FailureReported, sequential]
  | true =>
    simp only [Run.emit, if_true, List.nil_append]
    cases docId (a.get "id") with
    | error e =>
      simp [Projects.deleteFailed, Run.emit, WellBehaved, FailureReported, sequential]
    | ok id =>
      simp only [Run.deleteDoc]
      rcases bk.deleteDoc w "posts" id with ⟨res, w1⟩
      cases res with
      | error e =>
        simp [Projects.deleteFailed, Run.emit, WellBehaved, FailureReported, sequential]
      | ok u =>
        simp only []
        rw [projects_fetch_trace]
        refine wellBehaved_append ?_ (projects_fetch_wellBehaved env bk _ _)
        simp [WellBehaved, FailureReported, sequential, Run.isOk]

theorem projects_add_wellBehaved {β : Type} (env : Env) (bk : Backend β) (w : β)
    (s : Projects.State) (r' : Run β Projects.State)
    (h : Projects.handleAddSubmit env bk ⟨w, s, []⟩ = .ok r') : WellBehaved r'.trace := by
  unfold Projects.handleAddSubmit at h
  cases hv : Projects.validateForm s.formData with
  | error e => simp [hv] at h
  | ok p =>
    obtain ⟨valid, errors⟩ := p
    simp only [hv] at h
    cases valid with
    | false =>
      simp only [Bool.not_false, if_true, Except.ok.injEq] at h
      subst h
      simp [Run.modify, WellBehaved, FailureReported, sequential]
    | true =>
      simp only [Bool.not_true, Bool.false_eq_true, if_false, Except.ok.injEq] at h
      subst h
      simp only [Run.modify, Run.addDoc, Run.emit]
      rcases bk.addDoc w "posts" _ with ⟨res, w1⟩
      cases res with
      | error e => simp [WellBehaved, FailureReported, sequential]
      | ok u =>
        simp only []
        rw [projects_fetch_trace]
        refine wellBehaved_append ?_ (projects_fetch_wellBehaved env bk _ _)
        simp [WellBehaved, FailureReported, sequential, Run.isOk]

theorem projects_update_wellBehaved {β : Type} (env : Env) (bk : Backend β) (w : β)
    (s : Projects.State) (r' : Run β Projects.State)
    (h : Projects.handleUpdateSubmit env bk ⟨w, s, []⟩ = .ok r') : WellBehaved r'.trace := by
  unfold Projects.handleUpdateSubmit at h
  cases hv : Projects.validateForm s.formData with
  | error e => simp [hv] at h
  | ok p =>
    obtain ⟨valid, errors⟩ := p
    simp only [hv] at h
    cases valid with
    | false =>
      simp only [Bool.not_false, if_true, Except.ok.injEq] at h
      subst h
      simp [Run.modify, WellBehaved, FailureReported, sequential]
    | true =>
      simp only [Bool.not_true, Bool.false_eq_true, if_false, Except.ok.injEq] at h
      subst h
      simp only [Run.modify]
      cases recordId s.currentProject >>= docId with
      | error e =>
        simp [Projects.updateFailed, Run.emit, WellBehaved, FailureReported, sequential]
      | ok id =>
        simp only [Run.updateDoc]
        rcases bk.updateDoc w "posts" id _ with ⟨res, w1⟩
        cases res with
        | error e =>
          simp [Projects.updateFailed, Run.emit, WellBehaved, FailureReported, sequential]
        | ok u =>
          simp only [Run.emit]
          rw [projects_fetch_trace]
          refine wellBehaved_append ?_ (projects_fetch_wellBehaved env bk _ _)
          simp [WellBehaved, FailureReported, sequential, Run.isOk]

/-! ### Activities -/

theorem activities_fetch_trace {β : Type} (env : Env) (bk : Backend β)
    (r : Run β Activities.State) :
    (Activities.fetchActivities env bk r).trace =
      r.trace ++ (Activities.fetchActivities env bk ⟨r.world, r.page, []⟩).trace := by
  unfold Activities.fetchActivities
  simp only [Run.getDocs, Run.emit, Run.modify]
  rcases bk.getDocs r.world "activities" none with ⟨res1, w1⟩
  cases res1 with
  | error e => simp [Activities.fetchFailed, Run.emit, Run.modify]
  | ok docs1 =>
    cases docs1 with
    | nil =>
      rcases h2 : bk.getDocs w1 "activities" (some ("createdAt", "desc")) with ⟨res2, w2⟩
      cases res2 with
      | error e => simp [h2, Activities.fetchFailed, Run.emit, Run.modify]
      | ok docs2 => simp [h2, Activities.fetchStore, Run.emit, Run.modify]
    | cons d ds => simp [Activities.fetchStore, Run.emit, Run.modify]

theorem activities_fetch_wellBehaved {β : Type} (env : Env) (bk : Backend β) (w : β)
    (s : Activities.State) :
    WellBehaved (Activities.fetchActivities env bk ⟨w, s, []⟩).trace := by
  unfold Activities.fetchActivities
  simp only [Run.getDocs, Run.emit, Run.modify]
  rcases bk.getDocs w "activities" none with ⟨res1, w1⟩
  cases res1 with
  | error e =>
    simp [Activities.fetchFailed, Run.emit, Run.modify, WellBehaved, FailureReported,
      sequential]
  | ok docs1 =>
    cases docs1 with
    | nil =>
      rcases h2 : bk.getDocs w1 "activities" (some ("createdAt", "desc")) with ⟨res2, w2⟩
      cases res2 with
      | error e =>
        simp [h2, Activities.fetchFailed, Run.emit, Run.modify, WellBehaved, FailureReported,
          sequential]
      | ok docs2 =>
        simp [h2, Activities.fetchStore, Run.emit, Run.modify, WellBehaved, FailureReported,
          sequential, Run.isOk]
    | cons d ds =>
      simp [Activities.fetchStore, Run.emit, Run.modify, WellBehaved, FailureReported,
        sequential, Run.isOk]

theorem activities_delete_wellBehaved {β : Type} (env : Env) (bk : Backend β) (w : β)
    (s : Activities.State) (a : Obj) (confirmed : Bool) :
    WellBehaved (Activities.handleDeleteActivity env bk a confirmed ⟨w, s, []⟩).trace := by
  unfold Activities.handleDeleteActivity
  cases confirmed with
  | false => simp [Run.emit, WellBehaved, FailureReported, sequential]
  | true =>
    simp only [Run.emit, if_true, List.nil_append]
    cases docId (a.get "id") with
    | error e =>
      simp [Activities.deleteFailed, Run.emit, WellBehaved, FailureReported, sequential]
    | ok id =>
      simp only [Run.deleteDoc]
      rcases bk.deleteDoc w "activities" id with ⟨res, w1⟩
      cases res with
      | error e =>
        simp [Activities.deleteFailed, Run.emit, WellBehaved, FailureReported, sequential]
      | ok u =>
        simp only []
        rw [activities_fetch_trace]
        refine wellBehaved_append ?_ (activities_fetch_wellBehaved env bk _ _)
        simp [WellBehaved, FailureReported, sequential, Run.isOk]

theorem activities_add_wellBehaved {β : Type} (env : Env) (bk : Backend β) (w : β)
    (s : Activities.State) (r' : Run β Activities.State)
    (h : Activities.handleAddSubmit env bk ⟨w, s, []⟩ = .ok r') : WellBehaved r'.trace := by
  unfold Activities.handleAddSubmit at h
  cases hv : Activities.validateForm s.formData with
  | error e => simp [hv] at h
  | ok p =>
    obtain ⟨valid, errors⟩ := p
    simp only [hv] at h
    cases valid with
    | false =>
      simp only [Bool.not_false, if_true, Except.ok.injEq] at h
      subst h
      simp [Run.modify, WellBehaved, FailureReported, sequential]
    | true =>
      simp only [Bool.not_true, Bool.false_eq_true, if_false, Except.ok.injEq] at h
      subst h
      simp only [Run.modify, Run.addDoc, Run.emit]
      rcases bk.addDoc w "activities" _ with ⟨res, w1⟩
      cases res with
      | error e => simp [WellBehaved, FailureReported, sequential]
      | ok u =>
        simp only []
        rw [activities_fetch_trace]
        refine wellBehaved_append ?_ (activities_fetch_wellBehaved env bk _ _)
        simp [WellBehaved, FailureReported, sequential, Run.isOk]

theorem activities_update_wellBehaved {β : Type} (env : Env) (bk : Backend β) (w : β)
    (s : Activities.State) (r' : Run β Activities.State)
    (h : Activities.handleUpdateSubmit env bk ⟨w, s, []⟩ = .ok r') : WellBehaved r'.trace := by
  unfold Activities.handleUpdateSubmit at h
  cases hv : Activities.validateForm s.formData with
  | error e => simp [hv] at h
  | ok p =>
    obtain ⟨valid, errors⟩ := p
    simp only [hv] at h
    cases valid with
    | false =>
      simp only [Bool.not_false, if_true, Except.ok.injEq] at h
      subst h
      simp [Run.modify, WellBehaved, FailureReported, sequential]
    | true =>
      simp only [Bool.not_true, Bool.false_eq_true, if_false, Except.ok.injEq] at h
      subst h
      simp only [Run.modify]
      cases recordId s.currentActivity with
      | error e =>
        simp [Activities.updateFailed, Run.emit, WellBehaved, FailureReported, sequential]
      | ok idVal =>
        simp only [Run.emit]
        cases docId idVal with
        | error e =>
          simp [Activities.updateFailed, Run.emit, WellBehaved, FailureReported, sequential]
        | ok id =>
          simp only [Run.updateDoc]
          rcases bk.updateDoc w "activities" id _ with ⟨res, w1⟩
          cases res with
          | error e =>
            simp [Activities.updateFailed, Run.emit, WellBehaved, FailureReported, sequential]
          | ok u =>
            simp only []
            rw [activities_fetch_trace]
            refine wellBehaved_append ?_ (activities_fetch_wellBehaved env bk _ _)
            simp [WellBehaved, FailureReported, sequential, Run.isOk]

/-! ### Applicants -/

theorem applicants_fetch_trace {β : Type} (env : Env) (bk : Backend β)
    (r : Run β Applicants.State) :
    (Applicants.fetchApplicants env bk r).trace =
      r.trace ++ (Applicants.fetchApplicants env bk ⟨r.world, r.page, []⟩).trace := by
  unfold Applicants.fetchApplicants
  simp only [Run.getDocs, Run.emit, Run.modify]
  rcases bk.getDocs r.world r.page.activeCollection (some ("createdAt", "desc")) with ⟨res1, w1⟩
  cases res1 with
  | error e => simp
  | ok docs1 => simp

theorem applicants_fetch_wellBehaved {β : Type} (env : Env) (bk : Backend β) (w : β)
    (s : Applicants.State) :
    WellBehaved (Applicants.fetchApplicants env bk ⟨w, s, []⟩).trace := by
  unfold Applicants.fetchApplicants
  simp only [Run.getDocs, Run.emit, Run.modify]
  rcases bk.getDocs w s.activeCollection (some ("createdAt", "desc")) with ⟨res1, w1⟩
  cases res1 with
  | error e => simp [WellBehaved, FailureReported, sequential]
  | ok docs1 => simp [WellBehaved, FailureReported, sequential, Run.isOk]

theorem applicants_delete_wellBehaved {β : Type} (env : Env) (bk : Backend β) (w : β)
    (s : Applicants.State) (a : Obj) (confirmed : Bool) :
    WellBehaved (Applicants.handleDeleteApplicant env bk a confirmed ⟨w, s, []⟩).trace := by
  unfold Applicants.handleDeleteApplicant
  cases confirmed with
  | false => simp [Run.emit, WellBehaved, FailureReported, sequential]
  | true =>
    simp only [Run.emit, if_true, List.nil_append]
    cases Applicants.docPath (some a) with
    | error e =>
      simp [Applicants.deleteFailed, Run.emit, WellBehaved, FailureReported, sequential]
    | ok p =>
      obtain ⟨coll, id⟩ := p
      simp only [Run.deleteDoc]
      rcases bk.deleteDoc w coll id with ⟨res, w1⟩
      cases res with
      | error e =>
        simp [Applicants.deleteFailed, Run.emit, WellBehaved, FailureReported, sequential]
      | ok u =>
        simp only []
        rw [applicants_fetch_trace]
        refine wellBehaved_append ?_ (applicants_fetch_wellBehaved env bk _ _)
        simp [WellBehaved, FailureReported, sequential, Run.isOk]

theorem applicants_update_wellBehaved {β : Type} (env : Env) (bk : Backend β) (w : β)
    (s : Applicants.State) (r' : Run β Applicants.State)
    (h : Applicants.handleUpdateSubmit env bk ⟨w, s, []⟩ = .ok r') : WellBehaved r'.trace := by
  unfold Applicants.handleUpdateSubmit at h
  cases hv : Applicants.validateForm s.formData with
  | error e => simp [hv] at h
  | ok p =>
    obtain ⟨valid, errors⟩ := p
    simp only [hv] at h
    cases valid with
    | false =>
      simp only [Bool.not_false, if_true, Except.ok.injEq] at h
      subst h
      simp [Run.modify, WellBehaved, FailureReported, sequential]
    | true =>
      simp only [Bool.not_true, Bool.false_eq_true, if_false, Except.ok.injEq] at h
      subst h
      simp only [Run.modify]
      cases Applicants.docPath s.currentApplicant with
      | error e =>
        simp [Applicants.updateFailed, Run.emit, WellBehaved, FailureReported, sequential]
      | ok p =>
        obtain ⟨coll, id⟩ := p
        simp only [Run.updateDoc]
        rcases bk.updateDoc w coll id _ with ⟨res, w1⟩
        cases res with
        | error e =>
          simp [Applicants.updateFailed, Run.emit, WellBehaved, FailureReported, sequential]
        | ok u =>
          simp only [Run.emit]
          rw [applicants_fetch_trace]
          refine wellBehaved_append ?_ (applicants_fetch_wellBehaved env bk _ _)
          simp [WellBehaved, FailureReported, sequential, Run.isOk]

/-! ### Dashboard and authentication -/

theorem dashboard_fetchData_trace {β : Type} (bk : Backend β) (w : β) (s : Dashboard.State) :
    LoggedOnly (Dashboard.fetchData bk ⟨w, s, []⟩).trace ∧
      sequential (Dashboard.fetchData bk ⟨w, s, []⟩).trace = true := by
  unfold Dashboard.fetchData
  simp only [Run.getDocs]
  rcases bk.getDocs w "announcements" none with ⟨res1, w1⟩
  cases res1 with
  | error e => simp [Dashboard.fetchFailed, Run.emit, Run.modify, LoggedOnly, sequential]
  | ok d1 =>
  simp only []
  rcases bk.getDocs w1 "jobs" none with ⟨res2, w2⟩
  cases res2 with
  | error e =>
    simp [Dashboard.fetchFailed, Run.emit, Run.modify, LoggedOnly, sequential, Run.isOk]
  | ok d2 =>
  simp only []
  rcases bk.getDocs w2 "DistrictManager" none with ⟨res3, w3⟩
  cases res3 with
  | error e =>
    simp [Dashboard.fetchFailed, Run.emit, Run.modify, LoggedOnly, sequential, Run.isOk]
  | ok d3 =>
  simp only []
  rcases bk.getDocs w3 "Trainer" none with ⟨res4, w4⟩
  cases res4 with
  | error e =>
    simp [Dashboard.fetchFailed, Run.emit, Run.modify, LoggedOnly, sequential, Run.isOk]
  | ok d4 =>
  simp only []
  rcases bk.getDocs w4 "Supervisor" none with ⟨res5, w5⟩
  cases res5 with
  | error e =>
    simp [Dashboard.fetchFailed, Run.emit, Run.modify, LoggedOnly, sequential, Run.isOk]
  | ok d5 =>
  simp only []
  rcases bk.getDocs w5 "Surveyor" none with ⟨res6, w6⟩
  cases res6 with
  | error e =>
    simp [Dashboard.fetchFailed, Run.emit, Run.modify, LoggedOnly, sequential, Run.isOk]
  | ok d6 =>
    simp [Run.emit, Run.modify, LoggedOnly, sequential, Run.isOk]

theorem dashboard_downloadCSV_trace {β : Type} (env : Env) (bk : Backend β) (w : β)
    (s : Dashboard.State) (c f : String) :
    LoggedOnly (Dashboard.downloadCSV env bk c f ⟨w, s, []⟩).trace ∧
      sequential (Dashboard.downloadCSV env bk c f ⟨w, s, []⟩).trace = true := by
  unfold Dashboard.downloadCSV Dashboard.downloadResume Dashboard.downloadBegin
  simp only [Run.emit, Run.modify]
  rcases bk.getDocs w c none with ⟨res1, w1⟩
  cases res1 with
  | error e => simp [Dashboard.downloadFailed, Run.emit, Run.modify, LoggedOnly, sequential]
  | ok docs =>
    simp only []
    cases Dashboard.convertToCSV env
        (docs.map (fun d => Obj.spread [("id", .str d.id)] d.data)) with
    | error e =>
      simp [Dashboard.downloadFailed, Run.emit, Run.modify, LoggedOnly, sequential, Run.isOk]
    | ok csv => simp [Run.emit, Run.modify, LoggedOnly, sequential, Run.isOk]

theorem downloadBegin_fold {β : Type} (c : String) (r : Run β Dashboard.State)
    (acc : Nat × Nat) :
    (Dashboard.downloadBegin c r).trace.foldl pendingStep acc =
      ((r.trace.foldl pendingStep acc).1 + 1,
        max (r.trace.foldl pendingStep acc).2 ((r.trace.foldl pendingStep acc).1 + 1)) := by
  simp [Dashboard.downloadBegin, Run.emit, Run.modify, List.foldl_append, pendingStep]

theorem downloadResume_fold {β : Type} (env : Env) (bk : Backend β) (c f : String)
    (r : Run β Dashboard.State) (acc : Nat × Nat) :
    (Dashboard.downloadResume env bk c f r).trace.foldl pendingStep acc =
      ((r.trace.foldl pendingStep acc).1 - 1, (r.trace.foldl pendingStep acc).2) := by
  unfold Dashboard.downloadResume
  rcases bk.getDocs r.world c none with ⟨res1, w1⟩
  cases res1 with
  | error e =>
    simp [Dashboard.downloadFailed, Run.emit, Run.modify, List.foldl_append, pendingStep]
  | ok docs =>
    simp only []
    cases Dashboard.convertToCSV env
        (docs.map (fun d => Obj.spread [("id", .str d.id)] d.data)) with
    | error e =>
      simp [Dashboard.downloadFailed, Run.emit, Run.modify, List.foldl_append, pendingStep]
    | ok csv => simp [Run.emit, Run.modify, List.foldl_append, pendingStep]

theorem downloadAll_maxPending {β : Type} (env : Env) (bk : Backend β) (w : β)
    (s : Dashboard.State) :
    maxPending (Dashboard.downloadAll env bk ⟨w, s, []⟩).trace = 4 := by
  simp [maxPending, Dashboard.downloadAll, Dashboard.allCollections, downloadResume_fold,
    downloadBegin_fold]

theorem auth_login_trace {β : Type} (bk : Backend β) (w : β) (s : AuthContext.State)
    (email password : String) :
    Silent (AuthContext.login bk email password ⟨w, s, []⟩).2.trace ∧
      ((∃ q, Ev.settle q false ∈ (AuthContext.login bk email password ⟨w, s, []⟩).2.trace) →
        ∃ e, (AuthContext.login bk email password ⟨w, s, []⟩).1 = .error e ∧
          (AuthContext.login bk email password ⟨w, s, []⟩).2.page.error = e.message) := by
  unfold AuthContext.login AuthContext.call
  simp only [Run.modify]
  rcases bk.signIn w email password with ⟨res, w1⟩
  cases res with
  | error e => simp [AuthContext.rethrow, Run.modify, Silent, Run.isOk]
  | ok u => simp [Silent, Run.isOk]

theorem auth_logout_trace {β : Type} (bk : Backend β) (w : β) (s : AuthContext.State) :
    Silent (AuthContext.logout bk ⟨w, s, []⟩).2.trace ∧
      ((∃ q, Ev.settle q false ∈ (AuthContext.logout bk ⟨w, s, []⟩).2.trace) →
        ∃ e, (AuthContext.logout bk ⟨w, s, []⟩).1 = .error e ∧
          (AuthContext.logout bk ⟨w, s, []⟩).2.page.error = e.message) := by
  unfold AuthContext.logout AuthContext.call
  simp only [Run.modify]
  rcases bk.signOut w with ⟨res, w1⟩
  cases res with
  | error e => simp [AuthContext.rethrow, Run.modify, Silent, Run.isOk]
  | ok u => simp [Silent, Run.isOk]

theorem auth_resetPassword_trace {β : Type} (bk : Backend β) (w : β) (s : AuthContext.State)
    (email : String) :
    Silent (AuthContext.resetPassword bk email ⟨w, s, []⟩).2.trace ∧
      ((∃ q, Ev.settle q false ∈ (AuthContext.resetPassword bk email ⟨w, s, []⟩).2.trace) →
        ∃ e, (AuthContext.resetPassword bk email ⟨w, s, []⟩).1 = .error e ∧
          (AuthContext.resetPassword bk email ⟨w, s, []⟩).2.page.error = e.message) := by
  unfold AuthContext.resetPassword AuthContext.call
  simp only [Run.modify]
  rcases bk.sendPasswordResetEmail w email with ⟨res, w1⟩
  cases res with
  | error e => simp [AuthContext.rethrow, Run.modify, Silent, Run.isOk]
  | ok u => simp [Silent, Run.isOk]

/-! ## Deleting a record -/

/-- C5, at a document whose data has a field named `id`.  The page lists the document
with id `a` under the id `b` of its data.  Deleting that record, confirmed and with a
successful delete and refetch, issues the delete for the document `b`: the refreshed list
still has the record that was to be deleted, under the deleted id, and has lost the other
record. -/
theorem delete_of_record_with_id_field :
    shadowListed.page.announcements = [shadowRecord, plainRecord] ∧
    shadowDeleted.trace =
      [.confirm "Are you sure?",
       .start (.deleteDoc "announcements" "b"), .settle (.deleteDoc "announcements" "b") true,
       .alert "success" "Deleted!" "Announcement has been deleted.",
       .log "Attempting to fetch all announcements without ordering...",
       .start (.getDocs "announcements" none), .settle (.getDocs "announcements" none) true,
       .log "Query completed, documents:",
       .log "Announcements data processed:"] ∧
    shadowDeleted.page.announcements = [shadowRecord] ∧
    shadowRecord.get "id" = .str "b" := by
  decide

/-! ## Reporting of failures -/

theorem wellBehaved_traceOf {β σ : Type} (x : Except JSError (Run β σ))
    (h : ∀ r, x = .ok r → WellBehaved r.trace) : WellBehaved (traceOf x) := by
  cases x with
  | error e => simp [traceOf, WellBehaved, FailureReported, sequential]
  | ok r => exact h r rfl

/-- The Dashboard's statistics fetch, its CSV download and `login` do not alert: with a
service that rejects every request, the statistics fetch and the download log the failure
and show no alert, and `login` neither logs nor alerts. -/
theorem dashboard_and_login_failures_not_alerted :
    ¬ FailureReported (Dashboard.fetchData failingBackend ⟨(), dashboardInit, []⟩).trace ∧
    ¬ FailureReported
      (Dashboard.downloadCSV exampleEnv failingBackend "Trainer" "trainers"
        ⟨(), dashboardInit, []⟩).trace ∧
    ¬ FailureReported (AuthContext.login failingBackend "a@b.c" "pw" ⟨(), authInit, []⟩).2.trace ∧
    (Dashboard.fetchData failingBackend ⟨(), dashboardInit, []⟩).trace =
      [.start (.getDocs "announcements" none), .settle (.getDocs "announcements" none) false,
       .error "Error fetching dashboard data:"] := by
  have h1 : (Dashboard.fetchData failingBackend ⟨(), dashboardInit, []⟩).trace =
      [.start (.getDocs "announcements" none), .settle (.getDocs "announcements" none) false,
       .error "Error fetching dashboard data:"] := by decide
  have h2 : (Dashboard.downloadCSV exampleEnv failingBackend "Trainer" "trainers"
        ⟨(), dashboardInit, []⟩).trace =
      [.start (.getDocs "Trainer" none), .settle (.getDocs "Trainer" none) false,
       .error "Error downloading CSV:"] := by decide
  have h3 : (AuthContext.login failingBackend "a@b.c" "pw" ⟨(), authInit, []⟩).2.trace =
      [.start (.signIn "a@b.c" "pw"), .settle (.signIn "a@b.c" "pw") false] := by decide
  rw [h1, h2, h3]
  refine ⟨?_, ?_, ?_, rfl⟩ <;> simp [FailureReported]

/-- C6, amended. On the Announcements, Jobs, Projects, Activities and Applicants pages
every rejected request of a fetch, a submit or a delete handler is followed by a
`console.error` and an alert with the error icon.  On the Dashboard a rejected read of the
statistics fetch or of `downloadCSV` is logged with `console.error` and no alert is shown.
`login`, `logout` and `resetPassword` neither log nor alert: they store the message in
`error` and reject with the same error. -/
theorem failures_reported_per_component {β : Type} (env : Env) (bk : Backend β) (w : β) :
    ((∀ s, FailureReported (Announcements.fetchAnnouncements env bk ⟨w, s, []⟩).trace) ∧
      (∀ s, FailureReported (Jobs.fetchJobs env bk ⟨w, s, []⟩).trace) ∧
      (∀ s, FailureReported (Projects.fetchProjects env bk ⟨w, s, []⟩).trace) ∧
      (∀ s, FailureReported (Activities.fetchActivities env bk ⟨w, s, []⟩).trace) ∧
      (∀ s, FailureReported (Applicants.fetchApplicants env bk ⟨w, s, []⟩).trace)) ∧
    ((∀ s, FailureReported (traceOf (Announcements.handleSubmit env bk ⟨w, s, []⟩))) ∧
      (∀ s, FailureReported (traceOf (Jobs.handleSubmit env bk ⟨w, s, []⟩))) ∧
      (∀ s, FailureReported (traceOf (Projects.handleAddSubmit env bk ⟨w, s, []⟩))) ∧
      (∀ s, FailureReported (traceOf (Projects.handleUpdateSubmit env bk ⟨w, s, []⟩))) ∧
      (∀ s, FailureReported (traceOf (Activities.handleAddSubmit env bk ⟨w, s, []⟩))) ∧
      (∀ s, FailureReported (traceOf (Activities.handleUpdateSubmit env bk ⟨w, s, []⟩))) ∧
      (∀ s, FailureReported (traceOf (Applicants.handleUpdateSubmit env bk ⟨w, s, []⟩)))) ∧
    ((∀ s a c, FailureReported (Announcements.handleDelete env bk a c ⟨w, s, []⟩).trace) ∧
      (∀ s a c, FailureReported (Jobs.handleDelete env bk a c ⟨w, s, []⟩).trace) ∧
      (∀ s a c, FailureReported (Projects.handleDeleteProject env bk a c ⟨w, s, []⟩).trace) ∧
      (∀ s a c, FailureReported (Activities.handleDeleteActivity env bk a c ⟨w, s, []⟩).trace) ∧
      (∀ s a c,
        FailureReported (Applicants.handleDeleteApplicant env bk a c ⟨w, s, []⟩).trace)) ∧
    ((∀ s, LoggedOnly (Dashboard.fetchData bk ⟨w, s, []⟩).trace) ∧
      (∀ s c f, LoggedOnly (Dashboard.downloadCSV env bk c f ⟨w, s, []⟩).trace)) ∧
    ((∀ s email password,
        Silent (AuthContext.login bk email password ⟨w, s, []⟩).2.trace ∧
          ((∃ q, Ev.settle q false ∈ (AuthContext.login bk email password ⟨w, s, []⟩).2.trace) →
            ∃ e, (AuthContext.login bk email password ⟨w, s, []⟩).1 = .error e ∧
              (AuthContext.login bk email password ⟨w, s, []⟩).2.page.error = e.message)) ∧
      (∀ s,
        Silent (AuthContext.logout bk ⟨w, s, []⟩).2.trace ∧
          ((∃ q, Ev.settle q false ∈ (AuthContext.logout bk ⟨w, s, []⟩).2.trace) →
            ∃ e, (AuthContext.logout bk ⟨w, s, []⟩).1 = .error e ∧
              (AuthContext.logout bk ⟨w, s, []⟩).2.page.error = e.message)) ∧
      (∀ s email,
        Silent (AuthContext.resetPassword bk email ⟨w, s, []⟩).2.trace ∧
          ((∃ q, Ev.settle q false ∈ (AuthContext.resetPassword bk email ⟨w, s, []⟩).2.trace) →
            ∃ e, (AuthContext.resetPassword bk email ⟨w, s, []⟩).1 = .error e ∧
              (AuthContext.resetPassword bk email ⟨w, s, []⟩).2.page.error = e.message))) := by
  refine ⟨⟨?_, ?_, ?_, ?_, ?_⟩, ⟨?_, ?_, ?_, ?_, ?_, ?_, ?_⟩, ⟨?_, ?_, ?_, ?_, ?_⟩, ⟨?_, ?_⟩,
    ⟨?_, ?_, ?_⟩⟩
  · exact fun s => (announcements_fetch_wellBehaved env bk w s).1
  · exact fun s => (jobs_fetch_wellBehaved env bk w s).1
  · exact fun s => (projects_fetch_wellBehaved env bk w s).1
  · exact fun s => (activities_fetch_wellBehaved env bk w s).1
  · exact fun s => (applicants_fetch_wellBehaved env bk w s).1
  · exact fun s => (wellBehaved_traceOf _
      (fun r h => announcements_submit_wellBehaved env bk w s r h)).1
  · exact fun s => (wellBehaved_traceOf _
      (fun r h => jobs_submit_wellBehaved env bk w s r h)).1
  · exact fun s => (wellBehaved_traceOf _
      (fun r h => projects_add_wellBehaved env bk w s r h)).1
  · exact fun s => (wellBehaved_traceOf _
      (fun r h => projects_update_wellBehaved env bk w s r h)).1
  · exact fun s => (wellBehaved_traceOf _
      (fun r h => activities_add_wellBehaved env bk w s r h)).1
  · exact fun s => (wellBehaved_traceOf _
      (fun r h => activities_update_wellBehaved env bk w s r h)).1
  · exact fun s => (wellBehaved_traceOf _
      (fun r h => applicants_update_wellBehaved env bk w s r h)).1
  · exact fun s a c => (announcements_delete_wellBehaved env bk w s a c).1
  · exact fun s a c => (jobs_delete_wellBehaved env bk w s a c).1
  · exact fun s a c => (projects_delete_wellBehaved env bk w s a c).1
  · exact fun s a c => (activities_delete_wellBehaved env bk w s a c).1
  · exact fun s a c => (applicants_delete_wellBehaved env bk w s a c).1
  · exact fun s => (dashboard_fetchData_trace bk w s).1
  · exact fun s c f => (dashboard_downloadCSV_trace env bk w s c f).1
  · exact fun s email password => auth_login_trace bk w s email password
  · exact fun s => auth_logout_trace bk w s
  · exact fun s email => auth_resetPassword_trace bk w s email

/-! ## Pending requests -/

/-- The "Download All CSVs" button has four reads pending at once: after the click every
one of the four calls of `downloadCSV` has issued its read and none has settled. -/
theorem download_all_has_four_pending :
    (Dashboard.downloadAll exampleEnv (constBackend []) ⟨(), dashboardInit, []⟩).trace.take 4 =
      [.start (.getDocs "DistrictManager" none), .start (.getDocs "Trainer" none),
       .start (.getDocs "Supervisor" none), .start (.getDocs "Surveyor" none)] ∧
    maxPending
      (Dashboard.downloadAll exampleEnv (constBackend []) ⟨(), dashboardInit, []⟩).trace = 4 ∧
    ¬ maxPending
      (Dashboard.downloadAll exampleEnv (constBackend []) ⟨(), dashboardInit, []⟩).trace ≤ 1 := by
  refine ⟨by decide, ?_, ?_⟩
  · exact downloadAll_maxPending _ _ _ _
  · rw [downloadAll_maxPending]
    omega

/-- C7, amended. A fetch, a submit or a delete handler of the Announcements, Jobs,
Projects, Activities and Applicants pages, the Dashboard's statistics fetch and a single
`downloadCSV` never have more than one request pending.  The "Download All CSVs" action
issues its four reads without waiting: four requests are pending at once. -/
theorem pending_requests_per_action {β : Type} (env : Env) (bk : Backend β) (w : β) :
    ((∀ s, maxPending (Announcements.fetchAnnouncements env bk ⟨w, s, []⟩).trace ≤ 1) ∧
      (∀ s, maxPending (Jobs.fetchJobs env bk ⟨w, s, []⟩).trace ≤ 1) ∧
      (∀ s, maxPending (Projects.fetchProjects env bk ⟨w, s, []⟩).trace ≤ 1) ∧
      (∀ s, maxPending (Activities.fetchActivities env bk ⟨w, s, []⟩).trace ≤ 1) ∧
      (∀ s, maxPending (Applicants.fetchApplicants env bk ⟨w, s, []⟩).trace ≤ 1)) ∧
    ((∀ s, maxPending (traceOf (Announcements.handleSubmit env bk ⟨w, s, []⟩)) ≤ 1) ∧
      (∀ s, maxPending (traceOf (Jobs.handleSubmit env bk ⟨w, s, []⟩)) ≤ 1) ∧
      (∀ s, maxPending (traceOf (Projects.handleAddSubmit env bk ⟨w, s, []⟩)) ≤ 1) ∧
      (∀ s, maxPending (traceOf (Projects.handleUpdateSubmit env bk ⟨w, s, []⟩)) ≤ 1) ∧
      (∀ s, maxPending (traceOf (Activities.handleAddSubmit env bk ⟨w, s, []⟩)) ≤ 1) ∧
      (∀ s, maxPending (traceOf (Activities.handleUpdateSubmit env bk ⟨w, s, []⟩)) ≤ 1) ∧
      (∀ s, maxPending (traceOf (Applicants.handleUpdateSubmit env bk ⟨w, s, []⟩)) ≤ 1)) ∧
    ((∀ s a c, maxPending (Announcements.handleDelete env bk a c ⟨w, s, []⟩).trace ≤ 1) ∧
      (∀ s a c, maxPending (Jobs.handleDelete env bk a c ⟨w, s, []⟩).trace ≤ 1) ∧
      (∀ s a c, maxPending (Projects.handleDeleteProject env bk a c ⟨w, s, []⟩).trace ≤ 1) ∧
      (∀ s a c, maxPending (Activities.handleDeleteActivity env bk a c ⟨w, s, []⟩).trace ≤ 1) ∧
      (∀ s a c,
        maxPending (Applicants.handleDeleteApplicant env bk a c ⟨w, s, []⟩).trace ≤ 1)) ∧
    ((∀ s, maxPending (Dashboard.fetchData bk ⟨w, s, []⟩).trace ≤ 1) ∧
      (∀ s c f, maxPending (Dashboard.downloadCSV env bk c f ⟨w, s, []⟩).trace ≤ 1)) ∧
    (∀ s, maxPending (Dashboard.downloadAll env bk ⟨w, s, []⟩).trace = 4) := by
  refine ⟨⟨?_, ?_, ?_, ?_, ?_⟩, ⟨?_, ?_, ?_, ?_, ?_, ?_, ?_⟩, ⟨?_, ?_, ?_, ?_, ?_⟩, ⟨?_, ?_⟩, ?_⟩
  · exact fun s => maxPending_le_one_of_sequential _ (announcements_fetch_wellBehaved env bk w s).2
  · exact fun s => maxPending_le_one_of_sequential _ (jobs_fetch_wellBehaved env bk w s).2
  · exact fun s => maxPending_le_one_of_sequential _ (projects_fetch_wellBehaved env bk w s).2
  · exact fun s => maxPending_le_one_of_sequential _ (activities_fetch_wellBehaved env bk w s).2
  · exact fun s => maxPending_le_one_of_sequential _ (applicants_fetch_wellBehaved env bk w s).2
  · exact fun s => maxPending_le_one_of_sequential _ (wellBehaved_traceOf _
      (fun r h => announcements_submit_wellBehaved env bk w s r h)).2
  · exact fun s => maxPending_le_one_of_sequential _ (wellBehaved_traceOf _
      (fun r h => jobs_submit_wellBehaved env bk w s r h)).2
  · exact fun s => maxPending_le_one_of_sequential _ (wellBehaved_traceOf _
      (fun r h => projects_add_wellBehaved env bk w s r h)).2
  · exact fun s => maxPending_le_one_of_sequential _ (wellBehaved_traceOf _
      (fun r h => projects_update_wellBehaved env bk w s r h)).2
  · exact fun s => maxPending_le_one_of_sequential _ (wellBehaved_traceOf _
      (fun r h => activities_add_wellBehaved env bk w s r h)).2
  · exact fun s => maxPending_le_one_of_sequential _ (wellBehaved_traceOf _
      (fun r h => activities_update_wellBehaved env bk w s r h)).2
  · exact fun s => maxPending_le_one_of_sequential _ (wellBehaved_traceOf _
      (fun r h => applicants_update_wellBehaved env bk w s r h)).2
  · exact fun s a c =>
      maxPending_le_one_of_sequential _ (announcements_delete_wellBehaved env bk w s a c).2
  · exact fun s a c =>
      maxPending_le_one_of_sequential _ (jobs_delete_wellBehaved env bk w s a c).2
  · exact fun s a c =>
      maxPending_le_one_of_sequential _ (projects_delete_wellBehaved env bk w s a c).2
  · exact fun s a c =>
      maxPending_le_one_of_sequential _ (activities_delete_wellBehaved env bk w s a c).2
  · exact fun s a c =>
      maxPending_le_one_of_sequential _ (applicants_delete_wellBehaved env bk w s a c).2
  · exact fun s => maxPending_le_one_of_sequential _ (dashboard_fetchData_trace bk w s).2
  · exact fun s c f =>
      maxPending_le_one_of_sequential _ (dashboard_downloadCSV_trace env bk w s c f).2
  · exact fun s => downloadAll_maxPending env bk w s

/-! ## The theorems at concrete inputs -/

/-- The Activities form check at a form with a blank description and a bad link. -/
theorem activities_validateForm_spec_witness :
    (Obj.get activityFormExample "title" = .str "Open day" ∧
      Obj.get activityFormExample "imageUrl" = .str "https://example.com/image.jpg" ∧
      Obj.get activityFormExample "description" = .str "  " ∧
      Obj.get activityFormExample "link" = .str "example") ∧
    ∃ (b : Bool) (errors : Obj), Activities.validateForm activityFormExample = .ok (b, errors) ∧
      (b = true ↔
        trim "Open day" ≠ "" ∧
          (trim "https://example.com/image.jpg" ≠ "" ∧
            urlTest "https://example.com/image.jpg" = true) ∧
          trim "  " ≠ "" ∧ ("example" = "" ∨ urlTest "example" = true)) ∧
      (∀ k, k ∈ Obj.keys errors ↔
        (k = "title" ∧ ¬ trim "Open day" ≠ "") ∨
        (k = "imageUrl" ∧
          ¬ (trim "https://example.com/image.jpg" ≠ "" ∧
            urlTest "https://example.com/image.jpg" = true)) ∨
        (k = "description" ∧ ¬ trim "  " ≠ "") ∨
        (k = "link" ∧ ¬ ("example" = "" ∨ urlTest "example" = true))) ∧
      (∀ k, k ∈ Obj.keys errors → ∃ m, Obj.get errors k = .str m ∧ m ≠ "") :=
  ⟨⟨by decide, by decide, by decide, by decide⟩,
    activities_validateForm_spec activityFormExample "Open day"
      "https://example.com/image.jpg" "  " "example" (by decide) (by decide) (by decide)
      (by decide)⟩

/-- The required-field check of the four pages at forms with an empty field. -/
theorem required_fields_validation_witness :
    ValidatesRequired
      (Announcements.validateForm
        [("title", .str "News"), ("content", .str " "), ("date", .str "")])
      [("title", trim "News" == ""), ("content", trim " " == ""), ("date", "" == "")] ∧
    ValidatesRequired
      (Jobs.validateForm
        [("title", .str ""), ("date", .str "2024-01-01"), ("description", .str "Clerk")])
      [("title", trim "" == ""), ("date", "2024-01-01" == ""),
        ("description", trim "Clerk" == "")] ∧
    ValidatesRequired
      (Projects.validateForm [("title", .str "Wells"), ("description", .str "Water")])
      [("title", trim "Wells" == ""), ("description", trim "Water" == "")] ∧
    ValidatesRequired
      (Applicants.validateForm
        [("fullName", .str "A"), ("cnic", .str "\t"), ("email", .str "a@b.c")])
      [("fullName", trim "A" == ""), ("cnic", trim "\t" == ""), ("email", trim "a@b.c" == "")] :=
  ⟨required_fields_validation.1 _ "News" " " "" (by decide) (by decide) (by decide),
    required_fields_validation.2.1 _ "" "2024-01-01" "Clerk" (by decide) (by decide) (by decide),
    required_fields_validation.2.2.1 _ "Wells" "Water" (by decide) (by decide),
    required_fields_validation.2.2.2 _ "A" "\t" "a@b.c" (by decide) (by decide) (by decide)⟩

/-- The submit handlers at the empty forms of the initial states. -/
theorem invalid_submit_only_sets_errors_witness :
    (Announcements.validateForm announcementsInit.formData =
        .ok (false, [("title", .str "Title is required"),
          ("content", .str "Content is required")]) ∧
      Announcements.handleSubmit exampleEnv (constBackend []) ⟨(), announcementsInit, []⟩ =
        .ok ⟨(), { announcementsInit with formErrors := [("title", .str "Title is required"),
          ("content", .str "Content is required")] }, []⟩) ∧
    (Jobs.handleSubmit exampleEnv (constBackend []) ⟨(), jobsInit, []⟩ =
      .ok ⟨(), { jobsInit with formErrors := [("title", .str "Title is required"),
        ("description", .str "Description is required")] }, []⟩) ∧
    (Activities.handleAddSubmit exampleEnv (constBackend []) ⟨(), activitiesInit, []⟩ =
        .ok ⟨(), { activitiesInit with formErrors := [("title", .str "Title is required"),
          ("imageUrl", .str "Image URL is required"),
          ("description", .str "Description is required")] }, []⟩ ∧
      Activities.handleUpdateSubmit exampleEnv (constBackend []) ⟨(), activitiesInit, []⟩ =
        .ok ⟨(), { activitiesInit with formErrors := [("title", .str "Title is required"),
          ("imageUrl", .str "Image URL is required"),
          ("description", .str "Description is required")] }, []⟩) ∧
    (Projects.handleAddSubmit exampleEnv (constBackend []) ⟨(), projectsInit, []⟩ =
        .ok ⟨(), { projectsInit with formErrors := [("title", .str "Title is required"),
          ("description", .str "Description is required")] }, []⟩ ∧
      Projects.handleUpdateSubmit exampleEnv (constBackend []) ⟨(), projectsInit, []⟩ =
        .ok ⟨(), { projectsInit with formErrors := [("title", .str "Title is required"),
          ("description", .str "Description is required")] }, []⟩) ∧
    (Applicants.handleUpdateSubmit exampleEnv (constBackend [])
        ⟨(), applicantsInit "Trainer", []⟩ =
      .ok ⟨(), { applicantsInit "Trainer" with
        formErrors := [("fullName", .str "Full name is required"),
          ("cnic", .str "CNIC is required"), ("email", .str "Email is required")] }, []⟩) :=
  ⟨⟨rfl,
      (invalid_submit_only_sets_errors exampleEnv (constBackend [])).1
        ⟨(), announcementsInit, []⟩ _ rfl⟩,
    (invalid_submit_only_sets_errors exampleEnv (constBackend [])).2.1
      ⟨(), jobsInit, []⟩ _ rfl,
    (invalid_submit_only_sets_errors exampleEnv (constBackend [])).2.2.1
      ⟨(), activitiesInit, []⟩ _ rfl,
    (invalid_submit_only_sets_errors exampleEnv (constBackend [])).2.2.2.1
      ⟨(), projectsInit, []⟩ _ rfl,
    (invalid_submit_only_sets_errors exampleEnv (constBackend [])).2.2.2.2
      ⟨(), applicantsInit "Trainer", []⟩ _ rfl⟩

/-- The stored lists of the three pages for two documents fetched oldest first. -/
theorem stored_list_newest_first_witness :
    ((Announcements.fetchStore exampleEnv datedDocs
        (⟨(), announcementsInit, []⟩ : Run Unit Announcements.State)).page.announcements.map
          (Announcements.sortKey exampleEnv) = [some 2000, some 1000] ∧
      SortedDesc (Announcements.sortKey exampleEnv)
        (Announcements.fetchStore exampleEnv datedDocs
          (⟨(), announcementsInit, []⟩ : Run Unit Announcements.State)).page.announcements) ∧
    SortedDesc (Activities.sortKey exampleEnv)
      (Activities.fetchStore exampleEnv datedDocs
        (⟨(), activitiesInit, []⟩ : Run Unit Activities.State)).page.activities ∧
    SortedDesc (Projects.sortKey exampleEnv)
      (Projects.fetchStore exampleEnv datedDocs
        (⟨(), projectsInit, []⟩ : Run Unit Projects.State)).page.projects :=
  ⟨⟨by decide,
      ((stored_list_newest_first exampleEnv).1 datedDocs ⟨(), announcementsInit, []⟩
        (by decide)).2.1⟩,
    ((stored_list_newest_first exampleEnv).2.1 datedDocs ⟨(), activitiesInit, []⟩
      (by decide)).2.1,
    ((stored_list_newest_first exampleEnv).2.2 datedDocs ⟨(), projectsInit, []⟩
      (by decide)).2.1⟩

/-- The applicants fetch at the two documents of `twoApplicants`. -/
theorem applicants_list_in_database_order_witness :
    (constBackend twoApplicants).getDocs () (applicantsInit "Trainer").activeCollection
        (some ("createdAt", "desc")) = (.ok twoApplicants, ()) ∧
    (Applicants.fetchApplicants exampleEnv (constBackend twoApplicants)
        ⟨(), applicantsInit "Trainer", []⟩).page.applicants =
      twoApplicants.map (Applicants.mapDoc exampleEnv "Trainer") :=
  ⟨rfl, (applicants_list_in_database_order exampleEnv (constBackend twoApplicants) () ()
    (applicantsInit "Trainer") twoApplicants rfl).1⟩

/-! ## Searching a list -/

theorem orElseE_false_right (a : Except JSError Bool) : orElseE a (.ok false) = a := by
  cases a with
  | error e => rfl
  | ok b => cases b <;> rfl

theorem filterE_total {α : Type} (p : α → Except JSError Bool) (q : α → Bool) :
    ∀ l : List α, (∀ a ∈ l, p a = .ok (q a)) → filterE p l = .ok (l.filter q)
  | [], _ => rfl
  | a :: l, h => by
    have ha := h a (List.mem_cons_self _ _)
    have hl := filterE_total p q l (fun b hb => h b (List.mem_cons_of_mem _ hb))
    simp only [filterE, ha, hl, List.filter_cons]

theorem optLowerIncludes_of_stringOrMissing (env : Env) (v : JSVal) (t : String)
    (h : StringOrMissing v) : optLowerIncludes env v t = .ok (fieldMatches env t v) := by
  rcases h with ⟨s, rfl⟩ | rfl | rfl <;> rfl

/-- The callback of a search filter over the fields `fs`, for a record whose fields are
strings or missing. -/
theorem orElseE_fields (env : Env) (t : String) (r : Obj) :
    ∀ fs : List String, (∀ f ∈ fs, StringOrMissing (r.get f)) →
      fs.foldr (fun f acc => orElseE (optLowerIncludes env (r.get f) t) acc) (.ok false) =
        .ok (fs.any (fun f => fieldMatches env t (r.get f)))
  | [], _ => rfl
  | f :: fs, h => by
    have hf := optLowerIncludes_of_stringOrMissing env (r.get f) t (h f (List.mem_cons_self _ _))
    have ih := orElseE_fields env t r fs (fun g hg => h g (List.mem_cons_of_mem _ hg))
    simp only [List.foldr_cons, hf, ih, List.any_cons]
    cases fieldMatches env t (r.get f) <;> rfl

theorem includesChars_nil (s : List Char) : includesChars s [] = true := by
  cases s <;> simp [includesChars, List.tails]

theorem fieldMatches_empty (env : Env) (h : env.toLowerCase "" = "") (v : JSVal) :
    fieldMatches env (env.toLowerCase "") v = (match v with
      | .str _ => true
      | _ => false) := by
  cases v <;> simp [fieldMatches, h, includes, includesChars_nil]

theorem recordMatches_empty (env : Env) (h : env.toLowerCase "" = "") (fields : List String)
    (r : Obj) : recordMatches env fields "" r = hasStringField fields r := by
  unfold recordMatches hasStringField
  congr 1
  funext f
  exact fieldMatches_empty env h (r.get f)

theorem recordMatches_hasStringField (env : Env) (fields : List String) (term : String)
    (r : Obj) (h : recordMatches env fields term r = true) : hasStringField fields r = true := by
  unfold recordMatches at h
  unfold hasStringField
  rw [List.any_eq_true] at h ⊢
  obtain ⟨f, hf, hm⟩ := h
  refine ⟨f, hf, ?_⟩
  cases hv : r.get f <;> simp [fieldMatches, hv] at hm ⊢

theorem jobs_filter_eq (env : Env) (s : Jobs.State)
    (h : ∀ r ∈ s.jobs, ∀ f ∈ ["title", "description"], StringOrMissing (r.get f)) :
    Jobs.filteredJobs env s =
      .ok (s.jobs.filter (recordMatches env ["title", "description"] s.searchTerm)) := by
  unfold Jobs.filteredJobs
  refine filterE_total _ _ _ (fun r hr => ?_)
  have := orElseE_fields env (env.toLowerCase s.searchTerm) r _ (h r hr)
  simpa only [List.foldr_cons, List.foldr_nil, orElseE_false_right] using this

theorem projects_filter_eq (env : Env) (s : Projects.State)
    (h : ∀ r ∈ s.projects, ∀ f ∈ ["title", "type", "sector", "description"],
      StringOrMissing (r.get f)) :
    Projects.filteredProjects env s =
      .ok (s.projects.filter
        (recordMatches env ["title", "type", "sector", "description"] s.searchTerm)) := by
  unfold Projects.filteredProjects
  refine filterE_total _ _ _ (fun r hr => ?_)
  have := orElseE_fields env (env.toLowerCase s.searchTerm) r _ (h r hr)
  simpa only [List.foldr_cons, List.foldr_nil, orElseE_false_right] using this

theorem activities_filter_eq (env : Env) (s : Activities.State)
    (h : ∀ r ∈ s.activities, ∀ f ∈ ["title", "category", "description"],
      StringOrMissing (r.get f)) :
    Activities.filteredActivities env s =
      .ok (s.activities.filter
        (recordMatches env ["title", "category", "description"] s.searchTerm)) := by
  unfold Activities.filteredActivities
  refine filterE_total _ _ _ (fun r hr => ?_)
  have := orElseE_fields env (env.toLowerCase s.searchTerm) r _ (h r hr)
  simpa only [List.foldr_cons, List.foldr_nil, orElseE_false_right] using this

theorem applicants_filter_eq (env : Env) (s : Applicants.State)
    (h : ∀ r ∈ s.applicants, ∀ f ∈ ["fullName", "email", "cnic", "district"],
      StringOrMissing (r.get f)) :
    Applicants.filteredApplicants env s =
      .ok (s.applicants.filter
        (recordMatches env ["fullName", "email", "cnic", "district"] s.searchTerm)) := by
  unfold Applicants.filteredApplicants
  refine filterE_total _ _ _ (fun r hr => ?_)
  have := orElseE_fields env (env.toLowerCase s.searchTerm) r _ (h r hr)
  simpa only [List.foldr_cons, List.foldr_nil, orElseE_false_right] using this

theorem emptyTermFilter_of_eq (env : Env) (henv : env.toLowerCase "" = "")
    (fields : List String) (list : List Obj) (filtered : String → Except JSError (List Obj))
    (h : ∀ term, filtered term = .ok (list.filter (recordMatches env fields term))) :
    EmptyTermFilter fields list filtered := by
  have h0 : filtered "" = .ok (list.filter (hasStringField fields)) := by
    rw [h ""]
    congr 2
    funext r
    exact recordMatches_empty env henv fields r
  refine ⟨h0, ?_, ?_⟩
  · intro term
    refine ⟨_, h term, ?_⟩
    intro r hr
    rw [List.mem_filter] at hr
    exact ⟨hr.1, recordMatches_hasStringField env fields term r hr.2⟩
  · rw [h0]
    simp only [Except.ok.injEq, List.filter_eq_self]

/-- C21. On the Jobs, Projects, Activities and Applicants pages, with records whose
searched fields are strings or missing: for the empty search term the filtered list is the
sub-list of the records that have a string in at least one searched field; a record that
lacks every searched field is displayed for no search term; and the filtered list for the
empty term is the full list exactly when every record has a searched field. -/
theorem empty_search_drops_records_without_fields (env : Env)
    (henv : env.toLowerCase "" = "") :
    (∀ s : Jobs.State,
      (∀ r ∈ s.jobs, ∀ f ∈ ["title", "description"], StringOrMissing (r.get f)) →
      EmptyTermFilter ["title", "description"] s.jobs
        (fun term => Jobs.filteredJobs env { s with searchTerm := term })) ∧
    (∀ s : Projects.State,
      (∀ r ∈ s.projects, ∀ f ∈ ["title", "type", "sector", "description"],
        StringOrMissing (r.get f)) →
      EmptyTermFilter ["title", "type", "sector", "description"] s.projects
        (fun term => Projects.filteredProjects env { s with searchTerm := term })) ∧
    (∀ s : Activities.State,
      (∀ r ∈ s.activities, ∀ f ∈ ["title", "category", "description"],
        StringOrMissing (r.get f)) →
      EmptyTermFilter ["title", "category", "description"] s.activities
        (fun term => Activities.filteredActivities env { s with searchTerm := term })) ∧
    (∀ s : Applicants.State,
      (∀ r ∈ s.applicants, ∀ f ∈ ["fullName", "email", "cnic", "district"],
        StringOrMissing (r.get f)) →
      EmptyTermFilter ["fullName", "email", "cnic", "district"] s.applicants
        (fun term => Applicants.filteredApplicants env { s with searchTerm := term })) := by
  refine ⟨?_, ?_, ?_, ?_⟩
  · intro s h
    exact emptyTermFilter_of_eq env henv _ _ _
      (fun term => jobs_filter_eq env { s with searchTerm := term } h)
  · intro s h
    exact emptyTermFilter_of_eq env henv _ _ _
      (fun term => projects_filter_eq env { s with searchTerm := term } h)
  · intro s h
    exact emptyTermFilter_of_eq env henv _ _ _
      (fun term => activities_filter_eq env { s with searchTerm := term } h)
  · intro s h
    exact emptyTermFilter_of_eq env henv _ _ _
      (fun term => applicants_filter_eq env { s with searchTerm := term } h)

/-- The Jobs filter at a list whose second job has no title and no description: with the
empty search term only the first job is displayed. -/
theorem empty_search_drops_records_without_fields_witness :
    exampleEnv.toLowerCase "" = "" ∧
    (∀ r ∈ jobsBlankState.jobs, ∀ f ∈ ["title", "description"], StringOrMissing (r.get f)) ∧
    EmptyTermFilter ["title", "description"] jobsBlankState.jobs
      (fun term => Jobs.filteredJobs exampleEnv { jobsBlankState with searchTerm := term }) ∧
    jobsBlankState.jobs.filter (hasStringField ["title", "description"]) =
      [[("id", .str "j1"), ("title", .str "Clerk")]] := by
  have hfields : ∀ r ∈ jobsBlankState.jobs, ∀ f ∈ ["title", "description"],
      StringOrMissing (r.get f) := by
    intro r hr f hf
    have hr' : r ∈ jobsWithBlank := hr
    simp only [jobsWithBlank, List.mem_cons, List.mem_singleton, List.not_mem_nil,
      or_false] at hr' hf
    rcases hr' with rfl | rfl <;> rcases hf with rfl | rfl
    · exact Or.inl ⟨"Clerk", by decide⟩
    · exact Or.inr (Or.inl (by decide))
    · exact Or.inr (Or.inl (by decide))
    · exact Or.inr (Or.inl (by decide))
  exact ⟨by decide, hfields,
    (empty_search_drops_records_without_fields exampleEnv (by decide)).1 jobsBlankState hfields,
    by decide⟩

/-! ## Announcements without a title -/

/-- C22, at a fetched announcement that has no `title` field.  The record the page lists
for it has no title; computing `filteredAnnouncements` raises a TypeError for every search
term, because the callback reads `announcement.title.toLowerCase()`; and the form that
`handleModalShow` fills from the record has an undefined title, on which `validateForm`
raises a TypeError instead of returning a boolean. -/
theorem announcement_without_title_raises :
    Announcements.mapDoc exampleEnv untitledDoc = untitledRecord ∧
    (∀ term : String,
      Announcements.filteredAnnouncements exampleEnv
        { announcementsInit with announcements := [untitledRecord], searchTerm := term } =
        .error typeError) ∧
    (∃ s, Announcements.handleModalShow exampleEnv (some untitledRecord) announcementsInit =
        .ok s ∧
      s.formData = [("title", .undefined), ("content", .str "Office closed"),
        ("date", .str "1970-01-01")] ∧
      Announcements.validateForm s.formData = .error typeError) := by
  refine ⟨by decide, fun term => rfl, ⟨_, rfl, rfl, rfl⟩⟩

/-! ## The CSV export -/

theorem mapM_loop_ok {α β ε : Type} (f : α → Except ε β) (g : α → β) :
    ∀ (l : List α) (acc : List β), (∀ a ∈ l, f a = .ok (g a)) →
      List.mapM.loop f l acc = .ok (acc.reverse ++ l.map g)
  | [], acc, _ => by simp [List.mapM.loop, pure, Except.pure]
  | a :: l, acc, h => by
    have ha := h a (List.mem_cons_self _ _)
    have ih := mapM_loop_ok f g l (g a :: acc) (fun b hb => h b (List.mem_cons_of_mem _ hb))
    simp only [List.mapM.loop, ha, bind, Except.bind, ih]
    simp

theorem mapM_ok {α β ε : Type} (f : α → Except ε β) (g : α → β) (l : List α)
    (h : ∀ a ∈ l, f a = .ok (g a)) : l.mapM f = .ok (l.map g) := by
  have := mapM_loop_ok f g l [] h
  simpa [List.mapM] using this

theorem intercalate_go_data (s : String) : ∀ (l : List String) (acc : String),
    (String.intercalate.go acc s l).data =
      acc.data ++ (l.map (fun a => s.data ++ a.data)).flatten
  | [], acc => by simp [String.intercalate.go]
  | a :: l, acc => by
    simp [String.intercalate.go, intercalate_go_data s l, String.data_append]

theorem joinTail_eq (es : List (List Char)) :
    joinTail es = (es.map (fun e => ',' :: e)).flatten ++ ['\n'] := by
  induction es with
  | nil => rfl
  | cons e es ih => simp [joinTail, ih]

theorem row_data (cells : List String) :
    (",".intercalate cells ++ "\n").data = rowChars (cells.map String.data) := by
  cases cells with
  | nil => rfl
  | cons a as =>
    have hc : (",".data : List Char) = [','] := rfl
    have hn : ("\n".data : List Char) = ['\n'] := rfl
    simp only [String.intercalate, String.data_append, intercalate_go_data, List.map_cons,
      rowChars, joinTail_eq, List.map_map, hc, hn]
    simp [Function.comp_def]

theorem mem_dqChars (c : Char) (l : List Char) : c ∈ dqChars l ↔ c ∈ l := by
  induction l with
  | nil => simp [dqChars]
  | cons x xs ih =>
    have e : dqChars (x :: xs) = (if x = '"' then ['"', '"'] else [x]) ++ dqChars xs := by
      simp [dqChars]
    rw [e, List.mem_append, ih, List.mem_cons]
    by_cases hx : x = '"'
    · subst hx; simp
    · simp [hx]

theorem specialChars_dqChars (l : List Char) : specialChars (dqChars l) = specialChars l := by
  have h : ∀ c : Char, (dqChars l).contains c = l.contains c := by
    intro c
    rw [Bool.eq_iff_iff]
    simp [mem_dqChars]
  simp only [specialChars, h]

theorem dqChars_eq_self (l : List Char) (h : '"' ∉ l) : dqChars l = l := by
  induction l with
  | nil => rfl
  | cons x xs ih =>
    have hx : x ≠ '"' := fun e => h (e ▸ List.mem_cons_self _ _)
    have hxs : '"' ∉ xs := fun e => h (List.mem_cons_of_mem _ e)
    have e : dqChars (x :: xs) = (if x = '"' then ['"', '"'] else [x]) ++ dqChars xs := by
      simp [dqChars]
    rw [e, ih hxs, if_neg hx]
    rfl

theorem startsWithSeparator_joinTail (es : List (List Char)) :
    StartsWithSeparator (joinTail es) := by
  cases es with
  | nil => exact ⟨'\n', [], rfl, Or.inr rfl⟩
  | cons e es => exact ⟨',', _, rfl, Or.inl rfl⟩

theorem plain_append_inj : ∀ (c c' t t' : List Char),
    (∀ x ∈ c, x ≠ ',' ∧ x ≠ '\n') → (∀ x ∈ c', x ≠ ',' ∧ x ≠ '\n') →
    StartsWithSeparator t → StartsWithSeparator t' → c ++ t = c' ++ t' → c = c' ∧ t = t'
  | [], [], t, t', _, _, _, _, h => ⟨rfl, h⟩
  | [], y :: ys, t, t', _, hc', ht, _, h => by
    obtain ⟨d, rest, rfl, hd⟩ := ht
    simp only [List.nil_append, List.cons_append, List.cons.injEq] at h
    have := hc' y (List.mem_cons_self _ _)
    rw [← h.1] at this
    rcases hd with rfl | rfl
    · exact absurd rfl this.1
    · exact absurd rfl this.2
  | x :: xs, [], t, t', hc, _, _, ht', h => by
    obtain ⟨d, rest, rfl, hd⟩ := ht'
    simp only [List.nil_append, List.cons_append, List.cons.injEq] at h
    have := hc x (List.mem_cons_self _ _)
    rw [h.1] at this
    rcases hd with rfl | rfl
    · exact absurd rfl this.1
    · exact absurd rfl this.2
  | x :: xs, y :: ys, t, t', hc, hc', ht, ht', h => by
    simp only [List.cons_append, List.cons.injEq] at h
    obtain ⟨rfl, h2⟩ := h
    have ih := plain_append_inj xs ys t t' (fun z hz => hc z (List.mem_cons_of_mem _ hz))
      (fun z hz => hc' z (List.mem_cons_of_mem _ hz)) ht ht' h2
    exact ⟨by rw [ih.1], ih.2⟩

theorem dqChars_cons (x : Char) (xs : List Char) :
    dqChars (x :: xs) = (if x = '"' then ['"', '"'] else [x]) ++ dqChars xs := by
  simp [dqChars]

theorem quote_not_separator {t : List Char} (ht : StartsWithSeparator t) (rest : List Char) :
    t ≠ '"' :: rest := by
  obtain ⟨d, r, rfl, hd⟩ := ht
  intro h
  simp only [List.cons.injEq] at h
  rcases hd with rfl | rfl
  · exact absurd h.1 (by decide)
  · exact absurd h.1 (by decide)

theorem quoted_append_inj : ∀ (c c' t t' : List Char),
    StartsWithSeparator t → StartsWithSeparator t' →
    dqChars c ++ '"' :: t = dqChars c' ++ '"' :: t' → c = c' ∧ t = t'
  | [], [], t, t', _, _, h => by
    simp only [dqChars, List.flatMap_nil, List.nil_append, List.cons.injEq, true_and] at h
    exact ⟨rfl, h⟩
  | [], y :: ys, t, t', ht, _, h => by
    rw [dqChars_cons] at h
    by_cases hy : y = '"'
    · simp only [hy, if_true, dqChars, List.flatMap_nil, List.nil_append, List.cons_append,
        List.cons.injEq, true_and] at h
      exact absurd h (quote_not_separator ht _)
    · simp only [hy, if_false, dqChars, List.flatMap_nil, List.nil_append, List.cons_append,
        List.cons.injEq] at h
      exact absurd h.1.symm hy
  | x :: xs, [], t, t', _, ht', h => by
    rw [dqChars_cons] at h
    by_cases hx : x = '"'
    · simp only [hx, if_true, dqChars, List.flatMap_nil, List.nil_append, List.cons_append,
        List.cons.injEq, true_and] at h
      exact absurd h.symm (quote_not_separator ht' _)
    · simp only [hx, if_false, dqChars, List.flatMap_nil, List.nil_append, List.cons_append,
        List.cons.injEq] at h
      exact h.1.elim
  | x :: xs, y :: ys, t, t', ht, ht', h => by
    rw [dqChars_cons, dqChars_cons] at h
    by_cases hx : x = '"' <;> by_cases hy : y = '"'
    · simp only [hx, hy, if_true, List.cons_append, List.nil_append, List.cons.injEq,
        true_and] at h
      have ih := quoted_append_inj xs ys t t' ht ht' h
      exact ⟨by rw [hx, hy, ih.1], ih.2⟩
    · simp only [hx, hy, if_true, if_false, List.cons_append, List.nil_append,
        List.cons.injEq] at h
      exact absurd h.1.symm hy
    · simp only [hx, hy, if_true, if_false, List.cons_append, List.nil_append,
        List.cons.injEq] at h
      exact h.1.elim
    · simp only [hx, hy, if_false, List.cons_append, List.nil_append, List.cons.injEq] at h
      have ih := quoted_append_inj xs ys t t' ht ht' h.2
      exact ⟨by rw [h.1, ih.1], ih.2⟩

theorem not_special {l : List Char} (h : specialChars l = false) :
    ',' ∉ l ∧ '"' ∉ l ∧ '\n' ∉ l := by
  have h' : (',' ∉ l ∧ '"' ∉ l) ∧ '\n' ∉ l := by simpa [specialChars] using h
  exact ⟨h'.1.1, h'.1.2, h'.2⟩

theorem encChars_append_inj (c c' t t' : List Char) (ht : StartsWithSeparator t)
    (ht' : StartsWithSeparator t') (h : encChars c ++ t = encChars c' ++ t') :
    c = c' ∧ t = t' := by
  unfold encChars at h
  rw [specialChars_dqChars, specialChars_dqChars] at h
  cases hc : specialChars c <;> cases hc' : specialChars c'
  · have n := not_special hc
    have n' := not_special hc'
    simp only [hc, hc', Bool.false_eq_true, if_false, dqChars_eq_self c n.2.1,
      dqChars_eq_self c' n'.2.1] at h
    exact plain_append_inj c c' t t'
      (fun x hx => ⟨fun e => n.1 (e ▸ hx), fun e => n.2.2 (e ▸ hx)⟩)
      (fun x hx => ⟨fun e => n'.1 (e ▸ hx), fun e => n'.2.2 (e ▸ hx)⟩) ht ht' h
  · exfalso
    have n := not_special hc
    simp only [hc, hc', Bool.false_eq_true, if_false, if_true, dqChars_eq_self c n.2.1,
      List.cons_append] at h
    cases c with
    | nil => exact quote_not_separator ht _ h
    | cons x xs =>
      simp only [List.cons_append, List.cons.injEq] at h
      exact n.2.1 (h.1 ▸ List.mem_cons_self _ _)
  · exfalso
    have n' := not_special hc'
    simp only [hc, hc', Bool.false_eq_true, if_false, if_true, dqChars_eq_self c' n'.2.1,
      List.cons_append] at h
    cases c' with
    | nil => exact quote_not_separator ht' _ h.symm
    | cons x xs =>
      simp only [List.cons_append, List.cons.injEq] at h
      exact n'.2.1 (h.1 ▸ List.mem_cons_self _ _)
  · simp only [hc, hc', if_true, List.cons_append, List.cons.injEq, true_and,
      List.append_assoc, List.nil_append] at h
    exact quoted_append_inj c c' t t' ht ht' h

theorem joinTail_inj : ∀ (cs cs' : List (List Char)),
    joinTail (cs.map encChars) = joinTail (cs'.map encChars) → cs = cs'
  | [], [], _ => rfl
  | [], c :: cs, h => by simp [joinTail] at h
  | c :: cs, [], h => by simp [joinTail] at h
  | c :: cs, c' :: cs', h => by
    simp only [List.map_cons, joinTail, List.cons.injEq, true_and] at h
    have := encChars_append_inj c c' _ _ (startsWithSeparator_joinTail _)
      (startsWithSeparator_joinTail _) h
    rw [this.1, joinTail_inj cs cs' this.2]

theorem rowChars_inj (cs cs' : List (List Char)) (hlen : cs.length = cs'.length)
    (h : rowChars (cs.map encChars) = rowChars (cs'.map encChars)) : cs = cs' := by
  cases cs with
  | nil =>
    cases cs' with
    | nil => rfl
    | cons c' cs' => simp at hlen
  | cons c cs =>
    cases cs' with
    | nil => simp at hlen
    | cons c' cs' =>
      simp only [List.map_cons, rowChars] at h
      have := encChars_append_inj c c' _ _ (startsWithSeparator_joinTail _)
        (startsWithSeparator_joinTail _) h
      rw [this.1, joinTail_inj cs cs' this.2]

theorem doubleQuotes_data (s : String) : (Dashboard.doubleQuotes s).data = dqChars s.data := rfl

theorem encCell_data (s : String) : (encCell s).data = encChars s.data := by
  unfold encCell encChars
  rw [doubleQuotes_data]
  split
  · simp only [String.data_append, doubleQuotes_data]
    rfl
  · exact doubleQuotes_data s

theorem csvCell_of_toString (env : Env) (item : Obj) (header s : String)
    (hv : item.get header ≠ .undefined)
    (hs : Dashboard.cellToString env (item.get header) = .ok s) :
    Dashboard.csvCell env item header = .ok (encCell s) := by
  unfold Dashboard.csvCell encCell specialChars
  simp only [hv, ne_eq, not_false_eq_true, if_true, hs, bind, Except.bind, pure, Except.pure]
  split <;> rfl

theorem csvCell_undefined (env : Env) (item : Obj) (header : String)
    (hv : item.get header = .undefined) : Dashboard.csvCell env item header = .ok "" := by
  unfold Dashboard.csvCell
  simp only [hv, ne_eq, not_true_eq_false, if_false, Dashboard.cellToString, bind, Except.bind]
  rfl

theorem csvRow_of_strings (env : Env) (headers : List String) (item : Obj)
    (h : ∀ k ∈ headers, ∃ s, item.get k = .str s) :
    Dashboard.csvRow env headers item =
      .ok (",".intercalate (headers.map (fun k => encCell (strOf (item.get k)))) ++ "\n") := by
  unfold Dashboard.csvRow
  have hm : headers.mapM (Dashboard.csvCell env item) =
      .ok (headers.map (fun k => encCell (strOf (item.get k)))) := by
    refine mapM_ok _ _ _ (fun k hk => ?_)
    obtain ⟨s, hs⟩ := h k hk
    rw [csvCell_of_toString env item k s (by rw [hs]; exact fun e => JSVal.noConfusion e)
      (by rw [hs]; rfl), hs]
    rfl
  simp only [hm, bind, Except.bind, pure, Except.pure]

/-- C23. For a fixed list of headers and two records whose values under those headers
are strings, `convertToCSV` emits a line for each of them, and when the records differ in
the value of some header the two lines differ. -/
theorem csv_row_injective (env : Env) (headers : List String) (a b : Obj)
    (ha : ∀ k ∈ headers, ∃ s, a.get k = .str s) (hb : ∀ k ∈ headers, ∃ s, b.get k = .str s)
    (hdiff : ∃ k ∈ headers, a.get k ≠ b.get k) :
    ∃ la lb, Dashboard.csvRow env headers a = .ok la ∧
      Dashboard.csvRow env headers b = .ok lb ∧ la ≠ lb := by
  refine ⟨_, _, csvRow_of_strings env headers a ha, csvRow_of_strings env headers b hb, ?_⟩
  intro heq
  have hd := congrArg String.data heq
  rw [row_data, row_data] at hd
  simp only [List.map_map] at hd
  have e1 : ∀ (o : Obj), (List.map (String.data ∘ fun k => encCell (strOf (o.get k))) headers) =
      (headers.map (fun k => (strOf (o.get k)).data)).map encChars := by
    intro o
    simp [Function.comp_def, encCell_data]
  rw [e1 a, e1 b] at hd
  have hcells := rowChars_inj _ _ (by simp) hd
  obtain ⟨k, hk, hne⟩ := hdiff
  apply hne
  obtain ⟨s, hs⟩ := ha k hk
  obtain ⟨s', hs'⟩ := hb k hk
  have hk' := List.map_inj_left.mp hcells k hk
  rw [hs, hs'] at hk' ⊢
  simp only [strOf] at hk'
  rw [String.ext hk']

/-- The lines of two records that differ in one quoted value. -/
theorem csv_row_injective_witness :
    (∀ k ∈ ["name", "note"], ∃ s, csvRecordA.get k = .str s) ∧
    (∀ k ∈ ["name", "note"], ∃ s, csvRecordB.get k = .str s) ∧
    (∃ k ∈ ["name", "note"], csvRecordA.get k ≠ csvRecordB.get k) ∧
    ∃ la lb, Dashboard.csvRow exampleEnv ["name", "note"] csvRecordA = .ok la ∧
      Dashboard.csvRow exampleEnv ["name", "note"] csvRecordB = .ok lb ∧ la ≠ lb := by
  have ha : ∀ k ∈ ["name", "note"], ∃ s, csvRecordA.get k = .str s := by
    intro k hk
    simp only [List.mem_cons, List.mem_singleton, List.not_mem_nil, or_false] at hk
    rcases hk with rfl | rfl
    · exact ⟨_, rfl⟩
    · exact ⟨_, rfl⟩
  have hb : ∀ k ∈ ["name", "note"], ∃ s, csvRecordB.get k = .str s := by
    intro k hk
    simp only [List.mem_cons, List.mem_singleton, List.not_mem_nil, or_false] at hk
    rcases hk with rfl | rfl
    · exact ⟨_, rfl⟩
    · exact ⟨_, rfl⟩
  have hd : ∃ k ∈ ["name", "note"], csvRecordA.get k ≠ csvRecordB.get k :=
    ⟨"note", by simp, by decide⟩
  exact ⟨ha, hb, hd, csv_row_injective exampleEnv ["name", "note"] csvRecordA csvRecordB ha hb hd⟩

/-! ## The numeric timestamp and the sort key of a job -/

/-- C12, at two records with equal date keys.  The stored lists of announcements and of
jobs keep the fetched order, the record with the smaller numeric `timestamp` in front: the
comparators never read the field. -/
theorem timestamp_is_not_a_sort_key :
    (Announcements.fetchStore exampleEnv tiedDocs
        (⟨(), announcementsInit, []⟩ : Run Unit Announcements.State)).page.announcements.map
          (fun a => (a.get "id", Announcements.sortKey exampleEnv a, a.get "timestamp")) =
      [(.str "a1", some 1000, .num 1), (.str "a2", some 1000, .num 2)] ∧
    (Jobs.fetchStore exampleEnv tiedDocs
        (⟨(), jobsInit, []⟩ : Run Unit Jobs.State)).page.jobs.map
          (fun a => (a.get "id", Jobs.sortKey exampleEnv a, a.get "timestamp")) =
      [(.str "a1", some 1000, .num 1), (.str "a2", some 1000, .num 2)] := by
  decide

/-- C13, at a job whose `createdAt` is a number and whose `date` is a database timestamp.
The key of that job is the instant of `date` (1000), not the instant of `createdAt`
(5000), and the job is stored after a job created at 3000. -/
theorem job_key_prefers_timestamp_date :
    Jobs.sortKey exampleEnv
        [("id", .str "j1"), ("title", .str "Clerk"), ("createdAt", .num 5000),
          ("date", .timestamp (some 1000))] = some 1000 ∧
    (Jobs.fetchStore exampleEnv mixedJobs
        (⟨(), jobsInit, []⟩ : Run Unit Jobs.State)).page.jobs.map
          (fun a => (a.get "id", a.get "createdAt", Jobs.sortKey exampleEnv a)) =
      [(.str "j2", .timestamp (some 3000), some 3000), (.str "j1", .num 5000, some 1000)] := by
  decide

/-! ## The authentication gate -/

/-- The children are rendered with no signed-in user: after the listener reported `null`
the user is `null` and `AuthProvider` renders its children. -/
theorem children_rendered_without_user :
    (AuthContext.authStateChanged none authInit).currentUser = none ∧
    AuthContext.childrenRendered (AuthContext.authStateChanged none authInit) = true := by
  decide

/-- C16, amended. `AuthProvider` renders its children exactly when `loading` is false,
whatever `currentUser` is: not before the first report of the authentication state, and
always after a report, with a user or with `null`. -/
theorem children_rendered_iff_not_loading :
    (∀ s : AuthContext.State, AuthContext.childrenRendered s = true ↔ s.loading = false) ∧
    (∀ (user : Option Obj) (s : AuthContext.State),
      AuthContext.childrenRendered (AuthContext.authStateChanged user s) = true ∧
        (AuthContext.authStateChanged user s).currentUser = user) ∧
    AuthContext.childrenRendered authInit = false := by
  refine ⟨?_, ?_, rfl⟩
  · intro s
    simp [AuthContext.childrenRendered]
  · intro user s
    exact ⟨rfl, rfl⟩

/-! ## Editing a field of a form -/

theorem Obj.get_set_eq (o : Obj) (k : String) (v : JSVal) : Obj.get (Obj.set o k v) k = v := by
  induction o with
  | nil => simp [Obj.set, Obj.get, List.lookup]
  | cons p o ih =>
    obtain ⟨k1, v1⟩ := p
    by_cases h : k1 = k
    · simp [Obj.set, h, Obj.get, List.lookup]
    · have hb : (k == k1) = false := by simpa using fun e => h e.symm
      simp only [Obj.set, h, if_false, Obj.get, List.lookup, hb]
      exact ih

theorem Obj.get_set_ne (o : Obj) (k k2 : String) (v : JSVal) (hne : k2 ≠ k) :
    Obj.get (Obj.set o k v) k2 = Obj.get o k2 := by
  induction o with
  | nil =>
    have hb : (k2 == k) = false := by simpa using hne
    simp [Obj.set, Obj.get, List.lookup, hb]
  | cons p o ih =>
    obtain ⟨k1, v1⟩ := p
    by_cases h : k1 = k
    · subst h
      have hb : (k2 == k1) = false := by simpa using hne
      simp [Obj.set, Obj.get, List.lookup, hb]
    · simp only [Obj.set, h, if_false, Obj.get, List.lookup]
      cases hb : (k2 == k1) with
      | true => rfl
      | false => exact ih

theorem Obj.mem_keys_set (o : Obj) (k k2 : String) (v : JSVal) :
    k2 ∈ Obj.keys (Obj.set o k v) ↔ k2 = k ∨ k2 ∈ Obj.keys o := by
  induction o with
  | nil => simp [Obj.set, Obj.keys]
  | cons p o ih =>
    obtain ⟨k1, v1⟩ := p
    by_cases h : k1 = k
    · subst h
      simp [Obj.set, Obj.keys]
    · have ih2 : k2 ∈ List.map Prod.fst (Obj.set o k v) ↔ k2 = k ∨ k2 ∈ List.map Prod.fst o := ih
      simp only [Obj.set, h, if_false, Obj.keys, List.map_cons, List.mem_cons, ih2]
      tauto

theorem Obj.set_of_not_mem (o : Obj) (k : String) (v : JSVal) (h : k ∉ Obj.keys o) :
    Obj.set o k v = o ++ [(k, v)] := by
  induction o with
  | nil => rfl
  | cons p o ih =>
    obtain ⟨k1, v1⟩ := p
    have h1 : k1 ≠ k := fun e => h (by simp [Obj.keys, e])
    have h2 : k ∉ Obj.keys o := fun e => h (by
      have e2 : k ∈ List.map Prod.fst o := e
      simp [Obj.keys, e2])
    simp [Obj.set, h1, ih h2]

/-- Spreading an object whose keys are distinct and new appends its properties. -/
theorem Obj.spread_eq_append : ∀ (src acc : Obj), (Obj.keys (acc ++ src)).Nodup →
    Obj.spread acc src = acc ++ src
  | [], acc, _ => by simp [Obj.spread]
  | (k, v) :: src, acc, h => by
    have hk : k ∉ Obj.keys acc := by
      intro hm
      have hm2 : k ∈ List.map Prod.fst acc := hm
      simp only [Obj.keys, List.map_append, List.map_cons] at h
      have := (List.nodup_append.mp h).2.2
      exact this hm2 (List.mem_cons_self _ _)
    have hs : Obj.set acc k v = acc ++ [(k, v)] := Obj.set_of_not_mem acc k v hk
    have h2 : (Obj.keys ((acc ++ [(k, v)]) ++ src)).Nodup := by
      simpa [List.append_assoc] using h
    have ih := Obj.spread_eq_append src (acc ++ [(k, v)]) h2
    have e : Obj.spread acc ((k, v) :: src) = Obj.spread (Obj.set acc k v) src := by
      simp [Obj.spread]
    rw [e, hs, ih]
    simp

/-- The copy `{ ...o }` of an object is the object. -/
theorem Obj.spread_nil (o : Obj) (h : (Obj.keys o).Nodup) : Obj.spread [] o = o := by
  have := Obj.spread_eq_append o [] (by simpa using h)
  simpa using this

theorem setField_eq (name : String) (value : JSVal) (prev : Obj) (h : (Obj.keys prev).Nodup) :
    setField name value prev = Obj.set prev name value := by
  unfold setField
  rw [Obj.spread_nil prev h]

theorem fieldChanged_handleChange (n v : String) (formData formErrors : Obj)
    (hd : (Obj.keys formData).Nodup) (he : (Obj.keys formErrors).Nodup) :
    FieldChanged n v formData formErrors (setField n (.str v) formData)
      (clearFieldError n formErrors) := by
  rw [setField_eq n _ formData hd]
  refine ⟨Obj.get_set_eq _ _ _, ?_, ?_, ?_⟩
  · intro k hk
    refine ⟨Obj.get_set_ne _ _ _ _ hk, ?_⟩
    rw [Obj.mem_keys_set]
    exact ⟨fun h => h.resolve_left hk, Or.inr⟩
  · intro m hm hne
    have ht : truthy (formErrors.get n) = true := by
      rw [hm]
      simp [truthy, hne]
    unfold clearFieldError
    rw [if_pos ht, setField_eq n _ formErrors he]
    refine ⟨Obj.get_set_eq _ _ _, fun k hk => ⟨Obj.get_set_ne _ _ _ _ hk, ?_⟩⟩
    rw [Obj.mem_keys_set]
    exact ⟨fun h => h.resolve_left hk, Or.inr⟩
  · intro h
    have ht : truthy (formErrors.get n) = false := by
      rcases h with h | h <;> rw [h] <;> simp [truthy]
    unfold clearFieldError
    simp [ht]

/-- C15. On every page, for every state whose form objects have each key once, every field
name `n` and every value `v`, `handleChange` only replaces `formData` and `formErrors`:
`formData[n]` becomes `v` and every other field of `formData` is unchanged; a non-empty
message under `formErrors[n]` becomes the empty string with all other error entries
unchanged; when `formErrors[n]` is absent or empty, `formErrors` is unchanged. -/
theorem handleChange_sets_field_clears_error (n v : String) :
    (∀ s : Announcements.State, (Obj.keys s.formData).Nodup → (Obj.keys s.formErrors).Nodup →
      ∃ fd fe, Announcements.handleChange n v s = { s with formData := fd, formErrors := fe } ∧
        FieldChanged n v s.formData s.formErrors fd fe) ∧
    (∀ s : Jobs.State, (Obj.keys s.formData).Nodup → (Obj.keys s.formErrors).Nodup →
      ∃ fd fe, Jobs.handleChange n v s = { s with formData := fd, formErrors := fe } ∧
        FieldChanged n v s.formData s.formErrors fd fe) ∧
    (∀ s : Projects.State, (Obj.keys s.formData).Nodup → (Obj.keys s.formErrors).Nodup →
      ∃ fd fe, Projects.handleChange n v s = { s with formData := fd, formErrors := fe } ∧
        FieldChanged n v s.formData s.formErrors fd fe) ∧
    (∀ s : Activities.State, (Obj.keys s.formData).Nodup → (Obj.keys s.formErrors).Nodup →
      ∃ fd fe, Activities.handleChange n v s = { s with formData := fd, formErrors := fe } ∧
        FieldChanged n v s.formData s.formErrors fd fe) ∧
    (∀ s : Applicants.State, (Obj.keys s.formData).Nodup → (Obj.keys s.formErrors).Nodup →
      ∃ fd fe, Applicants.handleChange n v s = { s with formData := fd, formErrors := fe } ∧
        FieldChanged n v s.formData s.formErrors fd fe) :=
  ⟨fun s hd he => ⟨_, _, rfl, fieldChanged_handleChange n v s.formData s.formErrors hd he⟩,
    fun s hd he => ⟨_, _, rfl, fieldChanged_handleChange n v s.formData s.formErrors hd he⟩,
    fun s hd he => ⟨_, _, rfl, fieldChanged_handleChange n v s.formData s.formErrors hd he⟩,
    fun s hd he => ⟨_, _, rfl, fieldChanged_handleChange n v s.formData s.formErrors hd he⟩,
    fun s hd he => ⟨_, _, rfl, fieldChanged_handleChange n v s.formData s.formErrors hd he⟩⟩

/-- The edit of the title of `editedState`: the title is replaced and its error message is
emptied; the content, the date and the error of the date stay. -/
theorem handleChange_sets_field_clears_error_witness :
    Announcements.handleChange "title" "New" editedState =
      { editedState with
        formData := [("title", .str "New"), ("content", .str "Text"),
          ("date", .str "2024-01-01")],
        formErrors := [("title", .str ""), ("date", .str "Date is required")] } ∧
    ∃ fd fe, Announcements.handleChange "title" "New" editedState =
        { editedState with formData := fd, formErrors := fe } ∧
      FieldChanged "title" "New" editedState.formData editedState.formErrors fd fe :=
  ⟨by decide,
    (handleChange_sets_field_clears_error "title" "New").1 editedState (by decide) (by decide)⟩

/-! ## The search filters -/

theorem includesChars_iff (s t : List Char) : includesChars s t = true ↔ List.IsInfix t s := by
  unfold includesChars
  rw [List.any_eq_true, List.infix_iff_prefix_suffix]
  constructor
  · rintro ⟨u, hu, hp⟩
    exact ⟨u, List.isPrefixOf_iff_prefix.mp hp, (List.mem_tails _ _).mp hu⟩
  · rintro ⟨u, hp, hu⟩
    exact ⟨u, (List.mem_tails _ _).mpr hu, List.isPrefixOf_iff_prefix.mpr hp⟩

theorem recordMatches_iff (env : Env) (fields : List String) (term : String) (r : Obj) :
    recordMatches env fields term r = true ↔ SearchMatch env fields term r := by
  unfold recordMatches SearchMatch
  rw [List.any_eq_true]
  constructor
  · rintro ⟨f, hf, hm⟩
    refine ⟨f, hf, ?_⟩
    cases hv : r.get f with
    | str v =>
      rw [hv] at hm
      exact ⟨v, rfl, (includesChars_iff _ _).mp hm⟩
    | _ => simp [fieldMatches, hv] at hm
  · rintro ⟨f, hf, v, hv, hm⟩
    refine ⟨f, hf, ?_⟩
    rw [hv]
    exact (includesChars_iff _ _).mpr hm

theorem recordMatches_congr (env : Env) (fields : List String) (term : String) (r r2 : Obj)
    (h : ∀ f ∈ fields, r.get f = r2.get f) :
    recordMatches env fields term r = recordMatches env fields term r2 := by
  unfold recordMatches
  induction fields with
  | nil => rfl
  | cons f fs ih =>
    simp only [List.any_cons]
    rw [h f (List.mem_cons_self _ _), ih (fun g hg => h g (List.mem_cons_of_mem _ hg))]

theorem searchResult_of_eq (env : Env) (fields : List String) (list : List Obj) (term : String)
    (shown : Except JSError (List Obj))
    (h : shown = .ok (list.filter (recordMatches env fields term))) :
    SearchResult env fields list term shown :=
  ⟨recordMatches env fields term, h, recordMatches_iff env fields term,
    recordMatches_congr env fields term⟩

/-- C14. On the Applicants, Activities and Projects pages, for every list whose searched
fields hold strings or are missing and for every search term, the displayed list is the
list filtered, in order, by: the lower-cased term is a substring of the lower-cased value
of a searched field (Applicants: fullName, email, cnic, district; Activities: title,
category, description; Projects: title, type, sector, description).  The test reads no
other field. -/
theorem search_shows_matching_records (env : Env) :
    (∀ s : Applicants.State,
      (∀ r ∈ s.applicants, ∀ f ∈ ["fullName", "email", "cnic", "district"],
        StringOrMissing (r.get f)) →
      SearchResult env ["fullName", "email", "cnic", "district"] s.applicants s.searchTerm
        (Applicants.filteredApplicants env s)) ∧
    (∀ s : Activities.State,
      (∀ r ∈ s.activities, ∀ f ∈ ["title", "category", "description"],
        StringOrMissing (r.get f)) →
      SearchResult env ["title", "category", "description"] s.activities s.searchTerm
        (Activities.filteredActivities env s)) ∧
    (∀ s : Projects.State,
      (∀ r ∈ s.projects, ∀ f ∈ ["title", "type", "sector", "description"],
        StringOrMissing (r.get f)) →
      SearchResult env ["title", "type", "sector", "description"] s.projects s.searchTerm
        (Projects.filteredProjects env s)) :=
  ⟨fun s h => searchResult_of_eq env _ _ _ _ (applicants_filter_eq env s h),
    fun s h => searchResult_of_eq env _ _ _ _ (activities_filter_eq env s h),
    fun s h => searchResult_of_eq env _ _ _ _ (projects_filter_eq env s h)⟩

/-- The search for `QUETTA` among three applicants: the first matches on the district and
the third on the name, in lower case; the second is left out. -/
theorem search_shows_matching_records_witness :
    Applicants.filteredApplicants exampleEnv applicantsSearch =
      .ok [[("id", .str "a1"), ("fullName", .str "Sara Khan"),
          ("email", .str "sara@example.org"), ("cnic", .str "42101-1"),
          ("district", .str "Quetta")],
        [("id", .str "a3"), ("fullName", .str "Omar QUETTAWALA"), ("cnic", .str "42101-3"),
          ("district", .str "Gwadar")]] ∧
    SearchResult exampleEnv ["fullName", "email", "cnic", "district"]
      applicantsSearch.applicants applicantsSearch.searchTerm
      (Applicants.filteredApplicants exampleEnv applicantsSearch) := by
  refine ⟨by rfl, (search_shows_matching_records exampleEnv).1 applicantsSearch ?_⟩
  intro r hr f hf
  simp only [applicantsSearch, threeApplicants, List.mem_cons, List.mem_singleton,
    List.not_mem_nil, or_false] at hr hf
  rcases hr with rfl | rfl | rfl <;> rcases hf with rfl | rfl | rfl | rfl <;>
    first
    | exact Or.inl ⟨_, rfl⟩
    | exact Or.inr (Or.inl rfl)
    | exact Or.inr (Or.inr rfl)

/-! ## The cells and the lines of the CSV text -/

theorem encCell_eq (s : String) :
    encCell s =
      if specialChars s.data then (⟨'"' :: (dqChars s.data ++ ['"'])⟩ : String)
      else ⟨dqChars s.data⟩ := by
  apply String.ext
  rw [encCell_data]
  unfold encChars
  rw [specialChars_dqChars]
  split <;> rfl

theorem encCell_plain (s : String) (h : specialChars s.data = false) : encCell s = s := by
  rw [encCell_eq, h]
  simp only [Bool.false_eq_true, if_false]
  apply String.ext
  exact dqChars_eq_self _ (not_special h).2.1

theorem cellToString_defined (env : Env) (v : JSVal) (hu : v ≠ .undefined) (hn : v ≠ .null) :
    ∃ s, Dashboard.cellToString env v = .ok s := by
  cases v with
  | undefined => exact absurd rfl hu
  | null => exact absurd rfl hn
  | bool b => exact ⟨_, rfl⟩
  | num n => exact ⟨_, rfl⟩
  | str s => exact ⟨_, rfl⟩
  | date t => exact ⟨_, rfl⟩
  | timestamp t => exact ⟨_, rfl⟩
  | serverTimestamp => exact ⟨_, rfl⟩

/-- C19. In `convertToCSV`, for every record and header: when the value is defined and not
`null` it has a string form `s`, and the cell is `s` with every double quote doubled, put
between double quotes exactly when `s` has a comma, a double quote or a newline; when `s`
has none of these the cell is `s` itself; when the value is `undefined` the cell is empty. -/
theorem csv_cell_encoding (env : Env) (item : Obj) (header : String) :
    (item.get header ≠ .undefined → item.get header ≠ .null →
      ∃ s, Dashboard.cellToString env (item.get header) = .ok s ∧
        Dashboard.csvCell env item header =
          .ok (if specialChars s.data then (⟨'"' :: (dqChars s.data ++ ['"'])⟩ : String)
            else ⟨dqChars s.data⟩) ∧
        (specialChars s.data = false → Dashboard.csvCell env item header = .ok s)) ∧
    (item.get header = .undefined → Dashboard.csvCell env item header = .ok "") := by
  refine ⟨fun hu hn => ?_, csvCell_undefined env item header⟩
  obtain ⟨s, hs⟩ := cellToString_defined env _ hu hn
  refine ⟨s, hs, ?_, fun hp => ?_⟩
  · rw [csvCell_of_toString env item header s hu hs, encCell_eq]
  · rw [csvCell_of_toString env item header s hu hs, encCell_plain s hp]

/-- The cells of `csvRecordA`: the name has a comma and is quoted; the note has quotes,
which are doubled, inside quotes; a missing key gives the empty cell. -/
theorem csv_cell_encoding_witness :
    Dashboard.csvCell exampleEnv csvRecordA "name" = .ok "\"A, B\"" ∧
    Dashboard.csvCell exampleEnv csvRecordA "note" = .ok "\"say \"\"hi\"\"\"" ∧
    Dashboard.csvCell exampleEnv csvRecordB "note" = .ok "say hi" ∧
    Dashboard.csvCell exampleEnv csvRecordA "age" = .ok "" ∧
    (∃ s, Dashboard.cellToString exampleEnv (csvRecordA.get "name") = .ok s ∧
      Dashboard.csvCell exampleEnv csvRecordA "name" =
        .ok (if specialChars s.data then (⟨'"' :: (dqChars s.data ++ ['"'])⟩ : String)
          else ⟨dqChars s.data⟩) ∧
      (specialChars s.data = false → Dashboard.csvCell exampleEnv csvRecordA "name" = .ok s)) :=
  ⟨rfl, rfl, rfl, rfl,
    (csv_cell_encoding exampleEnv csvRecordA "name").1 (by decide) (by decide)⟩

theorem mapM_loop_error {α β ε : Type} (f : α → Except ε β) :
    ∀ (l : List α) (acc : List β), (∃ a ∈ l, ∃ e, f a = .error e) →
      ∃ e, List.mapM.loop f l acc = .error e
  | [], _, h => by
    obtain ⟨a, ha, _⟩ := h
    cases ha
  | a :: l, acc, h => by
    cases hfa : f a with
    | error e => exact ⟨e, by simp [List.mapM.loop, hfa, bind, Except.bind]⟩
    | ok b =>
      have h2 : ∃ a2 ∈ l, ∃ e, f a2 = .error e := by
        obtain ⟨x, hx, e, he⟩ := h
        rcases List.mem_cons.mp hx with rfl | hx
        · rw [hfa] at he
          cases he
        · exact ⟨x, hx, e, he⟩
      obtain ⟨e, he⟩ := mapM_loop_error f l (b :: acc) h2
      exact ⟨e, by simp [List.mapM.loop, hfa, bind, Except.bind, he]⟩

theorem mapM_error {α β ε : Type} (f : α → Except ε β) (l : List α)
    (h : ∃ a ∈ l, ∃ e, f a = .error e) : ∃ e, l.mapM f = .error e := by
  obtain ⟨e, he⟩ := mapM_loop_error f l [] h
  exact ⟨e, by simpa [List.mapM] using he⟩

theorem csvCell_null (env : Env) (item : Obj) (header : String)
    (h : item.get header = .null) : Dashboard.csvCell env item header = .error typeError := by
  unfold Dashboard.csvCell
  simp [h, Dashboard.cellToString, bind, Except.bind]

theorem csvCell_eq_cellSpec (env : Env) (item : Obj) (header : String)
    (h : item.get header ≠ .null) :
    Dashboard.csvCell env item header = .ok (cellSpec env (item.get header)) := by
  by_cases hu : item.get header = .undefined
  · rw [csvCell_undefined env item header hu, hu]
    rfl
  · obtain ⟨s, hs⟩ := cellToString_defined env _ hu h
    rw [csvCell_of_toString env item header s hu hs]
    cases hv : item.get header with
    | undefined => exact absurd hv hu
    | null => exact absurd hv h
    | _ =>
      rw [hv] at hs
      simp only [cellSpec, hs]

theorem csvRow_eq (env : Env) (headers : List String) (item : Obj)
    (h : ∀ k ∈ headers, item.get k ≠ .null) :
    Dashboard.csvRow env headers item =
      .ok (",".intercalate (headers.map (fun k => cellSpec env (item.get k))) ++ "\n") := by
  unfold Dashboard.csvRow
  rw [mapM_ok (Dashboard.csvCell env item) (fun k => cellSpec env (item.get k)) headers
    (fun k hk => csvCell_eq_cellSpec env item k (h k hk))]
  rfl

theorem csvRow_null (env : Env) (headers : List String) (item : Obj)
    (h : ∃ k ∈ headers, item.get k = .null) :
    ∃ e, Dashboard.csvRow env headers item = .error e := by
  unfold Dashboard.csvRow
  obtain ⟨k, hk, hn⟩ := h
  obtain ⟨e, he⟩ := mapM_error (Dashboard.csvCell env item) headers
    ⟨k, hk, _, csvCell_null env item k hn⟩
  exact ⟨e, by rw [he]; rfl⟩

theorem foldl_append_eq (rows : List String) (csv : String) :
    rows.foldl (fun acc row => acc ++ row) csv = csv ++ String.join rows := by
  induction rows generalizing csv with
  | nil => simp [String.join]
  | cons r rs ih =>
    rw [List.foldl_cons, ih]
    have : String.join (r :: rs) = r ++ String.join rs := by
      simp only [String.join, List.foldl_cons]
      rw [ih, ih]
      simp [String.join]
    rw [this, String.append_assoc]

/-- C20, at a list of two records of which the second has `null` under the header `note`:
`convertToCSV` raises a TypeError and returns no text.  For a list whose second record
lacks `note`, it returns the table with an empty cell there. -/
theorem convertToCSV_null_raises :
    Dashboard.convertToCSV exampleEnv csvWithNull = .error typeError ∧
    Dashboard.convertToCSV exampleEnv csvWithMissing = .ok "name,note\n\"A, B\",7\nC,\n" :=
  ⟨rfl, rfl⟩

/-- The text of `convertToCSV`: the empty string for the empty list.  For a
non-empty list in which no record has `null` under a header, it returns the header line
made of the keys of the first record except `id`, joined by commas, then one line per
record in list order, every line ended by a newline; the line of a record has one cell
per header, in header order, computed from the value of the record under that header
only, and the cell of a missing value is empty.  When a record has `null` under a header
the function raises and returns no text. -/
theorem convertToCSV_table (env : Env) :
    Dashboard.convertToCSV env [] = .ok "" ∧
    (∀ (first : Obj) (rest : List Obj),
      (∀ item ∈ first :: rest, ∀ h ∈ (Obj.keys first).filter (fun key => key ≠ "id"),
        item.get h ≠ .null) →
      Dashboard.convertToCSV env (first :: rest) =
        .ok (tableText ((Obj.keys first).filter (fun key => key ≠ "id"))
          ((first :: rest).map (fun item =>
            ((Obj.keys first).filter (fun key => key ≠ "id")).map
              (fun h => cellSpec env (item.get h)))))) ∧
    cellSpec env .undefined = "" ∧
    (∀ (first : Obj) (rest : List Obj),
      (∃ item ∈ first :: rest, ∃ h ∈ (Obj.keys first).filter (fun key => key ≠ "id"),
        item.get h = .null) →
      ∃ e, Dashboard.convertToCSV env (first :: rest) = .error e) := by
  refine ⟨rfl, ?_, rfl, ?_⟩
  · intro first rest h
    unfold Dashboard.convertToCSV
    simp only [Dashboard.csvHeaders]
    rw [mapM_ok (Dashboard.csvRow env ((Obj.keys first).filter (fun key => key ≠ "id")))
      (fun item => ",".intercalate (((Obj.keys first).filter (fun key => key ≠ "id")).map
        (fun k => cellSpec env (item.get k))) ++ "\n") (first :: rest)
      (fun item hi => csvRow_eq env _ item (h item hi))]
    simp only [bind, Except.bind, pure, Except.pure]
    rw [foldl_append_eq]
    congr 1
    simp only [tableText, List.map_cons, List.map_map]
    have hj : ∀ (a : String) (l : List String), String.join (a :: l) = a ++ String.join l := by
      intro a l
      simp only [String.join, List.foldl_cons]
      rw [foldl_append_eq, foldl_append_eq]
      simp [String.join]
    simp only [hj]
    rfl
  · intro first rest h
    unfold Dashboard.convertToCSV
    simp only [Dashboard.csvHeaders]
    obtain ⟨item, hi, k, hk, hn⟩ := h
    obtain ⟨e1, he1⟩ := csvRow_null env _ item ⟨k, hk, hn⟩
    obtain ⟨e, he⟩ := mapM_error
      (Dashboard.csvRow env ((Obj.keys first).filter (fun key => key ≠ "id"))) (first :: rest)
      ⟨item, hi, e1, he1⟩
    exact ⟨e, by rw [he]; rfl⟩

/-- The table of `csvWithMissing`: the key `extra` of the second record is not a header,
and its missing `note` is an empty cell. -/
theorem convertToCSV_table_witness :
    Dashboard.convertToCSV exampleEnv csvWithMissing = .ok "name,note\n\"A, B\",7\nC,\n" ∧
    Dashboard.convertToCSV exampleEnv csvWithMissing =
      .ok (tableText ["name", "note"]
        [[cellSpec exampleEnv (.str "A, B"), cellSpec exampleEnv (.num 7)],
          [cellSpec exampleEnv (.str "C"), cellSpec exampleEnv .undefined]]) :=
  ⟨rfl,
    (convertToCSV_table exampleEnv).2.1 _ _ (by decide)⟩

/-! ## A submit whose write is rejected -/

theorem writeRejected_two (q : Req) (m title text : String) (pre : List Ev)
    (h : requests pre = []) :
    WriteRejected q
      (pre ++ [.start q, .settle q false] ++ [.error m, .alert "error" title text]) :=
  ⟨pre, _, rfl, h, rfl, ⟨m, List.mem_cons_self _ _⟩,
    ⟨title, text, List.mem_cons_of_mem _ (List.mem_cons_self _ _)⟩⟩

theorem writeRejected_three (q : Req) (m m2 title text : String) (pre : List Ev)
    (h : requests pre = []) :
    WriteRejected q
      (pre ++ [.start q, .settle q false] ++
        [.error m, .error m2, .alert "error" title text]) :=
  ⟨pre, _, rfl, h, rfl, ⟨m, List.mem_cons_self _ _⟩,
    ⟨title, text, List.mem_cons_of_mem _ (List.mem_cons_of_mem _ (List.mem_cons_self _ _))⟩⟩

theorem announcements_add_rejected {β : Type} (env : Env) (bk : Backend β)
    (r : Run β Announcements.State) (errors : Obj) (ts : JSVal) (e : JSError) (w' : β)
    (hv : Announcements.validateForm r.page.formData = .ok (true, errors))
    (hc : r.page.currentAnnouncement = none)
    (hts : timestampFromDate (newDate env (r.page.formData.get "date")) = .ok ts)
    (hw : bk.addDoc r.world "announcements" (Announcements.newData env r.page.formData ts) =
      (.error e, w')) :
    ∃ evs, Announcements.handleSubmit env bk r =
        .ok ⟨w', { r.page with formErrors := errors, isSubmitting := false }, r.trace ++ evs⟩ ∧
      WriteRejected (.addDoc "announcements" (Announcements.newData env r.page.formData ts))
        evs := by
  refine ⟨_, ?_, writeRejected_three _ "Error saving announcement:" "Error details:" "Error"
    ("Failed to create announcement: " ++ e.message)
    [.log "Submitting announcement with date:", .log "Adding new announcement",
      .log "New announcement data:"] rfl⟩
  unfold Announcements.newData at hw
  simp [Announcements.handleSubmit, Announcements.submitTry, Announcements.submitFailed, hv,
    hc, hts, hw, Run.modify, Run.emit, Run.addDoc, Run.isOk, Announcements.newData]

theorem announcements_update_rejected {β : Type} (env : Env) (bk : Backend β)
    (r : Run β Announcements.State) (errors cur : Obj) (id : String) (ts : JSVal) (e : JSError)
    (w' : β)
    (hv : Announcements.validateForm r.page.formData = .ok (true, errors))
    (hc : r.page.currentAnnouncement = some cur)
    (hid : docId (cur.get "id") = .ok id)
    (hts : timestampFromDate (newDate env (r.page.formData.get "date")) = .ok ts)
    (hw : bk.updateDoc r.world "announcements" id
      (Announcements.updateData env r.page.formData ts) = (.error e, w')) :
    ∃ evs, Announcements.handleSubmit env bk r =
        .ok ⟨w', { r.page with formErrors := errors, isSubmitting := false }, r.trace ++ evs⟩ ∧
      WriteRejected
        (.updateDoc "announcements" id (Announcements.updateData env r.page.formData ts))
        evs := by
  refine ⟨_, ?_, writeRejected_three _ "Error saving announcement:" "Error details:" "Error"
    ("Failed to update announcement: " ++ e.message)
    [.log "Submitting announcement with date:", .log "Updating announcement:"] rfl⟩
  unfold Announcements.updateData at hw
  simp [Announcements.handleSubmit, Announcements.submitTry, Announcements.submitFailed, hv,
    hc, hid, hts, hw, Run.modify, Run.emit, Run.updateDoc, Run.isOk, Announcements.updateData]

theorem jobs_add_rejected {β : Type} (env : Env) (bk : Backend β)
    (r : Run β Jobs.State) (errors : Obj) (ts : JSVal) (e : JSError) (w' : β)
    (hv : Jobs.validateForm r.page.formData = .ok (true, errors))
    (hc : r.page.currentJob = none)
    (hts : timestampFromDate (newDate env (r.page.formData.get "date")) = .ok ts)
    (hw : bk.addDoc r.world "jobs" (Jobs.addData env r.page.formData ts) = (.error e, w')) :
    ∃ evs, Jobs.handleSubmit env bk r =
        .ok ⟨w', { r.page with formErrors := errors, isSubmitting := false }, r.trace ++ evs⟩ ∧
      WriteRejected (.addDoc "jobs" (Jobs.addData env r.page.formData ts)) evs := by
  refine ⟨_, ?_, writeRejected_two _ "Error saving job:" "Error" "Failed to create job" []
    rfl⟩
  unfold Jobs.addData at hw
  simp [Jobs.handleSubmit, Jobs.submitTry, Jobs.submitFailed, hv, hc, hts, hw, Run.modify,
    Run.emit, Run.addDoc, Run.isOk, Jobs.addData, Obj.set]

theorem jobs_update_rejected {β : Type} (env : Env) (bk : Backend β)
    (r : Run β Jobs.State) (errors cur : Obj) (id : String) (ts : JSVal) (e : JSError) (w' : β)
    (hv : Jobs.validateForm r.page.formData = .ok (true, errors))
    (hc : r.page.currentJob = some cur)
    (hid : docId (cur.get "id") = .ok id)
    (hts : timestampFromDate (newDate env (r.page.formData.get "date")) = .ok ts)
    (hw : bk.updateDoc r.world "jobs" id (Jobs.updateData env r.page.formData ts) =
      (.error e, w')) :
    ∃ evs, Jobs.handleSubmit env bk r =
        .ok ⟨w', { r.page with formErrors := errors, isSubmitting := false }, r.trace ++ evs⟩ ∧
      WriteRejected (.updateDoc "jobs" id (Jobs.updateData env r.page.formData ts)) evs := by
  refine ⟨_, ?_, writeRejected_two _ "Error saving job:" "Error" "Failed to update job" []
    rfl⟩
  unfold Jobs.updateData at hw
  simp [Jobs.handleSubmit, Jobs.submitTry, Jobs.submitFailed, hv, hc, hid, hts, hw, Run.modify,
    Run.emit, Run.updateDoc, Run.isOk, Jobs.updateData, Obj.set]

theorem activities_add_rejected {β : Type} (env : Env) (bk : Backend β)
    (r : Run β Activities.State) (errors : Obj) (e : JSError) (w' : β)
    (hv : Activities.validateForm r.page.formData = .ok (true, errors))
    (hw : bk.addDoc r.world "activities" (addPayload env r.page.formData) = (.error e, w')) :
    ∃ evs, Activities.handleAddSubmit env bk r =
        .ok ⟨w', { r.page with formErrors := errors, isSubmitting := false }, r.trace ++ evs⟩ ∧
      WriteRejected (.addDoc "activities" (addPayload env r.page.formData)) evs := by
  refine ⟨_, ?_, writeRejected_three _ "Error adding activity:" "Error details:" "Error"
    ("Failed to add activity: " ++ e.message) [.log "Adding new activity:"] rfl⟩
  unfold addPayload at hw
  simp [Activities.handleAddSubmit, hv, hw, Run.modify, Run.emit, Run.addDoc, Run.isOk,
    addPayload]

theorem activities_update_rejected {β : Type} (env : Env) (bk : Backend β)
    (r : Run β Activities.State) (errors cur : Obj) (id : String) (e : JSError) (w' : β)
    (hv : Activities.validateForm r.page.formData = .ok (true, errors))
    (hc : r.page.currentActivity = some cur)
    (hid : docId (cur.get "id") = .ok id)
    (hw : bk.updateDoc r.world "activities" id (updatePayload r.page.formData) =
      (.error e, w')) :
    ∃ evs, Activities.handleUpdateSubmit env bk r =
        .ok ⟨w', { r.page with formErrors := errors, isSubmitting := false }, r.trace ++ evs⟩ ∧
      WriteRejected (.updateDoc "activities" id (updatePayload r.page.formData)) evs := by
  refine ⟨_, ?_, writeRejected_three _ "Error updating activity:" "Error details:" "Error"
    ("Failed to update activity: " ++ e.message) [.log "Updating activity:"] rfl⟩
  unfold updatePayload at hw
  simp [Activities.handleUpdateSubmit, Activities.updateFailed, recordId, hv, hc, hid, hw,
    Run.modify, Run.emit, Run.updateDoc, Run.isOk, updatePayload]

theorem projects_add_rejected {β : Type} (env : Env) (bk : Backend β)
    (r : Run β Projects.State) (errors : Obj) (e : JSError) (w' : β)
    (hv : Projects.validateForm r.page.formData = .ok (true, errors))
    (hw : bk.addDoc r.world "posts" (addPayload env r.page.formData) = (.error e, w')) :
    ∃ evs, Projects.handleAddSubmit env bk r =
        .ok ⟨w', { r.page with formErrors := errors, isSubmitting := false }, r.trace ++ evs⟩ ∧
      WriteRejected (.addDoc "posts" (addPayload env r.page.formData)) evs := by
  refine ⟨_, ?_, writeRejected_two _ "Error adding post:" "Error" "Failed to add post" []
    rfl⟩
  unfold addPayload at hw
  simp [Projects.handleAddSubmit, hv, hw, Run.modify, Run.emit, Run.addDoc, Run.isOk,
    addPayload]

theorem projects_update_rejected {β : Type} (env : Env) (bk : Backend β)
    (r : Run β Projects.State) (errors cur : Obj) (id : String) (e : JSError) (w' : β)
    (hv : Projects.validateForm r.page.formData = .ok (true, errors))
    (hc : r.page.currentProject = some cur)
    (hid : docId (cur.get "id") = .ok id)
    (hw : bk.updateDoc r.world "posts" id (updatePayload r.page.formData) = (.error e, w')) :
    ∃ evs, Projects.handleUpdateSubmit env bk r =
        .ok ⟨w', { r.page with formErrors := errors, isSubmitting := false }, r.trace ++ evs⟩ ∧
      WriteRejected (.updateDoc "posts" id (updatePayload r.page.formData)) evs := by
  refine ⟨_, ?_, writeRejected_two _ "Error updating post:" "Error" "Failed to update post" []
    rfl⟩
  unfold updatePayload at hw
  simp [Projects.handleUpdateSubmit, Projects.updateFailed, recordId, bind, Except.bind, hv,
    hc, hid, hw, Run.modify, Run.emit, Run.updateDoc, Run.isOk, updatePayload]

theorem applicants_update_rejected {β : Type} (env : Env) (bk : Backend β)
    (r : Run β Applicants.State) (errors : Obj) (coll id : String) (e : JSError) (w' : β)
    (hv : Applicants.validateForm r.page.formData = .ok (true, errors))
    (hp : Applicants.docPath r.page.currentApplicant = .ok (coll, id))
    (hw : bk.updateDoc r.world coll id (Applicants.updatePayload env r.page.formData) =
      (.error e, w')) :
    ∃ evs, Applicants.handleUpdateSubmit env bk r =
        .ok ⟨w', { r.page with formErrors := errors, isSubmitting := false }, r.trace ++ evs⟩ ∧
      WriteRejected (.updateDoc coll id (Applicants.updatePayload env r.page.formData)) evs := by
  refine ⟨_, ?_, writeRejected_two _ "Error updating applicant:" "Error"
    "Failed to update applicant" [] rfl⟩
  unfold Applicants.updatePayload at hw
  simp [Applicants.handleUpdateSubmit, Applicants.updateFailed, hv, hp, hw, Run.modify,
    Run.emit, Run.updateDoc, Run.isOk, Applicants.updatePayload]

/-! ## The writes of a submit -/

theorem writes_append (a b : List Ev) : writes (a ++ b) = writes a ++ writes b := by
  simp [writes, requests, List.filterMap_append, List.filter_append]

theorem announcements_fetch_writes {β : Type} (env : Env) (bk : Backend β) (w : β)
    (s : Announcements.State) :
    writes (Announcements.fetchAnnouncements env bk ⟨w, s, []⟩).trace = [] := by
  unfold Announcements.fetchAnnouncements
  simp only [Run.getDocs, Run.emit, Run.modify]
  rcases bk.getDocs w "announcements" none with ⟨res1, w1⟩
  cases res1 with
  | error e => simp [Announcements.fetchFailed, Run.emit, Run.modify, writes, requests, isWrite]
  | ok docs1 =>
    cases docs1 with
    | nil =>
      rcases h2 : bk.getDocs w1 "announcements" (some ("createdAt", "desc")) with ⟨res2, w2⟩
      cases res2 with
      | error e =>
        simp [h2, Announcements.fetchFailed, Run.emit, Run.modify, writes, requests, isWrite]
      | ok docs2 =>
        simp [h2, Announcements.fetchStore, Run.emit, Run.modify, writes, requests, isWrite]
    | cons d ds =>
      simp [Announcements.fetchStore, Run.emit, Run.modify, writes, requests, isWrite]

theorem announcements_submit_valid {β : Type} (env : Env) (bk : Backend β)
    (r : Run β Announcements.State) (errors : Obj)
    (hv : Announcements.validateForm r.page.formData = .ok (true, errors)) :
    Announcements.handleSubmit env bk r =
      .ok ((Announcements.submitTry env bk r.page
        (r.modify (fun s => { s with formErrors := errors }))).modify
          (fun s => { s with isSubmitting := false })) := by
  simp [Announcements.handleSubmit, hv]

theorem announcements_add_writes {β : Type} (env : Env) (bk : Backend β)
    (r : Run β Announcements.State) (errors : Obj) (ts : JSVal)
    (hv : Announcements.validateForm r.page.formData = .ok (true, errors))
    (hc : r.page.currentAnnouncement = none)
    (hts : timestampFromDate (newDate env (r.page.formData.get "date")) = .ok ts) :
    ∃ r', Announcements.handleSubmit env bk r = .ok r' ∧
      writes r'.trace = writes r.trace ++
        [.addDoc "announcements" (Announcements.newData env r.page.formData ts)] := by
  rcases hres : bk.addDoc r.world "announcements"
    (Announcements.newData env r.page.formData ts) with ⟨res, w1⟩
  unfold Announcements.newData at hres
  cases res with
  | error e =>
    refine ⟨_, announcements_submit_valid env bk r errors hv, ?_⟩
    simp [Announcements.submitTry, Announcements.submitFailed, hv, hc, hts, hres,
      Run.modify, Run.emit, Run.addDoc, Run.isOk, Announcements.newData, writes_append]
    simp [writes, requests, isWrite]
  | ok u =>
    refine ⟨_, announcements_submit_valid env bk r errors hv, ?_⟩
    simp [Announcements.submitTry, Announcements.submitDone, hv, hc, hts, hres,
      Run.modify, Run.emit, Run.addDoc, Run.isOk, Announcements.newData]
    rw [announcements_fetch_trace]
    simp only [writes_append, announcements_fetch_writes]
    simp [writes, requests, isWrite]

theorem announcements_update_writes {β : Type} (env : Env) (bk : Backend β)
    (r : Run β Announcements.State) (errors cur : Obj) (id : String) (ts : JSVal)
    (hv : Announcements.validateForm r.page.formData = .ok (true, errors))
    (hc : r.page.currentAnnouncement = some cur)
    (hid : docId (cur.get "id") = .ok id)
    (hts : timestampFromDate (newDate env (r.page.formData.get "date")) = .ok ts) :
    ∃ r', Announcements.handleSubmit env bk r = .ok r' ∧
      writes r'.trace = writes r.trace ++
        [.updateDoc "announcements" id (Announcements.updateData env r.page.formData ts)] := by
  rcases hres : bk.updateDoc r.world "announcements" id
    (Announcements.updateData env r.page.formData ts) with ⟨res, w1⟩
  unfold Announcements.updateData at hres
  cases res with
  | error e =>
    refine ⟨_, announcements_submit_valid env bk r errors hv, ?_⟩
    simp [Announcements.submitTry, Announcements.submitFailed, hv, hc, hid, hts, hres,
      Run.modify, Run.emit, Run.updateDoc, Run.isOk, Announcements.updateData, writes_append]
    simp [writes, requests, isWrite]
  | ok u =>
    refine ⟨_, announcements_submit_valid env bk r errors hv, ?_⟩
    simp [Announcements.submitTry, Announcements.submitDone, hv, hc, hid, hts, hres,
      Run.modify, Run.emit, Run.updateDoc, Run.isOk, Announcements.updateData]
    rw [announcements_fetch_trace]
    simp only [writes_append, announcements_fetch_writes]
    simp [writes, requests, isWrite]

theorem jobs_fetch_writes {β : Type} (env : Env) (bk : Backend β) (w : β) (s : Jobs.State) :
    writes (Jobs.fetchJobs env bk ⟨w, s, []⟩).trace = [] := by
  unfold Jobs.fetchJobs
  simp only [Run.getDocs, Run.emit, Run.modify]
  rcases bk.getDocs w "jobs" none with ⟨res1, w1⟩
  cases res1 with
  | error e => simp [Jobs.fetchFailed, Run.emit, Run.modify, writes, requests, isWrite]
  | ok docs1 =>
    cases docs1 with
    | nil =>
      rcases h2 : bk.getDocs w1 "jobs" (some ("createdAt", "desc")) with ⟨res2, w2⟩
      cases res2 with
      | error e => simp [h2, Jobs.fetchFailed, Run.emit, Run.modify, writes, requests, isWrite]
      | ok docs2 => simp [h2, Jobs.fetchStore, Run.emit, Run.modify, writes, requests, isWrite]
    | cons d ds => simp [Jobs.fetchStore, Run.emit, Run.modify, writes, requests, isWrite]

theorem jobs_submit_valid {β : Type} (env : Env) (bk : Backend β)
    (r : Run β Jobs.State) (errors : Obj)
    (hv : Jobs.validateForm r.page.formData = .ok (true, errors)) :
    Jobs.handleSubmit env bk r =
      .ok ((Jobs.submitTry env bk r.page
        (r.modify (fun s => { s with formErrors := errors }))).modify
          (fun s => { s with isSubmitting := false })) := by
  simp [Jobs.handleSubmit, hv]

theorem jobs_add_writes {β : Type} (env : Env) (bk : Backend β)
    (r : Run β Jobs.State) (errors : Obj) (ts : JSVal)
    (hv : Jobs.validateForm r.page.formData = .ok (true, errors))
    (hc : r.page.currentJob = none)
    (hts : timestampFromDate (newDate env (r.page.formData.get "date")) = .ok ts) :
    ∃ r', Jobs.handleSubmit env bk r = .ok r' ∧
      writes r'.trace = writes r.trace ++
        [.addDoc "jobs" (Jobs.addData env r.page.formData ts)] := by
  rcases hres : bk.addDoc r.world "jobs" (Jobs.addData env r.page.formData ts) with ⟨res, w1⟩
  unfold Jobs.addData at hres
  cases res with
  | error e =>
    refine ⟨_, jobs_submit_valid env bk r errors hv, ?_⟩
    simp [Jobs.submitTry, Jobs.submitFailed, hv, hc, hts, hres, Run.modify, Run.emit,
      Run.addDoc, Run.isOk, Jobs.addData, Obj.set, writes_append]
    simp [writes, requests, isWrite]
  | ok u =>
    refine ⟨_, jobs_submit_valid env bk r errors hv, ?_⟩
    simp [Jobs.submitTry, Jobs.submitDone, hv, hc, hts, hres, Run.modify, Run.emit,
      Run.addDoc, Run.isOk, Jobs.addData, Obj.set]
    rw [jobs_fetch_trace]
    simp only [writes_append, jobs_fetch_writes]
    simp [writes, requests, isWrite]

theorem jobs_update_writes {β : Type} (env : Env) (bk : Backend β)
    (r : Run β Jobs.State) (errors cur : Obj) (id : String) (ts : JSVal)
    (hv : Jobs.validateForm r.page.formData = .ok (true, errors))
    (hc : r.page.currentJob = some cur)
    (hid : docId (cur.get "id") = .ok id)
    (hts : timestampFromDate (newDate env (r.page.formData.get "date")) = .ok ts) :
    ∃ r', Jobs.handleSubmit env bk r = .ok r' ∧
      writes r'.trace = writes r.trace ++
        [.updateDoc "jobs" id (Jobs.updateData env r.page.formData ts)] := by
  rcases hres : bk.updateDoc r.world "jobs" id (Jobs.updateData env r.page.formData ts) with
    ⟨res, w1⟩
  unfold Jobs.updateData at hres
  cases res with
  | error e =>
    refine ⟨_, jobs_submit_valid env bk r errors hv, ?_⟩
    simp [Jobs.submitTry, Jobs.submitFailed, hv, hc, hid, hts, hres, Run.modify, Run.emit,
      Run.updateDoc, Run.isOk, Jobs.updateData, Obj.set, writes_append]
    simp [writes, requests, isWrite]
  | ok u =>
    refine ⟨_, jobs_submit_valid env bk r errors hv, ?_⟩
    simp [Jobs.submitTry, Jobs.submitDone, hv, hc, hid, hts, hres, Run.modify, Run.emit,
      Run.updateDoc, Run.isOk, Jobs.updateData, Obj.set]
    rw [jobs_fetch_trace]
    simp only [writes_append, jobs_fetch_writes]
    simp [writes, requests, isWrite]

theorem activities_fetch_writes {β : Type} (env : Env) (bk : Backend β) (w : β)
    (s : Activities.State) :
    writes (Activities.fetchActivities env bk ⟨w, s, []⟩).trace = [] := by
  unfold Activities.fetchActivities
  simp only [Run.getDocs, Run.emit, Run.modify]
  rcases bk.getDocs w "activities" none with ⟨res1, w1⟩
  cases res1 with
  | error e => simp [Activities.fetchFailed, Run.emit, Run.modify, writes, requests, isWrite]
  | ok docs1 =>
    cases docs1 with
    | nil =>
      rcases h2 : bk.getDocs w1 "activities" (some ("createdAt", "desc")) with ⟨res2, w2⟩
      cases res2 with
      | error e =>
        simp [h2, Activities.fetchFailed, Run.emit, Run.modify, writes, requests, isWrite]
      | ok docs2 =>
        simp [h2, Activities.fetchStore, Run.emit, Run.modify, writes, requests, isWrite]
    | cons d ds =>
      simp [Activities.fetchStore, Run.emit, Run.modify, writes, requests, isWrite]

theorem activities_add_writes {β : Type} (env : Env) (bk : Backend β)
    (r : Run β Activities.State) (errors : Obj)
    (hv : Activities.validateForm r.page.formData = .ok (true, errors)) :
    ∃ r', Activities.handleAddSubmit env bk r = .ok r' ∧
      writes r'.trace = writes r.trace ++
        [.addDoc "activities" (addPayload env r.page.formData)] := by
  rcases hres : bk.addDoc r.world "activities" (addPayload env r.page.formData) with ⟨res, w1⟩
  unfold addPayload at hres
  unfold Activities.handleAddSubmit
  simp only [hv, Bool.not_true, Bool.false_eq_true, if_false]
  refine ⟨_, rfl, ?_⟩
  cases res with
  | error e =>
    simp [hres, Run.modify, Run.emit, Run.addDoc, Run.isOk, addPayload, writes_append]
    simp [writes, requests, isWrite]
  | ok u =>
    simp [hres, Run.modify, Run.emit, Run.addDoc, Run.isOk, addPayload]
    rw [activities_fetch_trace]
    simp only [writes_append, activities_fetch_writes]
    simp [writes, requests, isWrite]

theorem projects_fetch_writes {β : Type} (env : Env) (bk : Backend β) (w : β)
    (s : Projects.State) :
    writes (Projects.fetchProjects env bk ⟨w, s, []⟩).trace = [] := by
  unfold Projects.fetchProjects
  simp only [Run.getDocs, Run.emit, Run.modify]
  rcases bk.getDocs w "posts" none with ⟨res1, w1⟩
  cases res1 with
  | error e => simp [Projects.fetchFailed, Run.emit, Run.modify, writes, requests, isWrite]
  | ok docs1 =>
    cases docs1 with
    | nil =>
      rcases h2 : bk.getDocs w1 "posts" (some ("createdAt", "desc")) with ⟨res2, w2⟩
      cases res2 with
      | error e =>
        simp [h2, Projects.fetchFailed, Run.emit, Run.modify, writes, requests, isWrite]
      | ok docs2 =>
        simp [h2, Projects.fetchStore, Run.emit, Run.modify, writes, requests, isWrite]
    | cons d ds =>
      simp [Projects.fetchStore, Run.emit, Run.modify, writes, requests, isWrite]

theorem projects_add_writes {β : Type} (env : Env) (bk : Backend β)
    (r : Run β Projects.State) (errors : Obj)
    (hv : Projects.validateForm r.page.formData = .ok (true, errors)) :
    ∃ r', Projects.handleAddSubmit env bk r = .ok r' ∧
      writes r'.trace = writes r.trace ++
        [.addDoc "posts" (addPayload env r.page.formData)] := by
  rcases hres : bk.addDoc r.world "posts" (addPayload env r.page.formData) with ⟨res, w1⟩
  unfold addPayload at hres
  unfold Projects.handleAddSubmit
  simp only [hv, Bool.not_true, Bool.false_eq_true, if_false]
  refine ⟨_, rfl, ?_⟩
  cases res with
  | error e =>
    simp [hres, Run.modify, Run.emit, Run.addDoc, Run.isOk, addPayload, writes_append]
    simp [writes, requests, isWrite]
  | ok u =>
    simp [hres, Run.modify, Run.emit, Run.addDoc, Run.isOk, addPayload]
    rw [projects_fetch_trace]
    simp only [writes_append, projects_fetch_writes]
    simp [writes, requests, isWrite]

theorem announcements_no_conversion {β : Type} (env : Env) (bk : Backend β)
    (r : Run β Announcements.State) (errors : Obj) (e : JSError)
    (hv : Announcements.validateForm r.page.formData = .ok (true, errors))
    (hts : timestampFromDate (newDate env (r.page.formData.get "date")) = .error e) :
    ∃ r', Announcements.handleSubmit env bk r = .ok r' ∧
      requests r'.trace = requests r.trace := by
  refine ⟨_, announcements_submit_valid env bk r errors hv, ?_⟩
  cases hc : r.page.currentAnnouncement with
  | none =>
    simp [Announcements.submitTry, Announcements.submitFailed, hc, hts, Run.modify, Run.emit,
      requests, List.filterMap_append]
  | some cur =>
    cases hid : docId (cur.get "id") with
    | error e2 =>
      simp [Announcements.submitTry, Announcements.submitFailed, hc, hid, Run.modify,
        Run.emit, requests, List.filterMap_append]
    | ok id =>
      simp [Announcements.submitTry, Announcements.submitFailed, hc, hid, hts, Run.modify,
        Run.emit, requests, List.filterMap_append]

theorem jobs_no_conversion {β : Type} (env : Env) (bk : Backend β)
    (r : Run β Jobs.State) (errors : Obj) (e : JSError)
    (hv : Jobs.validateForm r.page.formData = .ok (true, errors))
    (hts : timestampFromDate (newDate env (r.page.formData.get "date")) = .error e) :
    ∃ r', Jobs.handleSubmit env bk r = .ok r' ∧ requests r'.trace = requests r.trace := by
  refine ⟨_, jobs_submit_valid env bk r errors hv, ?_⟩
  simp [Jobs.submitTry, Jobs.submitFailed, hts, Run.modify, Run.emit, requests,
    List.filterMap_append]

/-! ## The writes of the submit handlers -/

theorem docId_str (id : String) (h : id ≠ "") : docId (.str id) = .ok id := by
  simp [docId, h]

/-- C17. For every add or update submit with a valid form whose write is rejected (the
seven handlers of the five pages, `handleSubmit` in add and in edit mode): the handler
returns; the rejected write is the only request it issued (no retry, no refetch); after
the rejection the error is logged with `console.error` and an error alert is shown; the
page state is the old one with only `formErrors` replaced by the result of the
validation and `isSubmitting` false, so the modal stays open and `formData` and the
current record are unchanged. -/
theorem rejected_write_is_reported {β : Type} (env : Env) (bk : Backend β) :
    (∀ (r : Run β Announcements.State) (errors : Obj) (ts : JSVal) (e : JSError) (w' : β),
      Announcements.validateForm r.page.formData = .ok (true, errors) →
      r.page.currentAnnouncement = none →
      timestampFromDate (newDate env (r.page.formData.get "date")) = .ok ts →
      bk.addDoc r.world "announcements" (Announcements.newData env r.page.formData ts) =
        (.error e, w') →
      RejectedSubmit r { r.page with formErrors := errors, isSubmitting := false } w'
        (.addDoc "announcements" (Announcements.newData env r.page.formData ts))
        (Announcements.handleSubmit env bk r)) ∧
    (∀ (r : Run β Announcements.State) (errors cur : Obj) (id : String) (ts : JSVal)
        (e : JSError) (w' : β),
      Announcements.validateForm r.page.formData = .ok (true, errors) →
      r.page.currentAnnouncement = some cur → cur.get "id" = .str id → id ≠ "" →
      timestampFromDate (newDate env (r.page.formData.get "date")) = .ok ts →
      bk.updateDoc r.world "announcements" id
        (Announcements.updateData env r.page.formData ts) = (.error e, w') →
      RejectedSubmit r { r.page with formErrors := errors, isSubmitting := false } w'
        (.updateDoc "announcements" id (Announcements.updateData env r.page.formData ts))
        (Announcements.handleSubmit env bk r)) ∧
    (∀ (r : Run β Jobs.State) (errors : Obj) (ts : JSVal) (e : JSError) (w' : β),
      Jobs.validateForm r.page.formData = .ok (true, errors) →
      r.page.currentJob = none →
      timestampFromDate (newDate env (r.page.formData.get "date")) = .ok ts →
      bk.addDoc r.world "jobs" (Jobs.addData env r.page.formData ts) = (.error e, w') →
      RejectedSubmit r { r.page with formErrors := errors, isSubmitting := false } w'
        (.addDoc "jobs" (Jobs.addData env r.page.formData ts))
        (Jobs.handleSubmit env bk r)) ∧
    (∀ (r : Run β Jobs.State) (errors cur : Obj) (id : String) (ts : JSVal) (e : JSError)
        (w' : β),
      Jobs.validateForm r.page.formData = .ok (true, errors) →
      r.page.currentJob = some cur → cur.get "id" = .str id → id ≠ "" →
      timestampFromDate (newDate env (r.page.formData.get "date")) = .ok ts →
      bk.updateDoc r.world "jobs" id (Jobs.updateData env r.page.formData ts) =
        (.error e, w') →
      RejectedSubmit r { r.page with formErrors := errors, isSubmitting := false } w'
        (.updateDoc "jobs" id (Jobs.updateData env r.page.formData ts))
        (Jobs.handleSubmit env bk r)) ∧
    (∀ (r : Run β Activities.State) (errors : Obj) (e : JSError) (w' : β),
      Activities.validateForm r.page.formData = .ok (true, errors) →
      bk.addDoc r.world "activities" (addPayload env r.page.formData) = (.error e, w') →
      RejectedSubmit r { r.page with formErrors := errors, isSubmitting := false } w'
        (.addDoc "activities" (addPayload env r.page.formData))
        (Activities.handleAddSubmit env bk r)) ∧
    (∀ (r : Run β Activities.State) (errors cur : Obj) (id : String) (e : JSError) (w' : β),
      Activities.validateForm r.page.formData = .ok (true, errors) →
      r.page.currentActivity = some cur → cur.get "id" = .str id → id ≠ "" →
      bk.updateDoc r.world "activities" id (updatePayload r.page.formData) = (.error e, w') →
      RejectedSubmit r { r.page with formErrors := errors, isSubmitting := false } w'
        (.updateDoc "activities" id (updatePayload r.page.formData))
        (Activities.handleUpdateSubmit env bk r)) ∧
    (∀ (r : Run β Projects.State) (errors : Obj) (e : JSError) (w' : β),
      Projects.validateForm r.page.formData = .ok (true, errors) →
      bk.addDoc r.world "posts" (addPayload env r.page.formData) = (.error e, w') →
      RejectedSubmit r { r.page with formErrors := errors, isSubmitting := false } w'
        (.addDoc "posts" (addPayload env r.page.formData))
        (Projects.handleAddSubmit env bk r)) ∧
    (∀ (r : Run β Projects.State) (errors cur : Obj) (id : String) (e : JSError) (w' : β),
      Projects.validateForm r.page.formData = .ok (true, errors) →
      r.page.currentProject = some cur → cur.get "id" = .str id → id ≠ "" →
      bk.updateDoc r.world "posts" id (updatePayload r.page.formData) = (.error e, w') →
      RejectedSubmit r { r.page with formErrors := errors, isSubmitting := false } w'
        (.updateDoc "posts" id (updatePayload r.page.formData))
        (Projects.handleUpdateSubmit env bk r)) ∧
    (∀ (r : Run β Applicants.State) (errors cur : Obj) (coll id : String) (e : JSError)
        (w' : β),
      Applicants.validateForm r.page.formData = .ok (true, errors) →
      r.page.currentApplicant = some cur →
      cur.get "collection" = .str coll → coll ≠ "" → cur.get "id" = .str id → id ≠ "" →
      bk.updateDoc r.world coll id (Applicants.updatePayload env r.page.formData) =
        (.error e, w') →
      RejectedSubmit r { r.page with formErrors := errors, isSubmitting := false } w'
        (.updateDoc coll id (Applicants.updatePayload env r.page.formData))
        (Applicants.handleUpdateSubmit env bk r)) := by
  refine ⟨?_, ?_, ?_, ?_, ?_, ?_, ?_, ?_, ?_⟩
  · intro r errors ts e w' hv hc hts hw
    exact announcements_add_rejected env bk r errors ts e w' hv hc hts hw
  · intro r errors cur id ts e w' hv hc hid hne hts hw
    exact announcements_update_rejected env bk r errors cur id ts e w' hv hc
      (by rw [hid]; exact docId_str id hne) hts hw
  · intro r errors ts e w' hv hc hts hw
    exact jobs_add_rejected env bk r errors ts e w' hv hc hts hw
  · intro r errors cur id ts e w' hv hc hid hne hts hw
    exact jobs_update_rejected env bk r errors cur id ts e w' hv hc
      (by rw [hid]; exact docId_str id hne) hts hw
  · intro r errors e w' hv hw
    exact activities_add_rejected env bk r errors e w' hv hw
  · intro r errors cur id e w' hv hc hid hne hw
    exact activities_update_rejected env bk r errors cur id e w' hv hc
      (by rw [hid]; exact docId_str id hne) hw
  · intro r errors e w' hv hw
    exact projects_add_rejected env bk r errors e w' hv hw
  · intro r errors cur id e w' hv hc hid hne hw
    exact projects_update_rejected env bk r errors cur id e w' hv hc
      (by rw [hid]; exact docId_str id hne) hw
  · intro r errors cur coll id e w' hv hc hcoll hcne hid hne hw
    refine applicants_update_rejected env bk r errors coll id e w' hv ?_ hw
    rw [hc]
    simp [Applicants.docPath, hcoll, hid, docId, hcne, hne]

/-- The add of a filled announcement and the update of a listed one, both rejected by the
database: the handler ends with the modal open, the form as it was, and the write as its
only request. -/
theorem rejected_write_is_reported_witness :
    Announcements.handleSubmit clockEnv failingBackend ⟨(), newsForm, []⟩ =
      .ok ⟨(), newsForm,
        [.log "Submitting announcement with date:", .log "Adding new announcement",
          .log "New announcement data:",
          .start (.addDoc "announcements" (Announcements.newData clockEnv newsForm.formData
            (.timestamp (some 1704067200000)))),
          .settle (.addDoc "announcements" (Announcements.newData clockEnv newsForm.formData
            (.timestamp (some 1704067200000)))) false,
          .error "Error saving announcement:", .error "Error details:",
          .alert "error" "Error" "Failed to create announcement: unavailable"]⟩ ∧
    RejectedSubmit (⟨(), newsForm, []⟩ : Run Unit Announcements.State)
      { newsForm with formErrors := [], isSubmitting := false } ()
      (.addDoc "announcements" (Announcements.newData clockEnv newsForm.formData
        (.timestamp (some 1704067200000))))
      (Announcements.handleSubmit clockEnv failingBackend ⟨(), newsForm, []⟩) ∧
    RejectedSubmit (⟨(), newsEdit, []⟩ : Run Unit Announcements.State)
      { newsEdit with formErrors := [], isSubmitting := false } ()
      (.updateDoc "announcements" "a1" (Announcements.updateData clockEnv newsEdit.formData
        (.timestamp (some 1704067200000))))
      (Announcements.handleSubmit clockEnv failingBackend ⟨(), newsEdit, []⟩) :=
  ⟨rfl,
    (rejected_write_is_reported clockEnv failingBackend).1 ⟨(), newsForm, []⟩ [] _ _ ()
      rfl rfl rfl rfl,
    (rejected_write_is_reported clockEnv failingBackend).2.1 ⟨(), newsEdit, []⟩ [] _ "a1" _ _ ()
      rfl rfl rfl (by decide) rfl rfl⟩

/-- A valid form whose date is in the year 10001 writes nothing: `Timestamp.fromDate`
rejects the date inside the `try` block, so in add mode and in edit mode of
`Announcements.handleSubmit`, and in `Jobs.handleSubmit`, no document is added and none is
updated; the handler shows the error alert and issues no request. -/
theorem out_of_range_date_issues_no_write :
    Announcements.validateForm farNewsForm.formData = .ok (true, []) ∧
    farNewsForm.currentAnnouncement = none ∧
    Announcements.handleSubmit farEnv (constBackend []) ⟨(), farNewsForm, []⟩ =
      .ok ⟨(), farNewsForm,
        [.log "Submitting announcement with date:", .log "Adding new announcement",
          .error "Error saving announcement:", .error "Error details:",
          .alert "error" "Error"
            "Failed to create announcement: Timestamp seconds out of range"]⟩ ∧
    Announcements.validateForm farNewsEdit.formData = .ok (true, []) ∧
    writes (traceOf (Announcements.handleSubmit farEnv (constBackend [])
      ⟨(), farNewsEdit, []⟩)) = [] ∧
    Jobs.validateForm farJobForm.formData = .ok (true, []) ∧
    farJobForm.currentJob = none ∧
    writes (traceOf (Jobs.handleSubmit farEnv (constBackend []) ⟨(), farJobForm, []⟩)) = [] :=
  ⟨rfl, rfl, rfl, rfl, rfl, rfl, rfl, rfl⟩

/-- C18, amended. In `Announcements.handleSubmit` and `Jobs.handleSubmit` with a valid
form: when `Timestamp.fromDate` accepts the date, in edit mode, with a current record
whose id is a non-empty string, the writes of the handler are exactly one update,
addressed to that id, and no add; in add mode they are exactly one add and no update.
The written title and content or description are those of the form, and the update
payload has no `createdAt`.  When `Timestamp.fromDate` rejects the date, in either mode,
the handler returns without issuing any request: nothing is added and nothing is
updated. -/
theorem submit_issues_one_write {β : Type} (env : Env) (bk : Backend β) :
    (∀ (r : Run β Announcements.State) (errors cur : Obj) (id : String) (ts : JSVal),
      Announcements.validateForm r.page.formData = .ok (true, errors) →
      r.page.currentAnnouncement = some cur → cur.get "id" = .str id → id ≠ "" →
      timestampFromDate (newDate env (r.page.formData.get "date")) = .ok ts →
      ∃ r', Announcements.handleSubmit env bk r = .ok r' ∧
        writes r'.trace = writes r.trace ++
          [.updateDoc "announcements" id
            (Announcements.updateData env r.page.formData ts)]) ∧
    (∀ (r : Run β Announcements.State) (errors : Obj) (ts : JSVal),
      Announcements.validateForm r.page.formData = .ok (true, errors) →
      r.page.currentAnnouncement = none →
      timestampFromDate (newDate env (r.page.formData.get "date")) = .ok ts →
      ∃ r', Announcements.handleSubmit env bk r = .ok r' ∧
        writes r'.trace = writes r.trace ++
          [.addDoc "announcements" (Announcements.newData env r.page.formData ts)]) ∧
    (∀ (r : Run β Jobs.State) (errors cur : Obj) (id : String) (ts : JSVal),
      Jobs.validateForm r.page.formData = .ok (true, errors) →
      r.page.currentJob = some cur → cur.get "id" = .str id → id ≠ "" →
      timestampFromDate (newDate env (r.page.formData.get "date")) = .ok ts →
      ∃ r', Jobs.handleSubmit env bk r = .ok r' ∧
        writes r'.trace = writes r.trace ++
          [.updateDoc "jobs" id (Jobs.updateData env r.page.formData ts)]) ∧
    (∀ (r : Run β Jobs.State) (errors : Obj) (ts : JSVal),
      Jobs.validateForm r.page.formData = .ok (true, errors) →
      r.page.currentJob = none →
      timestampFromDate (newDate env (r.page.formData.get "date")) = .ok ts →
      ∃ r', Jobs.handleSubmit env bk r = .ok r' ∧
        writes r'.trace = writes r.trace ++
          [.addDoc "jobs" (Jobs.addData env r.page.formData ts)]) ∧
    (∀ (formData : Obj) (ts : JSVal),
      (Announcements.updateData env formData ts).get "title" = formData.get "title" ∧
      (Announcements.updateData env formData ts).get "content" = formData.get "content" ∧
      "createdAt" ∉ Obj.keys (Announcements.updateData env formData ts) ∧
      (Announcements.newData env formData ts).get "title" = formData.get "title" ∧
      (Announcements.newData env formData ts).get "content" = formData.get "content" ∧
      (Jobs.updateData env formData ts).get "title" = formData.get "title" ∧
      (Jobs.updateData env formData ts).get "description" = formData.get "description" ∧
      "createdAt" ∉ Obj.keys (Jobs.updateData env formData ts) ∧
      (Jobs.addData env formData ts).get "title" = formData.get "title" ∧
      (Jobs.addData env formData ts).get "description" = formData.get "description") ∧
    (∀ (r : Run β Announcements.State) (errors : Obj) (e : JSError),
      Announcements.validateForm r.page.formData = .ok (true, errors) →
      timestampFromDate (newDate env (r.page.formData.get "date")) = .error e →
      ∃ r', Announcements.handleSubmit env bk r = .ok r' ∧
        requests r'.trace = requests r.trace) ∧
    (∀ (r : Run β Jobs.State) (errors : Obj) (e : JSError),
      Jobs.validateForm r.page.formData = .ok (true, errors) →
      timestampFromDate (newDate env (r.page.formData.get "date")) = .error e →
      ∃ r', Jobs.handleSubmit env bk r = .ok r' ∧ requests r'.trace = requests r.trace) := by
  refine ⟨?_, ?_, ?_, ?_, ?_, announcements_no_conversion env bk, jobs_no_conversion env bk⟩
  · intro r errors cur id ts hv hc hid hne hts
    exact announcements_update_writes env bk r errors cur id ts hv hc
      (by rw [hid]; exact docId_str id hne) hts
  · intro r errors ts hv hc hts
    exact announcements_add_writes env bk r errors ts hv hc hts
  · intro r errors cur id ts hv hc hid hne hts
    exact jobs_update_writes env bk r errors cur id ts hv hc
      (by rw [hid]; exact docId_str id hne) hts
  · intro r errors ts hv hc hts
    exact jobs_add_writes env bk r errors ts hv hc hts
  · intro formData ts
    refine ⟨rfl, rfl, ?_, rfl, rfl, rfl, rfl, ?_, rfl, rfl⟩
    · simp [Announcements.updateData, Obj.keys]
    · simp [Jobs.updateData, Obj.keys]

/-- The edit of the announcement `a1` and the add of a new one on a database that accepts
every request: one update of `a1`, and one add. -/
theorem submit_issues_one_write_witness :
    (∃ r', Announcements.handleSubmit clockEnv (constBackend []) ⟨(), newsEdit, []⟩ = .ok r' ∧
      writes r'.trace = writes [] ++
        [.updateDoc "announcements" "a1"
          [("title", .str "News"), ("content", .str "Text"),
            ("date", .timestamp (some 1704067200000)),
            ("updatedAt", .timestamp (some 1704100000000)),
            ("timestamp", .num 1704100000000)]]) ∧
    (∃ r', Announcements.handleSubmit clockEnv (constBackend []) ⟨(), newsForm, []⟩ = .ok r' ∧
      writes r'.trace = writes [] ++
        [.addDoc "announcements"
          [("title", .str "News"), ("content", .str "Text"),
            ("date", .timestamp (some 1704067200000)),
            ("createdAt", .timestamp (some 1704100000000)),
            ("timestamp", .num 1704100000000)]]) :=
  ⟨(submit_issues_one_write clockEnv (constBackend [])).1 ⟨(), newsEdit, []⟩ [] _ "a1" _
      rfl rfl rfl (by decide) rfl,
    (submit_issues_one_write clockEnv (constBackend [])).2.1 ⟨(), newsForm, []⟩ [] _
      rfl rfl rfl⟩

/-- An announcement and a job are created without an update time: the documents written by
the add branch of the two `handleSubmit` have `createdAt` and `timestamp` and no
`updatedAt`. -/
theorem created_without_update_time :
    writes (traceOf (Announcements.handleSubmit clockEnv (constBackend [])
        ⟨(), newsForm, []⟩)) =
      [.addDoc "announcements"
        [("title", .str "News"), ("content", .str "Text"),
          ("date", .timestamp (some 1704067200000)),
          ("createdAt", .timestamp (some 1704100000000)),
          ("timestamp", .num 1704100000000)]] ∧
    writes (traceOf (Jobs.handleSubmit clockEnv (constBackend []) ⟨(), jobForm, []⟩)) =
      [.addDoc "jobs"
        [("title", .str "Clerk"), ("date", .timestamp (some 1704067200000)),
          ("description", .str "Office work"),
          ("createdAt", .timestamp (some 1704100000000)),
          ("timestamp", .num 1704100000000)]] ∧
    Obj.get [("title", .str "News"), ("content", .str "Text"),
        ("date", .timestamp (some 1704067200000)),
        ("createdAt", .timestamp (some 1704100000000)),
        ("timestamp", .num 1704100000000)] "updatedAt" = .undefined := by
  refine ⟨by rfl, by rfl, by rfl⟩

/-- C11, amended. For every valid form, `handleAddSubmit` of Activities and of Projects
writes one document, the form with `createdAt`, `updatedAt` and the numeric `timestamp`
set.  The add branch of `handleSubmit` of Announcements and of Jobs (for a date that
converts to a database timestamp) writes one document with exactly the keys of the form,
`createdAt` and `timestamp`: it has no `updatedAt`. -/
theorem created_documents_timestamps {β : Type} (env : Env) (bk : Backend β) :
    (∀ (r : Run β Activities.State) (errors : Obj),
      Activities.validateForm r.page.formData = .ok (true, errors) →
      ∃ r', Activities.handleAddSubmit env bk r = .ok r' ∧
        writes r'.trace = writes r.trace ++
          [.addDoc "activities" (addPayload env r.page.formData)]) ∧
    (∀ (r : Run β Projects.State) (errors : Obj),
      Projects.validateForm r.page.formData = .ok (true, errors) →
      ∃ r', Projects.handleAddSubmit env bk r = .ok r' ∧
        writes r'.trace = writes r.trace ++
          [.addDoc "posts" (addPayload env r.page.formData)]) ∧
    (∀ formData : Obj,
      (addPayload env formData).get "createdAt" = .serverTimestamp ∧
      (addPayload env formData).get "updatedAt" = .serverTimestamp ∧
      (addPayload env formData).get "timestamp" = .num env.now) ∧
    (∀ (r : Run β Announcements.State) (errors : Obj) (ts : JSVal),
      Announcements.validateForm r.page.formData = .ok (true, errors) →
      r.page.currentAnnouncement = none →
      timestampFromDate (newDate env (r.page.formData.get "date")) = .ok ts →
      ∃ r', Announcements.handleSubmit env bk r = .ok r' ∧
        writes r'.trace = writes r.trace ++
          [.addDoc "announcements" (Announcements.newData env r.page.formData ts)]) ∧
    (∀ (r : Run β Jobs.State) (errors : Obj) (ts : JSVal),
      Jobs.validateForm r.page.formData = .ok (true, errors) →
      r.page.currentJob = none →
      timestampFromDate (newDate env (r.page.formData.get "date")) = .ok ts →
      ∃ r', Jobs.handleSubmit env bk r = .ok r' ∧
        writes r'.trace = writes r.trace ++
          [.addDoc "jobs" (Jobs.addData env r.page.formData ts)]) ∧
    (∀ (formData : Obj) (ts : JSVal),
      Obj.keys (Announcements.newData env formData ts) =
        ["title", "content", "date", "createdAt", "timestamp"] ∧
      Obj.keys (Jobs.addData env formData ts) =
        ["title", "date", "description", "createdAt", "timestamp"] ∧
      (Announcements.newData env formData ts).get "updatedAt" = .undefined ∧
      (Jobs.addData env formData ts).get "updatedAt" = .undefined) := by
  refine ⟨?_, ?_, ?_, ?_, ?_, ?_⟩
  · intro r errors hv
    exact activities_add_writes env bk r errors hv
  · intro r errors hv
    exact projects_add_writes env bk r errors hv
  · intro formData
    unfold addPayload
    refine ⟨?_, ?_, Obj.get_set_eq _ _ _⟩
    · rw [Obj.get_set_ne _ _ _ _ (by decide), Obj.get_set_ne _ _ _ _ (by decide),
        Obj.get_set_eq]
    · rw [Obj.get_set_ne _ _ _ _ (by decide), Obj.get_set_eq]
  · intro r errors ts hv hc hts
    exact announcements_add_writes env bk r errors ts hv hc hts
  · intro r errors ts hv hc hts
    exact jobs_add_writes env bk r errors ts hv hc hts
  · intro formData ts
    exact ⟨rfl, rfl, rfl, rfl⟩

/-- The add of a filled activity: the written document has the three timestamps after the
five fields of the form. -/
theorem created_documents_timestamps_witness :
    (∃ r', Activities.handleAddSubmit clockEnv (constBackend []) ⟨(), activityForm, []⟩ =
        .ok r' ∧
      writes r'.trace = writes [] ++
        [.addDoc "activities" (addPayload clockEnv activityForm.formData)]) ∧
    addPayload clockEnv activityForm.formData =
      [("title", .str "Open day"), ("imageUrl", .str "https://example.com/a.jpg"),
        ("category", .str "Event"), ("description", .str "All welcome"), ("link", .str ""),
        ("createdAt", .serverTimestamp), ("updatedAt", .serverTimestamp),
        ("timestamp", .num 1704100000000)] :=
  ⟨(created_documents_timestamps clockEnv (constBackend [])).1 ⟨(), activityForm, []⟩ [] rfl,
    rfl⟩

end RBC
